import Mathlib

/-!
# RSA signature encoding and blinding (Botan)

A shallow embedding of

* `src/lib/pk_pad/sig_padding/emsa_pkcs1/pkcs1_sig_padding.cpp`
  (`pkcs1v15_sig_encoding`, `PKCS1v15_SignaturePaddingScheme`,
  `PKCS1v15_Raw_SignaturePaddingScheme`),
* `src/lib/pubkey/blinding/blinding.cpp` (`Blinder`),
* `src/lib/utils/version.h` (`BOTAN_VERSION_CODE_FOR`), and
* `src/lib/pubkey/ecies/ecies.cpp` (`ECIES_KA_Params`, `ECIES_System_Params`,
  `compute_point_size`, the framing of `ECIES_Encryptor::enc` and
  `ECIES_Decryptor::do_decrypt`).

Conventions.

* A byte string (`std::span<const uint8_t>`, `std::vector<uint8_t>`) is a
  `List Nat`; the byte constants written by the code are `0x00`, `0x01`,
  `0xFF`.  No statement below needs the entries to be below 256, so every
  theorem covers all real byte strings.
* `size_t` lengths are `Nat`.  The only `size_t` arithmetic of the encoder is
  `hash_id.size() + msg.size() + 2 + 8` (sizes of objects in memory, far from
  `2^64`) and one subtraction, which the guard in front of it keeps from
  wrapping.  The Blinder's `size_t` counter and `m_modulus_bits - 1` are
  modelled modulo `2^64`.
* A C++ function that can throw returns `Except Exception _`.
* `BigInt` values are `Nat`: the blinder only handles residues and nonces,
  which are non-negative.
-/

namespace Botan

/-! ## Exceptions -/

/-- The exception classes that the embedded code paths can raise. -/
inductive Exception where
  | Encoding_Error (msg : String)
  | Invalid_State (msg : String)
  | Internal_Error (msg : String)
  | Lookup_Error (msg : String)
  | Invalid_Argument (msg : String)
  | Decoding_Error (msg : String)
  deriving DecidableEq, Repr

/-! ## Helpers that live outside the embedded sources -/

/-- Modelled from the spec: `BufferStuffer` (declared in
`botan/internal/stl_util.h`, which is not among the sources) is the cursor the
encoder uses to fill its output buffer field after field (section 4.2 gives
the layout as consecutive fields).  `written` is the part of the underlying
buffer before the cursor, `m_buffer` the part from the cursor on, so the
underlying buffer is `written ++ m_buffer`. -/
structure BufferStuffer where
  written : List Nat
  m_buffer : List Nat
  deriving DecidableEq, Repr

namespace BufferStuffer

/-- The stuffer positioned at the start of `buffer`. -/
def init (buffer : List Nat) : BufferStuffer := ⟨[], buffer⟩

/-- Number of bytes that can still be written. -/
def remaining_capacity (s : BufferStuffer) : Nat := s.m_buffer.length

/-- Whether the whole buffer has been written. -/
def full (s : BufferStuffer) : Bool := s.m_buffer.isEmpty

/-- The underlying buffer, as the owner of the storage sees it. -/
def underlying (s : BufferStuffer) : List Nat := s.written ++ s.m_buffer

/-- Writes the bytes `bytes` at the cursor and advances it; writing more than
the remaining capacity is refused with an exception and writes nothing. -/
def append (s : BufferStuffer) (bytes : List Nat) : Except Exception BufferStuffer :=
  if s.m_buffer.length < bytes.length then
    .error (.Invalid_State "BufferStuffer: not enough capacity")
  else
    .ok ⟨s.written ++ bytes, s.m_buffer.drop bytes.length⟩

/-- The overload `append(b, repeat)`: writes `b` `repeat` times. -/
def append_byte (s : BufferStuffer) (b : Nat) (repeat_ : Nat) :
    Except Exception BufferStuffer :=
  s.append (List.replicate repeat_ b)

end BufferStuffer

/-- Modelled from the spec: `constant_time_compare` (declared in
`botan/mem_ops.h`, which is not among the sources) is the "constant-time
equality check" of section 4.2, for which "any length mismatch" gives
`false`: it answers whether the two byte strings have the same length and the
same bytes.  Its running time is not modelled. -/
def constant_time_compare (x y : List Nat) : Bool := decide (x = y)

/-- The part of the external digest engine that signature padding looks at:
its canonical name and its output length in bytes. -/
structure HashFunction where
  name : String
  output_length : Nat
  deriving DecidableEq, Repr

/-! ## `pkcs1v15_sig_encoding` -/

/-- The encoder of `pkcs1_sig_padding.cpp`, lines 21-41.  `padded` is
`output_length` zero bytes, filled through a `BufferStuffer`. -/
def pkcs1v15_sig_encoding (msg : List Nat) (output_bits : Nat) (hash_id : List Nat) :
    Except Exception (List Nat) :=
  let output_length := output_bits / 8
  if output_length < hash_id.length + msg.length + 2 + 8 then
    .error (.Encoding_Error "pkcs1v15_sig_encoding: Output length is too small")
  else do
    let stuffer := BufferStuffer.init (List.replicate output_length 0)
    let stuffer ← stuffer.append_byte 0x01 1
    let stuffer ← stuffer.append_byte 0xFF
      (stuffer.remaining_capacity - (1 + hash_id.length + msg.length))
    let stuffer ← stuffer.append_byte 0x00 1
    let stuffer ← stuffer.append hash_id
    let stuffer ← stuffer.append msg
    if stuffer.full then
      pure stuffer.underlying
    else
      throw (.Internal_Error "Assertion stuffer.full() failed")

/-- The byte string that the statements of the encoder's layout refer to:
`0x01`, then `output_bits / 8 - |hash_id| - |msg| - 2` bytes `0xFF`, then
`0x00`, the hash identifier and the message. -/
def pkcs1v15_layout (msg : List Nat) (output_bits : Nat) (hash_id : List Nat) : List Nat :=
  [0x01] ++ List.replicate (output_bits / 8 - hash_id.length - msg.length - 2) 0xFF
    ++ [0x00] ++ hash_id ++ msg

/-- The random-number generator is an external collaborator.  `source n bits`
is the value it hands out at its `n`-th request (counted from 0) when asked
for `bits` bits; `requests` logs the bit lengths asked for so far, oldest
first.  Nothing is assumed about the values. -/
structure RandomNumberGenerator where
  source : Nat → Nat → Nat
  requests : List Nat

/-! ## `PKCS1v15_SignaturePaddingScheme` -/

/-- The members of `PKCS1v15_SignaturePaddingScheme` that `encoding_of` and
`verify` read: the digest engine and the hash-identifier bytes. -/
structure PKCS1v15_SignaturePaddingScheme where
  m_hash : HashFunction
  m_hash_id : List Nat
  deriving DecidableEq, Repr

namespace PKCS1v15_SignaturePaddingScheme

/-- The constructor (lines 78-81).  The hash-identifier table `pkcs_hash_id`
(`hash_id.h`, not among the sources) is a parameter. -/
def create (pkcs_hash_id : String → List Nat) (hash : HashFunction) :
    PKCS1v15_SignaturePaddingScheme :=
  { m_hash := hash, m_hash_id := pkcs_hash_id hash.name }

/-- Source lines 53-61; the generator argument is unnamed in the source and cannot
be touched. -/
def encoding_of (s : PKCS1v15_SignaturePaddingScheme) (msg : List Nat) (output_bits : Nat)
    (_rng : RandomNumberGenerator) : Except Exception (List Nat) :=
  if msg.length ≠ s.m_hash.output_length then
    .error (.Encoding_Error "PKCS1v15_SignaturePaddingScheme::encoding_of: Bad input length")
  else
    pkcs1v15_sig_encoding msg output_bits s.m_hash_id

/-- Source lines 63-76.  The result type keeps track of exceptions leaving the
function; the `try`/`catch(...)` turns every exception of the encoder into
`false`. -/
def verify (s : PKCS1v15_SignaturePaddingScheme) (coded raw : List Nat) (key_bits : Nat) :
    Except Exception Bool :=
  if raw.length ≠ s.m_hash.output_length then
    .ok false
  else
    match pkcs1v15_sig_encoding raw key_bits s.m_hash_id with
    | .ok pkcs1 => .ok (constant_time_compare coded pkcs1)
    | .error _ => .ok false

end PKCS1v15_SignaturePaddingScheme

/-! ## `PKCS1v15_Raw_SignaturePaddingScheme` -/

/-- The members of `PKCS1v15_Raw_SignaturePaddingScheme`. -/
structure PKCS1v15_Raw_SignaturePaddingScheme where
  m_hash_output_len : Nat
  m_hash_name : String
  m_hash_id : List Nat
  m_message : List Nat
  deriving DecidableEq, Repr

namespace PKCS1v15_Raw_SignaturePaddingScheme

/-- The default constructor (lines 99-101): the unbound mode. -/
def unbound : PKCS1v15_Raw_SignaturePaddingScheme :=
  { m_hash_output_len := 0, m_hash_name := "", m_hash_id := [], m_message := [] }

/-- The constructor from a hash name (lines 103-108), after its two lookups:
`hash` is the engine found by `HashFunction::create_or_throw(hash_algo)` and
`hash_id` the bytes found by `pkcs_hash_id(hash_algo)`. -/
def bound (hash : HashFunction) (hash_id : List Nat) : PKCS1v15_Raw_SignaturePaddingScheme :=
  { m_hash_output_len := hash.output_length, m_hash_name := hash.name, m_hash_id := hash_id,
    m_message := [] }

/-- Source lines 110-112. -/
def update (s : PKCS1v15_Raw_SignaturePaddingScheme) (input : List Nat) :
    PKCS1v15_Raw_SignaturePaddingScheme :=
  { s with m_message := s.m_message ++ input }

/-- Source lines 114-123: the buffer is swapped out before the length is checked,
so the scheme is left with an empty buffer whether or not the call throws. -/
def raw_data (s : PKCS1v15_Raw_SignaturePaddingScheme) :
    Except Exception (List Nat) × PKCS1v15_Raw_SignaturePaddingScheme :=
  let ret := s.m_message
  let s1 := { s with m_message := [] }
  if 0 < s.m_hash_output_len ∧ ret.length ≠ s.m_hash_output_len then
    (.error (.Encoding_Error
      "PKCS1v15_Raw_SignaturePaddingScheme::encoding_of: Bad input length"), s1)
  else
    (.ok ret, s1)

/-- Source lines 125-129. -/
def encoding_of (s : PKCS1v15_Raw_SignaturePaddingScheme) (msg : List Nat) (output_bits : Nat)
    (_rng : RandomNumberGenerator) : Except Exception (List Nat) :=
  pkcs1v15_sig_encoding msg output_bits s.m_hash_id

/-- Source lines 131-144. -/
def verify (s : PKCS1v15_Raw_SignaturePaddingScheme) (coded raw : List Nat) (key_bits : Nat) :
    Except Exception Bool :=
  if 0 < s.m_hash_output_len ∧ raw.length ≠ s.m_hash_output_len then
    .ok false
  else
    match pkcs1v15_sig_encoding raw key_bits s.m_hash_id with
    | .ok pkcs1 => .ok (constant_time_compare coded pkcs1)
    | .error _ => .ok false

end PKCS1v15_Raw_SignaturePaddingScheme

/-- The byte string `c` with bit `p` flipped, that is bit `p % 8` of byte
`p / 8`; a position outside `c` changes nothing. -/
def flip_bit : List Nat → Nat → List Nat
  | [], _ => []
  | b :: bs, p => if p < 8 then (b ^^^ 2 ^ p) :: bs else b :: flip_bit bs (p - 8)

/-- The hash identifier of SHA-256 (section 8 of the specification). -/
def sha256_hash_id : List Nat :=
  [0x30, 0x31, 0x30, 0x0d, 0x06, 0x09, 0x60, 0x86, 0x48, 0x01, 0x65, 0x03, 0x04, 0x02, 0x01,
   0x05, 0x00, 0x04, 0x20]

/-- The SHA-256 digest of the three bytes "abc". -/
def sha256_abc : List Nat :=
  [0xba, 0x78, 0x16, 0xbf, 0x8f, 0x01, 0xcf, 0xea, 0x41, 0x41, 0x40, 0xde, 0x5d, 0xae, 0x22,
   0x23, 0xb0, 0x03, 0x61, 0xa3, 0x96, 0x17, 0x7a, 0x9c, 0xb4, 0x10, 0xff, 0x61, 0xf2, 0x00,
   0x15, 0xad]

/-- The PKCS1v15 scheme over SHA-256. -/
def pkcs1v15_sha256 : PKCS1v15_SignaturePaddingScheme :=
  { m_hash := { name := "SHA-256", output_length := 32 }, m_hash_id := sha256_hash_id }

/-- A generator that always answers 0. -/
def zero_rng : RandomNumberGenerator := { source := fun _ _ => 0, requests := [] }

/-! ## `Blinder` -/

/-- Modelled from the spec: `Barrett_Reduction` (the modular-reduction engine,
not among the sources) is consumed through `multiply`, `square` and
`modulus_bits`; `multiply(a, b)` is `a·b mod n` (section 4.6: "`x·e mod n`
(via the reduction context's `multiply`)") and `square(a)` is `a·a mod n`.
The bit length it reports is a member of its own. -/
structure Barrett_Reduction where
  m_modulus : Nat
  m_modulus_bits : Nat
  deriving DecidableEq, Repr

namespace Barrett_Reduction

/-- Product modulo the modulus. -/
def multiply (r : Barrett_Reduction) (x y : Nat) : Nat := (x * y) % r.m_modulus

/-- Square modulo the modulus. -/
def square (r : Barrett_Reduction) (x : Nat) : Nat := (x * x) % r.m_modulus

/-- Bit length of the modulus. -/
def modulus_bits (r : Barrett_Reduction) : Nat := r.m_modulus_bits

end Barrett_Reduction

/-- Modelled from the spec: the constructor `BigInt(rng, bits)` (not among the
sources) "draws nonce `k` of `bits` bits from the RNG": one request to the
generator, which is logged. -/
def BigInt.random (rng : RandomNumberGenerator) (bits : Nat) : Nat × RandomNumberGenerator :=
  (rng.source rng.requests.length bits, { rng with requests := rng.requests ++ [bits] })

/-- The members of `Blinder`.  The generator, held by reference in the source, is
threaded through the state. -/
structure Blinder where
  m_reducer : Barrett_Reduction
  m_rng : RandomNumberGenerator
  m_fwd_fn : Nat → Nat
  m_inv_fn : Nat → Nat
  m_modulus_bits : Nat
  m_e : Nat
  m_d : Nat
  m_counter : Nat

namespace Blinder

/-- Source lines 27-29; `m_modulus_bits - 1` is a `size_t` subtraction. -/
def blinding_nonce (b : Blinder) : Nat × RandomNumberGenerator :=
  BigInt.random b.m_rng ((b.m_modulus_bits + 2 ^ 64 - 1) % 2 ^ 64)

/-- The constructor (lines 12-25): the members are initialised (`m_e`, `m_d`
default to zero, `m_counter{}` is zero), then one nonce is drawn. -/
def create (reducer : Barrett_Reduction) (rng : RandomNumberGenerator)
    (fwd inv : Nat → Nat) : Blinder :=
  let b : Blinder :=
    { m_reducer := reducer, m_rng := rng, m_fwd_fn := fwd, m_inv_fn := inv,
      m_modulus_bits := reducer.modulus_bits, m_e := 0, m_d := 0, m_counter := 0 }
  let k := b.blinding_nonce
  { b with m_rng := k.2, m_e := b.m_fwd_fn k.1, m_d := b.m_inv_fn k.1 }

/-- Source lines 31-45.  `ReinitInterval` is a compile-time constant of
`blinding.h` (not among the sources) and is a parameter here; `++m_counter` is
a `size_t` increment.  The result is the returned value and the state after
the call. -/
def blind (ReinitInterval : Nat) (b : Blinder) (i : Nat) : Nat × Blinder :=
  let b1 := { b with m_counter := (b.m_counter + 1) % 2 ^ 64 }
  let b2 : Blinder :=
    if 0 < ReinitInterval ∧ ReinitInterval < b1.m_counter then
      let k := b1.blinding_nonce
      { b1 with m_rng := k.2, m_e := b1.m_fwd_fn k.1, m_d := b1.m_inv_fn k.1, m_counter := 0 }
    else
      { b1 with m_e := b1.m_reducer.square b1.m_e, m_d := b1.m_reducer.square b1.m_d }
  (b2.m_reducer.multiply i b2.m_e, b2)

/-- Source lines 47-49; the state is not written. -/
def unblind (b : Blinder) (i : Nat) : Nat :=
  b.m_reducer.multiply i b.m_d

/-- A call made on a Blinder by its owner. -/
inductive Call where
  | blind (i : Nat)
  | unblind (i : Nat)
  deriving DecidableEq, Repr

/-- The state after one call. -/
def step (ReinitInterval : Nat) (b : Blinder) : Call → Blinder
  | .blind i => (b.blind ReinitInterval i).2
  | .unblind _ => b

/-- The state after a sequence of calls, oldest first. -/
def run (ReinitInterval : Nat) (b : Blinder) (calls : List Call) : Blinder :=
  calls.foldl (step ReinitInterval) b

end Blinder

/-- Two Blinder states that have the same value in every member other than the
values the generator hands out: reducer, functions, bit length, pair, counter
and the log of requests made to the generator. -/
def Blinder.agree_up_to_source (b1 b2 : Blinder) : Prop :=
  b1.m_reducer = b2.m_reducer ∧ b1.m_rng.requests = b2.m_rng.requests ∧
    b1.m_fwd_fn = b2.m_fwd_fn ∧ b1.m_inv_fn = b2.m_inv_fn ∧
    b1.m_modulus_bits = b2.m_modulus_bits ∧ b1.m_e = b2.m_e ∧ b1.m_d = b2.m_d ∧
    b1.m_counter = b2.m_counter

/-- A generator that always answers 3. -/
def three_rng : RandomNumberGenerator := { source := fun _ _ => 3, requests := [] }

/-- A generator that always answers 2. -/
def two_rng : RandomNumberGenerator := { source := fun _ _ => 2, requests := [] }

/-- Whether none of the `blind` calls with inputs `xs` (oldest first), made one
after the other from state `b`, takes the reinitialising branch of `blind`. -/
def Blinder.no_reinit (ReinitInterval : Nat) : Blinder → List Nat → Bool
  | _, [] => true
  | b, x :: xs =>
    !(decide (0 < ReinitInterval ∧ ReinitInterval < (b.m_counter + 1) % 2 ^ 64)) &&
      Blinder.no_reinit ReinitInterval (b.blind ReinitInterval x).2 xs

/-- The digest engine SHA-256, as far as padding sees it. -/
def sha256 : HashFunction := { name := "SHA-256", output_length := 32 }

/-! ## Scheme names -/

/-- Modelled from the spec: `fmt` (declared in `botan/internal/fmt.h`, which is
not among the sources) builds the scheme names of section 4.3,
`"PKCS1v15(Raw,<hash-name>)"`, from a format string with one placeholder: the
first `{}` of the format is replaced by the argument and the rest of the
format is copied. -/
def fmt_chars : List Char → List Char → List Char
  | [], _ => []
  | [c], _ => [c]
  | c1 :: c2 :: rest, arg =>
    if c1 = '\x7b' ∧ c2 = '\x7d' then arg ++ rest else c1 :: fmt_chars (c2 :: rest) arg

/-- The function `fmt` on strings, with one argument. -/
def fmt (format arg : String) : String := String.mk (fmt_chars format.data arg.data)

/-- Source lines 83-85. -/
def PKCS1v15_SignaturePaddingScheme.hash_function (s : PKCS1v15_SignaturePaddingScheme) :
    String :=
  s.m_hash.name

/-- Source lines 87-89. -/
def PKCS1v15_SignaturePaddingScheme.name (s : PKCS1v15_SignaturePaddingScheme) : String :=
  fmt "PKCS1v15(\x7b\x7d)" s.m_hash.name

/-- Source lines 91-97. -/
def PKCS1v15_Raw_SignaturePaddingScheme.name (s : PKCS1v15_Raw_SignaturePaddingScheme) :
    String :=
  if s.m_hash_name = "" then "PKCS1v15(Raw)" else fmt "PKCS1v15(Raw,\x7b\x7d)" s.m_hash_name

/-! ## The factory -/

/-- The concrete schemes behind the interface of `sig_padding.h`, as a tagged
variant; the two ISO 9796-2 schemes carry the constructor arguments declared in
`iso9796.h`. -/
inductive SignaturePaddingScheme where
  | PKCS1v15 (s : PKCS1v15_SignaturePaddingScheme)
  | PKCS1v15_Raw (s : PKCS1v15_Raw_SignaturePaddingScheme)
  | ISO_9796_DS2 (hash : HashFunction) (implicit : Bool) (salt_size : Nat)
  | ISO_9796_DS3 (hash : HashFunction) (implicit : Bool)
  deriving DecidableEq, Repr

/-- Modelled from the spec: the algorithm-specification strings of section 6
have the grammar `Name`, `Name(Hash)` or `Name(Hash,Param)`; the parser is not
among the sources.  `split_args` cuts the text between the parentheses at its
commas. -/
def split_args : List Char → List (List Char)
  | [] => [[]]
  | c :: cs =>
    match split_args cs with
    | [] => [[c]]
    | a :: rest => if c = ',' then [] :: a :: rest else (c :: a) :: rest

/-- Modelled from the spec: the parser of the grammar of section 6.  The name
is the text before the first `(`; a specification without `(` has no argument;
otherwise the text after the `(` has to end in `)` and holds one or two
arguments separated by a comma.  Anything else is no specification. -/
def parse_algo_spec (algo_spec : String) : Option (String × List String) :=
  let name := algo_spec.data.takeWhile (fun c => c != '(')
  match algo_spec.data.dropWhile (fun c => c != '(') with
  | [] => some (String.mk name, [])
  | _ :: body =>
    if body.getLast? = some ')' then
      let args := (split_args body.dropLast).map String.mk
      if args.length ≤ 2 then some (String.mk name, args) else none
    else none

/-- Modelled from the spec: `HashFunction::create_or_throw` belongs to the
digest engine, which is not among the sources.  `hash_create` is the registry of
digest engines, `none` for a name it does not know; section 6: "Unknown
names/hashes surface as lookup failures with the exact message format specified
in §4.1". -/
def HashFunction.create_or_throw (hash_create : String → Option HashFunction) (algo : String) :
    Except Exception HashFunction :=
  match hash_create algo with
  | some hash => .ok hash
  | none => .error (.Lookup_Error ("Could not find any algorithm named \"" ++ algo ++ "\""))

/-- Modelled from the spec: `SignaturePaddingScheme::create` is only declared
in `sig_padding.h`; its body is not among the sources.  Section 2: the factory
"parses an algorithm specification string (e.g. `"PKCS1v15(SHA-256)"`) and
instantiates the matching concrete scheme, wiring in a constructed Digest
Engine"; section 4.1: it "returns an absent/null value on unknown algorithm
name"; section 4.3: the raw variant is named `"PKCS1v15(Raw)"` or
`"PKCS1v15(Raw,<hash-name>)"`.  The result is `.ok none` for the null value
and an error when a constructor throws (the raw variant's constructor looks its
hash up itself, source lines 103-108).  The registry of digest engines
`hash_create`, the hash-identifier table `pkcs_hash_id`, and the reading of the
optional `Param` of the two ISO 9796-2 schemes (`ds2_args`, `ds3_args`), of
which the spec says nothing, are parameters. -/
def SignaturePaddingScheme.create (hash_create : String → Option HashFunction)
    (pkcs_hash_id : String → List Nat)
    (ds2_args : HashFunction → Option String → Option (Bool × Nat))
    (ds3_args : HashFunction → Option String → Option Bool)
    (algo_spec : String) : Except Exception (Option SignaturePaddingScheme) :=
  match parse_algo_spec algo_spec with
  | none => .ok none
  | some (name, args) =>
    if name = "PKCS1v15" then
      match args with
      | [a] =>
        if a = "Raw" then
          .ok (some (.PKCS1v15_Raw PKCS1v15_Raw_SignaturePaddingScheme.unbound))
        else
          match hash_create a with
          | some hash =>
            .ok (some (.PKCS1v15 (PKCS1v15_SignaturePaddingScheme.create pkcs_hash_id hash)))
          | none => .ok none
      | [a, hash_algo] =>
        if a = "Raw" then do
          let hash ← HashFunction.create_or_throw hash_create hash_algo
          pure (some (.PKCS1v15_Raw
            (PKCS1v15_Raw_SignaturePaddingScheme.bound hash (pkcs_hash_id hash_algo))))
        else .ok none
      | _ => .ok none
    else if name = "ISO_9796_DS2" then
      match args with
      | [a] =>
        match hash_create a with
        | some hash => .ok ((ds2_args hash none).map (fun p => .ISO_9796_DS2 hash p.1 p.2))
        | none => .ok none
      | [a, param] =>
        match hash_create a with
        | some hash =>
          .ok ((ds2_args hash (some param)).map (fun p => .ISO_9796_DS2 hash p.1 p.2))
        | none => .ok none
      | _ => .ok none
    else if name = "ISO_9796_DS3" then
      match args with
      | [a] =>
        match hash_create a with
        | some hash => .ok ((ds3_args hash none).map (fun p => .ISO_9796_DS3 hash p))
        | none => .ok none
      | [a, param] =>
        match hash_create a with
        | some hash => .ok ((ds3_args hash (some param)).map (fun p => .ISO_9796_DS3 hash p))
        | none => .ok none
      | _ => .ok none
    else .ok none

/-- Modelled from the spec: `SignaturePaddingScheme::create_or_throw` is only
declared in `sig_padding.h`; its body is not among the sources.  Section 4.1:
"`create(spec)` returns an absent/null value on unknown algorithm name;
`create_or_throw(spec)` raises a lookup failure with a message of the exact
form `Could not find any algorithm named "<spec>"`". -/
def SignaturePaddingScheme.create_or_throw (hash_create : String → Option HashFunction)
    (pkcs_hash_id : String → List Nat)
    (ds2_args : HashFunction → Option String → Option (Bool × Nat))
    (ds3_args : HashFunction → Option String → Option Bool)
    (algo_spec : String) : Except Exception SignaturePaddingScheme :=
  match SignaturePaddingScheme.create hash_create pkcs_hash_id ds2_args ds3_args algo_spec with
  | .error e => .error e
  | .ok (some scheme) => .ok scheme
  | .ok none =>
    .error (.Lookup_Error ("Could not find any algorithm named \"" ++ algo_spec ++ "\""))

/-- A registry of digest engines that knows SHA-256 only. -/
def sha256_only (algo : String) : Option HashFunction :=
  if algo = "SHA-256" then some sha256 else none

/-- A reading of the parameter of ISO 9796-2 DS2 that always gives the explicit
trailer and a salt as long as the digest. -/
def ds2_explicit (hash : HashFunction) (_param : Option String) : Option (Bool × Nat) :=
  some (false, hash.output_length)

/-- A reading of the parameter of ISO 9796-2 DS3 that always gives the explicit
trailer. -/
def ds3_explicit (_hash : HashFunction) (_param : Option String) : Option Bool :=
  some false

/-- A hash-identifier table that knows SHA-256 only. -/
def sha256_only_hash_id (algo : String) : List Nat :=
  if algo = "SHA-256" then sha256_hash_id else []

/-! ## Version codes -/

/-- The macro `BOTAN_VERSION_CODE_FOR` of `version.h`, line 138, on operands of
an unsigned type of `w` bits (`w = 32` for `uint32_t`, the type `version.h`
gives to version numbers): a left shift keeps the low `w` bits only. -/
def BOTAN_VERSION_CODE_FOR (w a b c : Nat) : Nat :=
  (((a <<< 16) % 2 ^ w) ||| ((b <<< 8) % 2 ^ w)) ||| c

/-- Lexicographic `≥` on version triples. -/
def version_ge (a1 b1 c1 a2 b2 c2 : Nat) : Prop :=
  a2 < a1 ∨ (a1 = a2 ∧ (b2 < b1 ∨ (b1 = b2 ∧ c2 ≤ c1)))

/-! ## ECIES parameters -/

/-- The point encodings of `EC_Point_Format` (declared outside the sources;
`ecies.cpp` names `Uncompressed` and `Compressed`). -/
inductive EC_Point_Format where
  | Uncompressed
  | Compressed
  | Hybrid
  deriving DecidableEq, Repr

/-- What `ecies.cpp` asks of an `EC_Group`: the byte lengths of a field element
and of the group order. -/
structure EC_Group where
  p_bytes : Nat
  order_bytes : Nat
  deriving DecidableEq, Repr

/-- The values of the enumerators of `ECIES_Flags` (declared in `ecies.h`, which
is not among the sources) are parameters.  A flag set is the `uint32_t` behind
the enumeration, and `&` on flag sets is bitwise. -/
structure ECIES_Flags where
  SingleHashMode : Nat
  CofactorMode : Nat
  OldCofactorMode : Nat
  CheckMode : Nat
  deriving DecidableEq, Repr

/-- The members of `ECIES_KA_Params`. -/
structure ECIES_KA_Params where
  m_group : EC_Group
  m_kdf : String
  m_length : Nat
  m_point_format : EC_Point_Format
  m_single_hash_mode : Bool
  m_check_mode : Bool
  m_cofactor_mode : Bool
  m_old_cofactor_mode : Bool
  deriving DecidableEq, Repr

namespace ECIES_KA_Params

/-- The constructor from flags (`ecies.cpp`, lines 215-224). -/
def from_flags (F : ECIES_Flags) (group : EC_Group) (kdf : String) (length : Nat)
    (point_format : EC_Point_Format) (flags : Nat) : ECIES_KA_Params :=
  { m_group := group, m_kdf := kdf, m_length := length, m_point_format := point_format,
    m_single_hash_mode := decide (flags &&& F.SingleHashMode = F.SingleHashMode),
    m_check_mode := decide (flags &&& F.CheckMode = F.CheckMode),
    m_cofactor_mode := decide (flags &&& F.CofactorMode = F.CofactorMode),
    m_old_cofactor_mode := decide (flags &&& F.OldCofactorMode = F.OldCofactorMode) }

/-- The constructor from `single_hash_mode` (`ecies.cpp`, lines 226-235). -/
def from_bool (group : EC_Group) (kdf : String) (length : Nat)
    (point_format : EC_Point_Format) (single_hash_mode : Bool) : ECIES_KA_Params :=
  { m_group := group, m_kdf := kdf, m_length := length, m_point_format := point_format,
    m_single_hash_mode := single_hash_mode, m_check_mode := true, m_cofactor_mode := false,
    m_old_cofactor_mode := false }

/-- The accessor `secret_length()`. -/
def secret_length (p : ECIES_KA_Params) : Nat := p.m_length

end ECIES_KA_Params

/-- The members of `ECIES_System_Params`, which derives from `ECIES_KA_Params`. -/
structure ECIES_System_Params extends ECIES_KA_Params where
  m_dem_spec : String
  m_dem_keylen : Nat
  m_mac_spec : String
  m_mac_keylen : Nat
  deriving DecidableEq, Repr

namespace ECIES_System_Params

/-- The constructor from flags (`ecies.cpp`, lines 237-254); `dem_key_len +
mac_key_len` is a `size_t` sum, and the three `size_t(bool)` terms are 0 or
1. -/
def from_flags (F : ECIES_Flags) (group : EC_Group) (kdf dem_algo_spec : String)
    (dem_key_len : Nat) (mac_spec : String) (mac_key_len : Nat)
    (point_format : EC_Point_Format) (flags : Nat) : Except Exception ECIES_System_Params :=
  let p : ECIES_System_Params :=
    { toECIES_KA_Params := ECIES_KA_Params.from_flags F group kdf
        ((dem_key_len + mac_key_len) % 2 ^ 64) point_format flags,
      m_dem_spec := dem_algo_spec, m_dem_keylen := dem_key_len, m_mac_spec := mac_spec,
      m_mac_keylen := mac_key_len }
  if 1 < p.m_cofactor_mode.toNat + p.m_old_cofactor_mode.toNat + p.m_check_mode.toNat then
    .error (.Invalid_Argument
      "ECIES: only one of cofactor_mode, old_cofactor_mode and check_mode can be set")
  else
    .ok p

/-- The constructor from `single_hash_mode` (`ecies.cpp`, lines 256-268); its
body is empty. -/
def from_bool (group : EC_Group) (kdf dem_algo_spec : String)
    (dem_key_len : Nat) (mac_spec : String) (mac_key_len : Nat)
    (point_format : EC_Point_Format) (single_hash_mode : Bool) : ECIES_System_Params :=
  { toECIES_KA_Params := ECIES_KA_Params.from_bool group kdf
      ((dem_key_len + mac_key_len) % 2 ^ 64) point_format single_hash_mode,
    m_dem_spec := dem_algo_spec, m_dem_keylen := dem_key_len, m_mac_spec := mac_spec,
    m_mac_keylen := mac_key_len }

end ECIES_System_Params

/-- Enumerator values 1, 2, 4 and 8, one bit each. -/
def one_bit_flags : ECIES_Flags :=
  { SingleHashMode := 1, CofactorMode := 2, OldCofactorMode := 4, CheckMode := 8 }

/-! ## ECIES ciphertext framing -/

/-- The helper `compute_point_size` (`ecies.cpp`, lines 374-381). -/
def compute_point_size (group : EC_Group) (format : EC_Point_Format) : Nat :=
  let fe_bytes := group.p_bytes
  if format = EC_Point_Format.Compressed then 1 + fe_bytes else 1 + 2 * fe_bytes

/-- What the framing code reads of an `ECIES_Decryptor`: its parameters, and of
the two external collaborators `m_mac` and `m_cipher` their `output_length`
functions. -/
structure ECIES_Decryptor where
  m_params : ECIES_System_Params
  m_mac_output_length : Nat
  m_cipher_output_length : Nat → Nat

namespace ECIES_Decryptor

/-- Source: `ecies.cpp`, lines 385-394. -/
def plaintext_length (d : ECIES_Decryptor) (ctext_len : Nat) : Nat :=
  let point_size := compute_point_size d.m_params.m_group d.m_params.m_point_format
  let overhead := point_size + d.m_mac_output_length
  if ctext_len < overhead then 0 else d.m_cipher_output_length (ctext_len - overhead)

/-- Source: `ecies.cpp`, lines 399-409, the length check and the extraction of the
three parts of the input.  The rest of `do_decrypt` (lines 411-446: point
decoding, key agreement, MAC check and decryption, all done by external
collaborators) is the parameter `rest`, which receives the three parts. -/
def do_decrypt {α : Type} (d : ECIES_Decryptor)
    (rest : List Nat → List Nat → List Nat → Except Exception α) (input : List Nat) :
    Except Exception α :=
  let in_len := input.length
  let point_size := compute_point_size d.m_params.m_group d.m_params.m_point_format
  if in_len < point_size + d.m_mac_output_length then
    .error (.Decoding_Error "ECIES decryption: ciphertext is too short")
  else
    let other_public_key_bin := input.take point_size
    let encrypted_data := (input.take (in_len - d.m_mac_output_length)).drop point_size
    let mac_data := input.drop (in_len - d.m_mac_output_length)
    rest other_public_key_bin encrypted_data mac_data

end ECIES_Decryptor

/-- What `enc` reads of an `ECIES_Encryptor`: the serialized ephemeral public key
and whether the peer's point has been set. -/
structure ECIES_Encryptor where
  m_eph_public_key_bin : List Nat
  m_other_point : Option (List Nat)
  deriving DecidableEq, Repr

/-- Source: `ecies.cpp`, lines 318-349.  Key derivation, encryption and the MAC
(lines 325-343, external collaborators) are the parameter `encrypt_and_mac`, which gives
the encrypted data and the MAC or throws; `concat` joins its arguments. -/
def ECIES_Encryptor.enc (e : ECIES_Encryptor)
    (encrypt_and_mac : List Nat → Except Exception (List Nat × List Nat)) (data : List Nat) :
    Except Exception (List Nat) :=
  if e.m_other_point.isNone then
    .error (.Invalid_State "ECIES_Encryptor: peer key invalid or not set")
  else
    match encrypt_and_mac data with
    | .ok (encrypted_data, mac) => .ok (e.m_eph_public_key_bin ++ encrypted_data ++ mac)
    | .error ex => .error ex

/-- A decryptor for a 256-bit curve with compressed points, a 32-byte MAC and a
cipher mode whose output is as long as its input. -/
def sample_decryptor : ECIES_Decryptor :=
  { m_params := ECIES_System_Params.from_bool ⟨32, 32⟩ "KDF2(SHA-256)" "AES-256/CBC" 32
      "HMAC(SHA-256)" 32 .Compressed false,
    m_mac_output_length := 32,
    m_cipher_output_length := fun n => n }

/-! # Theorems -/

/-! ## The encoder -/

theorem BufferStuffer.append_ok (s : BufferStuffer) (bytes : List Nat)
    (h : bytes.length ≤ s.m_buffer.length) :
    s.append bytes = .ok ⟨s.written ++ bytes, s.m_buffer.drop bytes.length⟩ := by
  unfold BufferStuffer.append
  rw [if_neg (by omega)]

theorem except_ok_bind {ε α β : Type} (a : α) (f : α → Except ε β) :
    ((Except.ok a : Except ε α) >>= f) = f a := rfl

theorem pkcs1v15_sig_encoding_eq (msg : List Nat) (output_bits : Nat) (hash_id : List Nat)
    (h : hash_id.length + msg.length + 10 ≤ output_bits / 8) :
    pkcs1v15_sig_encoding msg output_bits hash_id =
      .ok (pkcs1v15_layout msg output_bits hash_id) := by
  unfold pkcs1v15_sig_encoding pkcs1v15_layout
  simp only []
  rw [if_neg (by omega)]
  simp only [BufferStuffer.append_byte, BufferStuffer.init]
  rw [BufferStuffer.append_ok _ _ (by simp; omega), except_ok_bind]
  rw [BufferStuffer.append_ok _ _ (by simp [BufferStuffer.remaining_capacity]), except_ok_bind]
  rw [BufferStuffer.append_ok _ _ (by simp [BufferStuffer.remaining_capacity]; omega),
    except_ok_bind]
  rw [BufferStuffer.append_ok _ _ (by simp [BufferStuffer.remaining_capacity]; omega),
    except_ok_bind]
  rw [BufferStuffer.append_ok _ _ (by simp [BufferStuffer.remaining_capacity]; omega),
    except_ok_bind]
  have e : output_bits / 8 - 1 - (1 + hash_id.length + msg.length)
      = output_bits / 8 - hash_id.length - msg.length - 2 := by omega
  have z : output_bits / 8 - 1 - (output_bits / 8 - hash_id.length - msg.length - 2) - 1
      - hash_id.length - msg.length = 0 := by omega
  simp [BufferStuffer.full, BufferStuffer.underlying, BufferStuffer.remaining_capacity, e, z,
    pure, Except.pure]

theorem pkcs1v15_sig_encoding_small (msg : List Nat) (output_bits : Nat) (hash_id : List Nat)
    (h : output_bits / 8 < hash_id.length + msg.length + 10) :
    pkcs1v15_sig_encoding msg output_bits hash_id =
      .error (.Encoding_Error "pkcs1v15_sig_encoding: Output length is too small") := by
  unfold pkcs1v15_sig_encoding
  simp only []
  rw [if_pos (by omega)]

theorem pkcs1v15_layout_length (msg : List Nat) (output_bits : Nat) (hash_id : List Nat)
    (h : hash_id.length + msg.length + 10 ≤ output_bits / 8) :
    (pkcs1v15_layout msg output_bits hash_id).length = output_bits / 8 := by
  simp [pkcs1v15_layout]
  omega

/-- A successful encoding is the layout, and the guard passed. -/
theorem pkcs1v15_sig_encoding_ok (msg : List Nat) (output_bits : Nat) (hash_id c : List Nat)
    (h : pkcs1v15_sig_encoding msg output_bits hash_id = .ok c) :
    hash_id.length + msg.length + 10 ≤ output_bits / 8 ∧
      c = pkcs1v15_layout msg output_bits hash_id := by
  by_cases hs : output_bits / 8 < hash_id.length + msg.length + 10
  · rw [pkcs1v15_sig_encoding_small _ _ _ hs] at h
    cases h
  · have hge : hash_id.length + msg.length + 10 ≤ output_bits / 8 := by omega
    rw [pkcs1v15_sig_encoding_eq _ _ _ hge] at h
    injection h with h
    exact ⟨hge, h.symm⟩

theorem flip_bit_ne (c : List Nat) (p : Nat) (h : p < 8 * c.length) : flip_bit c p ≠ c := by
  induction c generalizing p with
  | nil => simp at h
  | cons b bs ih =>
    unfold flip_bit
    by_cases hp : p < 8
    · rw [if_pos hp]
      intro heq
      injection heq with hb _
      have h0 : b ^^^ (b ^^^ 2 ^ p) = b ^^^ b := by rw [hb]
      rw [Nat.xor_cancel_left, Nat.xor_self] at h0
      exact absurd h0 (by positivity)
    · rw [if_neg hp]
      intro heq
      injection heq with _ ht
      refine ih (p - 8) ?_ ht
      simp only [List.length_cons] at h
      omega


/-! ## PKCS #1 v1.5 signature padding: layout and errors -/

/-- C1 (as amended): for every PKCS1v15 scheme with hash identifier `I` of
length `i`, every digest `H` of the hash's output length `h` and every
`output_bits` with `L = output_bits / 8 ≥ i + h + 10`, `encoding_of` returns
the `L`-byte string `0x01 | 0xFF × (L - i - h - 2) | 0x00 | I | H`; there is
no leading `0x00` byte. -/
theorem pkcs1v15_encoding_of_layout (s : PKCS1v15_SignaturePaddingScheme) (H : List Nat)
    (output_bits : Nat) (rng : RandomNumberGenerator)
    (hH : H.length = s.m_hash.output_length)
    (hL : s.m_hash_id.length + H.length + 10 ≤ output_bits / 8) :
    s.encoding_of H output_bits rng =
        .ok ([0x01] ++ List.replicate (output_bits / 8 - s.m_hash_id.length - H.length - 2) 0xFF
              ++ [0x00] ++ s.m_hash_id ++ H) ∧
      ([0x01] ++ List.replicate (output_bits / 8 - s.m_hash_id.length - H.length - 2) 0xFF
              ++ [0x00] ++ s.m_hash_id ++ H).length = output_bits / 8 := by
  constructor
  · unfold PKCS1v15_SignaturePaddingScheme.encoding_of
    rw [if_neg (by simp [hH])]
    exact pkcs1v15_sig_encoding_eq H output_bits s.m_hash_id hL
  · exact pkcs1v15_layout_length H output_bits s.m_hash_id hL

/-- C1, the instance of section 8: with the SHA-256 hash identifier, the digest
of "abc" and `output_bits = 2048` the encoding is the 256 bytes
`01 FF … FF 00`, the 19-byte identifier and the 32-byte digest, with 203 bytes
`0xFF`. -/
theorem pkcs1v15_encoding_of_layout_sha256 :
    sha256_abc.length = pkcs1v15_sha256.m_hash.output_length ∧
    pkcs1v15_sha256.m_hash_id.length + sha256_abc.length + 10 ≤ 2048 / 8 ∧
    pkcs1v15_sha256.encoding_of sha256_abc 2048 zero_rng =
        .ok ([0x01] ++ List.replicate 203 0xFF ++ [0x00] ++ sha256_hash_id ++ sha256_abc) ∧
    ([0x01] ++ List.replicate 203 0xFF ++ [0x00] ++ sha256_hash_id ++ sha256_abc).length
      = 256 :=
  ⟨by decide, by decide,
    pkcs1v15_encoding_of_layout pkcs1v15_sha256 sha256_abc 2048 zero_rng (by decide) (by decide)⟩

/-- C1 (as stated) fails: at the instance of section 8 the guard
`L ≥ i + h + 10` holds, yet the encoding is not
`0x00 | 0x01 | 0xFF × (L - i - h - 3) | 0x00 | I | H`. -/
theorem pkcs1v15_encoding_of_no_leading_zero :
    sha256_abc.length = pkcs1v15_sha256.m_hash.output_length ∧
    pkcs1v15_sha256.m_hash_id.length + sha256_abc.length + 10 ≤ 2048 / 8 ∧
    pkcs1v15_sha256.encoding_of sha256_abc 2048 zero_rng ≠
      .ok ([0x00, 0x01] ++ List.replicate (2048 / 8 - 19 - 32 - 3) 0xFF ++ [0x00]
            ++ sha256_hash_id ++ sha256_abc) := by
  refine ⟨by decide, by decide, ?_⟩
  have h := pkcs1v15_sig_encoding_eq sha256_abc 2048 sha256_hash_id (by decide)
  unfold PKCS1v15_SignaturePaddingScheme.encoding_of
  rw [if_neg (by decide)]
  show pkcs1v15_sig_encoding sha256_abc 2048 sha256_hash_id ≠ _
  rw [h]
  intro heq
  injection heq with heq
  exact absurd (congrArg List.head? heq) (by decide)

/-- C2: whenever `output_bits < 8 * (i + h + 2 + 8)`, `pkcs1v15_sig_encoding`
fails with an `Encoding_Error`, and so do `encoding_of` of the PKCS1v15 scheme
and of the Raw scheme; no truncated encoding is returned. -/
theorem pkcs1v15_encoding_too_small (msg hash_id : List Nat) (output_bits : Nat)
    (s : PKCS1v15_SignaturePaddingScheme) (r : PKCS1v15_Raw_SignaturePaddingScheme)
    (rng : RandomNumberGenerator)
    (hs : s.m_hash_id = hash_id) (hr : r.m_hash_id = hash_id)
    (h : output_bits < 8 * (hash_id.length + msg.length + 2 + 8)) :
    pkcs1v15_sig_encoding msg output_bits hash_id =
        .error (.Encoding_Error "pkcs1v15_sig_encoding: Output length is too small") ∧
      (∃ m, s.encoding_of msg output_bits rng = .error (.Encoding_Error m)) ∧
      (∃ m, r.encoding_of msg output_bits rng = .error (.Encoding_Error m)) := by
  have hsmall : output_bits / 8 < hash_id.length + msg.length + 10 := by omega
  have e := pkcs1v15_sig_encoding_small msg output_bits hash_id hsmall
  refine ⟨e, ?_, ?_⟩
  · unfold PKCS1v15_SignaturePaddingScheme.encoding_of
    by_cases hl : msg.length ≠ s.m_hash.output_length
    · rw [if_pos hl]
      exact ⟨_, rfl⟩
    · rw [if_neg hl, hs, e]
      exact ⟨_, rfl⟩
  · unfold PKCS1v15_Raw_SignaturePaddingScheme.encoding_of
    rw [hr, e]
    exact ⟨_, rfl⟩

/-- C2, the instance of section 8: SHA-256 (`i = 19`, `h = 32`) with
`output_bits = 256` fails. -/
theorem pkcs1v15_encoding_too_small_sha256 :
    256 < 8 * (sha256_hash_id.length + sha256_abc.length + 2 + 8) ∧
    pkcs1v15_sig_encoding sha256_abc 256 sha256_hash_id =
        .error (.Encoding_Error "pkcs1v15_sig_encoding: Output length is too small") ∧
      (∃ m, pkcs1v15_sha256.encoding_of sha256_abc 256 zero_rng = .error (.Encoding_Error m)) ∧
      (∃ m, (PKCS1v15_Raw_SignaturePaddingScheme.bound ⟨"SHA-256", 32⟩
          sha256_hash_id).encoding_of sha256_abc 256 zero_rng = .error (.Encoding_Error m)) :=
  ⟨by decide,
    pkcs1v15_encoding_too_small sha256_abc sha256_hash_id 256 pkcs1v15_sha256
      (PKCS1v15_Raw_SignaturePaddingScheme.bound ⟨"SHA-256", 32⟩ sha256_hash_id) zero_rng
      rfl rfl (by decide)⟩


/-! ## PKCS #1 v1.5 signature padding: verification -/

theorem constant_time_compare_self (x : List Nat) : constant_time_compare x x = true := by
  simp [constant_time_compare]

theorem constant_time_compare_ne (x y : List Nat) (h : x ≠ y) :
    constant_time_compare x y = false := by
  simp [constant_time_compare, h]

/-- C3: round trip.  For the PKCS1v15 scheme, and for the Raw scheme when it is
unbound (`m_hash_output_len = 0`) or `raw` has the bound hash's output length,
every successful `encoding_of(raw, output_bits, rng)` is accepted by
`verify(·, raw, output_bits)`. -/
theorem pkcs1v15_round_trip (s : PKCS1v15_SignaturePaddingScheme)
    (r : PKCS1v15_Raw_SignaturePaddingScheme) (raw : List Nat) (output_bits : Nat)
    (rng : RandomNumberGenerator) (c : List Nat) :
    (s.encoding_of raw output_bits rng = .ok c → s.verify c raw output_bits = .ok true) ∧
    ((r.m_hash_output_len = 0 ∨ raw.length = r.m_hash_output_len) →
      r.encoding_of raw output_bits rng = .ok c → r.verify c raw output_bits = .ok true) := by
  constructor
  · intro h
    unfold PKCS1v15_SignaturePaddingScheme.encoding_of at h
    by_cases hl : raw.length ≠ s.m_hash.output_length
    · rw [if_pos hl] at h
      cases h
    · rw [if_neg hl] at h
      unfold PKCS1v15_SignaturePaddingScheme.verify
      rw [if_neg hl, h]
      simp [constant_time_compare_self]
  · intro hm h
    unfold PKCS1v15_Raw_SignaturePaddingScheme.encoding_of at h
    unfold PKCS1v15_Raw_SignaturePaddingScheme.verify
    rw [if_neg (by omega), h]
    simp [constant_time_compare_self]

/-- C3 at concrete inputs: SHA-256 and the digest of "abc" at 2048 bits, for the
PKCS1v15 scheme and for the Raw scheme bound to SHA-256. -/
theorem pkcs1v15_round_trip_sha256 :
    pkcs1v15_sha256.verify (pkcs1v15_layout sha256_abc 2048 sha256_hash_id) sha256_abc 2048
      = .ok true ∧
    (PKCS1v15_Raw_SignaturePaddingScheme.bound ⟨"SHA-256", 32⟩ sha256_hash_id).verify
      (pkcs1v15_layout sha256_abc 2048 sha256_hash_id) sha256_abc 2048 = .ok true :=
  have h := pkcs1v15_round_trip pkcs1v15_sha256
    (PKCS1v15_Raw_SignaturePaddingScheme.bound ⟨"SHA-256", 32⟩ sha256_hash_id)
    sha256_abc 2048 zero_rng (pkcs1v15_layout sha256_abc 2048 sha256_hash_id)
  ⟨h.1 (by
      unfold PKCS1v15_SignaturePaddingScheme.encoding_of
      rw [if_neg (by decide)]
      exact pkcs1v15_sig_encoding_eq sha256_abc 2048 sha256_hash_id (by decide)),
   h.2 (Or.inr (by decide)) (pkcs1v15_sig_encoding_eq sha256_abc 2048 sha256_hash_id (by decide))⟩

/-- C4: tamper rejection.  If `encoding_of(raw, bits, rng)` succeeds with `c`,
then for every bit position `p` of `c`, `verify` rejects `c` with bit `p`
flipped. -/
theorem pkcs1v15_verify_rejects_bit_flip (s : PKCS1v15_SignaturePaddingScheme)
    (raw : List Nat) (bits : Nat) (rng : RandomNumberGenerator) (c : List Nat) (p : Nat)
    (h : s.encoding_of raw bits rng = .ok c) (hp : p < 8 * c.length) :
    s.verify (flip_bit c p) raw bits = .ok false := by
  unfold PKCS1v15_SignaturePaddingScheme.encoding_of at h
  by_cases hl : raw.length ≠ s.m_hash.output_length
  · rw [if_pos hl] at h
    cases h
  · rw [if_neg hl] at h
    unfold PKCS1v15_SignaturePaddingScheme.verify
    rw [if_neg hl, h]
    simp [constant_time_compare_ne _ _ (flip_bit_ne c p hp)]

/-- C4 at a concrete input: the SHA-256 encoding of section 8 with bit 1000
flipped is rejected. -/
theorem pkcs1v15_verify_rejects_bit_flip_sha256 :
    1000 < 8 * (pkcs1v15_layout sha256_abc 2048 sha256_hash_id).length ∧
    pkcs1v15_sha256.verify (flip_bit (pkcs1v15_layout sha256_abc 2048 sha256_hash_id) 1000)
      sha256_abc 2048 = .ok false :=
  have hl : (pkcs1v15_layout sha256_abc 2048 sha256_hash_id).length = 2048 / 8 :=
    pkcs1v15_layout_length sha256_abc 2048 sha256_hash_id (by decide)
  have hp : 1000 < 8 * (pkcs1v15_layout sha256_abc 2048 sha256_hash_id).length := by
    rw [hl]; decide
  ⟨hp, pkcs1v15_verify_rejects_bit_flip pkcs1v15_sha256 sha256_abc 2048 zero_rng
    (pkcs1v15_layout sha256_abc 2048 sha256_hash_id) 1000 (by
      unfold PKCS1v15_SignaturePaddingScheme.encoding_of
      rw [if_neg (by decide)]
      exact pkcs1v15_sig_encoding_eq sha256_abc 2048 sha256_hash_id (by decide)) hp⟩

/-- C5: `verify` of the PKCS1v15 scheme and of the Raw scheme never lets an
exception escape: for all arguments it returns a boolean, and the boolean is
`false` whenever the reconstruction fails, that is whenever
`key_bits / 8 < i + |raw| + 10`. -/
theorem pkcs1v15_verify_total (s : PKCS1v15_SignaturePaddingScheme)
    (r : PKCS1v15_Raw_SignaturePaddingScheme) (coded raw : List Nat) (key_bits : Nat) :
    (∃ b, s.verify coded raw key_bits = .ok b ∧
      (key_bits / 8 < s.m_hash_id.length + raw.length + 10 → b = false)) ∧
    (∃ b, r.verify coded raw key_bits = .ok b ∧
      (key_bits / 8 < r.m_hash_id.length + raw.length + 10 → b = false)) := by
  constructor
  · unfold PKCS1v15_SignaturePaddingScheme.verify
    by_cases hl : raw.length ≠ s.m_hash.output_length
    · rw [if_pos hl]
      exact ⟨false, rfl, fun _ => rfl⟩
    · rw [if_neg hl]
      by_cases hs : key_bits / 8 < s.m_hash_id.length + raw.length + 10
      · rw [pkcs1v15_sig_encoding_small _ _ _ hs]
        exact ⟨false, rfl, fun _ => rfl⟩
      · rw [pkcs1v15_sig_encoding_eq _ _ _ (by omega)]
        exact ⟨_, rfl, fun h => absurd h hs⟩
  · unfold PKCS1v15_Raw_SignaturePaddingScheme.verify
    by_cases hl : 0 < r.m_hash_output_len ∧ raw.length ≠ r.m_hash_output_len
    · rw [if_pos hl]
      exact ⟨false, rfl, fun _ => rfl⟩
    · rw [if_neg hl]
      by_cases hs : key_bits / 8 < r.m_hash_id.length + raw.length + 10
      · rw [pkcs1v15_sig_encoding_small _ _ _ hs]
        exact ⟨false, rfl, fun _ => rfl⟩
      · rw [pkcs1v15_sig_encoding_eq _ _ _ (by omega)]
        exact ⟨_, rfl, fun h => absurd h hs⟩

/-- C5 at a concrete input: with SHA-256 and `key_bits = 256` the reconstruction
fails and both schemes answer `false`. -/
theorem pkcs1v15_verify_total_sha256 :
    pkcs1v15_sha256.verify [] sha256_abc 256 = .ok false ∧
    PKCS1v15_Raw_SignaturePaddingScheme.unbound.verify [] sha256_abc 256 = .ok false := by
  obtain ⟨⟨b, hb, hf⟩, ⟨b', hb', hf'⟩⟩ := pkcs1v15_verify_total pkcs1v15_sha256
    PKCS1v15_Raw_SignaturePaddingScheme.unbound [] sha256_abc 256
  rw [hf (by decide)] at hb
  rw [hf' (by decide)] at hb'
  exact ⟨hb, hb'⟩

/-- C6: `verify` of the PKCS1v15 scheme answers `false` whenever `raw` does not
have the hash's output length, and so does `verify` of the Raw scheme bound to
a hash (`m_hash_output_len` is that hash's output length, which is positive),
for every `coded` and `key_bits`. -/
theorem pkcs1v15_verify_raw_length_mismatch (s : PKCS1v15_SignaturePaddingScheme)
    (hash : HashFunction) (hash_id : List Nat) (coded raw : List Nat) (key_bits : Nat) :
    (raw.length ≠ s.m_hash.output_length → s.verify coded raw key_bits = .ok false) ∧
    (0 < hash.output_length → raw.length ≠ hash.output_length →
      (PKCS1v15_Raw_SignaturePaddingScheme.bound hash hash_id).verify coded raw key_bits
        = .ok false) := by
  constructor
  · intro hl
    unfold PKCS1v15_SignaturePaddingScheme.verify
    rw [if_pos hl]
  · intro hpos hl
    unfold PKCS1v15_Raw_SignaturePaddingScheme.verify
    rw [if_pos ⟨hpos, hl⟩]

/-- C6 at a concrete input: a 31-byte `raw` against SHA-256. -/
theorem pkcs1v15_verify_raw_length_mismatch_sha256 :
    pkcs1v15_sha256.verify [] (List.replicate 31 0) 2048 = .ok false ∧
    (PKCS1v15_Raw_SignaturePaddingScheme.bound ⟨"SHA-256", 32⟩ sha256_hash_id).verify []
      (List.replicate 31 0) 2048 = .ok false :=
  have h := pkcs1v15_verify_raw_length_mismatch pkcs1v15_sha256 ⟨"SHA-256", 32⟩ sha256_hash_id
    [] (List.replicate 31 0) 2048
  ⟨h.1 (by decide), h.2 (by decide) (by decide)⟩

/-- C7: `verify` of the PKCS1v15 scheme answers `false` whenever the length of
`coded` differs from `key_bits / 8`, for every `raw`. -/
theorem pkcs1v15_verify_coded_length_mismatch (s : PKCS1v15_SignaturePaddingScheme)
    (coded raw : List Nat) (key_bits : Nat) (h : coded.length ≠ key_bits / 8) :
    s.verify coded raw key_bits = .ok false := by
  unfold PKCS1v15_SignaturePaddingScheme.verify
  by_cases hl : raw.length ≠ s.m_hash.output_length
  · rw [if_pos hl]
  · rw [if_neg hl]
    by_cases hs : key_bits / 8 < s.m_hash_id.length + raw.length + 10
    · rw [pkcs1v15_sig_encoding_small _ _ _ hs]
    · have hge : s.m_hash_id.length + raw.length + 10 ≤ key_bits / 8 := by omega
      rw [pkcs1v15_sig_encoding_eq _ _ _ hge]
      have hne : coded ≠ pkcs1v15_layout raw key_bits s.m_hash_id := by
        intro heq
        apply h
        rw [heq]
        exact pkcs1v15_layout_length raw key_bits s.m_hash_id hge
      simp [constant_time_compare_ne _ _ hne]

/-- C7 at a concrete input: the valid SHA-256 encoding for 2048 bits, extended
by a zero byte in front, is rejected. -/
theorem pkcs1v15_verify_coded_length_mismatch_sha256 :
    (0 :: pkcs1v15_layout sha256_abc 2048 sha256_hash_id).length ≠ 2048 / 8 ∧
    pkcs1v15_sha256.verify (0 :: pkcs1v15_layout sha256_abc 2048 sha256_hash_id)
      sha256_abc 2048 = .ok false :=
  have hl : (0 :: pkcs1v15_layout sha256_abc 2048 sha256_hash_id).length ≠ 2048 / 8 := by
    rw [List.length_cons, pkcs1v15_layout_length sha256_abc 2048 sha256_hash_id (by decide)]
    decide
  ⟨hl, pkcs1v15_verify_coded_length_mismatch pkcs1v15_sha256 _ sha256_abc 2048 hl⟩

/-- C8: determinism.  `encoding_of` of the PKCS1v15 scheme and of the Raw scheme
gives the same outcome (the same bytes, or the same failure) whatever generator
it is handed. -/
theorem pkcs1v15_encoding_of_ignores_rng (s : PKCS1v15_SignaturePaddingScheme)
    (r : PKCS1v15_Raw_SignaturePaddingScheme) (msg : List Nat) (output_bits : Nat)
    (rng1 rng2 : RandomNumberGenerator) :
    s.encoding_of msg output_bits rng1 = s.encoding_of msg output_bits rng2 ∧
    r.encoding_of msg output_bits rng1 = r.encoding_of msg output_bits rng2 :=
  ⟨rfl, rfl⟩


/-! ## Blinder -/

/-- What a `blind` call leaves alone: the reducer, the two functions and the
generator's values. -/
theorem Blinder.blind_frame (R : Nat) (b : Blinder) (i : Nat) :
    (b.blind R i).2.m_reducer = b.m_reducer ∧ (b.blind R i).2.m_fwd_fn = b.m_fwd_fn ∧
      (b.blind R i).2.m_inv_fn = b.m_inv_fn ∧
      (b.blind R i).2.m_rng.source = b.m_rng.source := by
  unfold Blinder.blind
  simp only []
  split <;> simp [Blinder.blinding_nonce, BigInt.random]

theorem Barrett_Reduction.square_mul_square (r : Barrett_Reduction) (e d : Nat)
    (h : e * d ≡ 1 [MOD r.m_modulus]) :
    r.square e * r.square d ≡ 1 [MOD r.m_modulus] := by
  unfold Barrett_Reduction.square
  have h1 : e * e % r.m_modulus * (d * d % r.m_modulus) ≡ (e * e) * (d * d) [MOD r.m_modulus] :=
    Nat.ModEq.mul (Nat.mod_modEq _ _) (Nat.mod_modEq _ _)
  have h2 : (e * e) * (d * d) = (e * d) * (e * d) := by ring
  have h3 : (e * d) * (e * d) ≡ 1 * 1 [MOD r.m_modulus] := Nat.ModEq.mul h h
  rw [h2] at h1
  exact h1.trans h3

/-- One `blind` call keeps `e·d ≡ 1`. -/
theorem Blinder.blind_keeps_inverse (R : Nat) (b : Blinder) (i : Nat)
    (hk : ∀ j bits, b.m_fwd_fn (b.m_rng.source j bits) * b.m_inv_fn (b.m_rng.source j bits)
      ≡ 1 [MOD b.m_reducer.m_modulus])
    (h : b.m_e * b.m_d ≡ 1 [MOD b.m_reducer.m_modulus]) :
    (b.blind R i).2.m_e * (b.blind R i).2.m_d ≡ 1 [MOD b.m_reducer.m_modulus] := by
  unfold Blinder.blind
  simp only []
  split
  · simp only [Blinder.blinding_nonce, BigInt.random]
    exact hk _ _
  · exact Barrett_Reduction.square_mul_square b.m_reducer b.m_e b.m_d h

/-- The invariant along any sequence of calls. -/
theorem Blinder.run_keeps_inverse (R : Nat) (calls : List Blinder.Call) (b : Blinder)
    (hk : ∀ j bits, b.m_fwd_fn (b.m_rng.source j bits) * b.m_inv_fn (b.m_rng.source j bits)
      ≡ 1 [MOD b.m_reducer.m_modulus])
    (h : b.m_e * b.m_d ≡ 1 [MOD b.m_reducer.m_modulus]) :
    (Blinder.run R b calls).m_reducer = b.m_reducer ∧
      (Blinder.run R b calls).m_fwd_fn = b.m_fwd_fn ∧
      (Blinder.run R b calls).m_inv_fn = b.m_inv_fn ∧
      (Blinder.run R b calls).m_rng.source = b.m_rng.source ∧
      (Blinder.run R b calls).m_e * (Blinder.run R b calls).m_d
        ≡ 1 [MOD b.m_reducer.m_modulus] := by
  induction calls generalizing b with
  | nil => exact ⟨rfl, rfl, rfl, rfl, h⟩
  | cons c cs ih =>
    cases c with
    | unblind y => exact ih b hk h
    | blind x =>
      obtain ⟨f1, f2, f3, f4⟩ := Blinder.blind_frame R b x
      have hk2 : ∀ j bits, (b.blind R x).2.m_fwd_fn ((b.blind R x).2.m_rng.source j bits) *
          (b.blind R x).2.m_inv_fn ((b.blind R x).2.m_rng.source j bits)
            ≡ 1 [MOD (b.blind R x).2.m_reducer.m_modulus] := by
        intro j bits
        rw [f1, f2, f3, f4]
        exact hk j bits
      have h2 : (b.blind R x).2.m_e * (b.blind R x).2.m_d
          ≡ 1 [MOD (b.blind R x).2.m_reducer.m_modulus] := by
        rw [f1]
        exact Blinder.blind_keeps_inverse R b x hk h
      obtain ⟨g1, g2, g3, g4, g5⟩ := ih (b.blind R x).2 hk2 h2
      refine ⟨?_, ?_, ?_, ?_, ?_⟩
      · exact g1.trans f1
      · exact g2.trans f2
      · exact g3.trans f3
      · exact g4.trans f4
      · rw [f1] at g5
        exact g5

theorem Blinder.create_fields (reducer : Barrett_Reduction) (rng : RandomNumberGenerator)
    (fwd inv : Nat → Nat) :
    (Blinder.create reducer rng fwd inv).m_reducer = reducer ∧
      (Blinder.create reducer rng fwd inv).m_fwd_fn = fwd ∧
      (Blinder.create reducer rng fwd inv).m_inv_fn = inv ∧
      (Blinder.create reducer rng fwd inv).m_rng.source = rng.source ∧
      (Blinder.create reducer rng fwd inv).m_e =
        fwd (rng.source rng.requests.length ((reducer.modulus_bits + 2 ^ 64 - 1) % 2 ^ 64)) ∧
      (Blinder.create reducer rng fwd inv).m_d =
        inv (rng.source rng.requests.length ((reducer.modulus_bits + 2 ^ 64 - 1) % 2 ^ 64)) :=
  ⟨rfl, rfl, rfl, rfl, rfl, rfl⟩

/-- C10: if `fwd(k)·inv(k) ≡ 1 (mod n)` for every nonce `k` the generator can
return, then `e·d ≡ 1 (mod n)` in every state reached from construction by
`blind` and `unblind` calls, for every `ReinitInterval`; and the squaring step
keeps `e·d ≡ 1 (mod n)`. -/
theorem blinder_inverse_invariant (reducer : Barrett_Reduction) (rng : RandomNumberGenerator)
    (fwd inv : Nat → Nat) (ReinitInterval : Nat) (calls : List Blinder.Call)
    (hk : ∀ j bits, fwd (rng.source j bits) * inv (rng.source j bits)
      ≡ 1 [MOD reducer.m_modulus]) :
    (Blinder.run ReinitInterval (Blinder.create reducer rng fwd inv) calls).m_e *
        (Blinder.run ReinitInterval (Blinder.create reducer rng fwd inv) calls).m_d
          ≡ 1 [MOD reducer.m_modulus] ∧
      ∀ e d, e * d ≡ 1 [MOD reducer.m_modulus] →
        reducer.square e * reducer.square d ≡ 1 [MOD reducer.m_modulus] := by
  refine ⟨?_, fun e d h => Barrett_Reduction.square_mul_square reducer e d h⟩
  obtain ⟨c1, c2, c3, c4, c5, c6⟩ := Blinder.create_fields reducer rng fwd inv
  have h := Blinder.run_keeps_inverse ReinitInterval calls (Blinder.create reducer rng fwd inv)
    (by
      intro j bits
      rw [c1, c2, c3, c4]
      exact hk j bits)
    (by
      rw [c1, c5, c6]
      exact hk _ _)
  rw [c1] at h
  exact h.2.2.2.2


/-- C10 at a concrete input: modulus 7, a generator that answers 2,
`fwd(k) = k`, `inv(k) = k^5 mod 7`, `ReinitInterval = 1` and four calls, the
third of which reinitialises. -/
theorem blinder_inverse_invariant_mod7 :
    (∀ j bits, id (two_rng.source j bits) * (fun k => k ^ 5 % 7) (two_rng.source j bits)
      ≡ 1 [MOD (Barrett_Reduction.mk 7 3).m_modulus]) ∧
    (Blinder.run 1 (Blinder.create ⟨7, 3⟩ two_rng id (fun k => k ^ 5 % 7))
        [.blind 3, .unblind 5, .blind 6, .blind 1]).m_e *
      (Blinder.run 1 (Blinder.create ⟨7, 3⟩ two_rng id (fun k => k ^ 5 % 7))
        [.blind 3, .unblind 5, .blind 6, .blind 1]).m_d ≡ 1 [MOD 7] :=
  have hk : ∀ j bits, id (two_rng.source j bits) * (fun k => k ^ 5 % 7) (two_rng.source j bits)
      ≡ 1 [MOD (Barrett_Reduction.mk 7 3).m_modulus] := fun _ _ => by
      show 2 * (2 ^ 5 % 7) ≡ 1 [MOD 7]
      decide
  ⟨hk, (blinder_inverse_invariant ⟨7, 3⟩ two_rng id (fun k => k ^ 5 % 7) 1
    [.blind 3, .unblind 5, .blind 6, .blind 1] hk).1⟩

/-- C9 (as amended): if `fwd(k)·inv(k) ≡ 1 (mod n)` for every nonce `k` the
generator can return, then for every `ReinitInterval` (0 included), in every
state reached from construction by any calls, and for every `x < n`,
`unblind(blind(x)) = x`. -/
theorem blinder_unblind_blind (reducer : Barrett_Reduction) (rng : RandomNumberGenerator)
    (fwd inv : Nat → Nat) (ReinitInterval : Nat) (calls : List Blinder.Call) (x : Nat)
    (hk : ∀ j bits, fwd (rng.source j bits) * inv (rng.source j bits)
      ≡ 1 [MOD reducer.m_modulus])
    (hx : x < reducer.m_modulus) :
    ((Blinder.run ReinitInterval (Blinder.create reducer rng fwd inv) calls).blind
        ReinitInterval x).2.unblind
      ((Blinder.run ReinitInterval (Blinder.create reducer rng fwd inv) calls).blind
        ReinitInterval x).1 = x := by
  obtain ⟨c1, c2, c3, c4, c5, c6⟩ := Blinder.create_fields reducer rng fwd inv
  have h := Blinder.run_keeps_inverse ReinitInterval (calls ++ [.blind x])
    (Blinder.create reducer rng fwd inv)
    (by
      intro j bits
      rw [c1, c2, c3, c4]
      exact hk j bits)
    (by
      rw [c1, c5, c6]
      exact hk _ _)
  have hrun : Blinder.run ReinitInterval (Blinder.create reducer rng fwd inv)
      (calls ++ [.blind x]) =
      ((Blinder.run ReinitInterval (Blinder.create reducer rng fwd inv) calls).blind
        ReinitInterval x).2 := by
    simp [Blinder.run, Blinder.step]
  rw [hrun, c1] at h
  obtain ⟨hr, -, -, -, hed⟩ := h
  generalize Blinder.run ReinitInterval (Blinder.create reducer rng fwd inv) calls = s at hr hed ⊢
  have hval : (s.blind ReinitInterval x).1 =
      (x * (s.blind ReinitInterval x).2.m_e) % reducer.m_modulus := by
    rw [← hr]
    rfl
  unfold Blinder.unblind Barrett_Reduction.multiply
  rw [hr, hval]
  have h1 : x * (s.blind ReinitInterval x).2.m_e % reducer.m_modulus *
      (s.blind ReinitInterval x).2.m_d ≡
      x * (s.blind ReinitInterval x).2.m_e * (s.blind ReinitInterval x).2.m_d
        [MOD reducer.m_modulus] :=
    Nat.ModEq.mul_right _ (Nat.mod_modEq _ _)
  have h2 : x * (s.blind ReinitInterval x).2.m_e * (s.blind ReinitInterval x).2.m_d
      ≡ x * 1 [MOD reducer.m_modulus] := by
    rw [Nat.mul_assoc]
    exact Nat.ModEq.mul_left _ hed
  have h3 := h1.trans h2
  rw [Nat.mul_one] at h3
  unfold Nat.ModEq at h3
  rw [h3]
  exact Nat.mod_eq_of_lt hx

/-- C9 (as amended) at a concrete input: modulus 7, nonce 2, `fwd(k) = k`,
`inv(k) = k^5 mod 7`, `ReinitInterval = 1`, after three `blind` calls,
`x = 5`. -/
theorem blinder_unblind_blind_mod7 :
    (∀ j bits, id (two_rng.source j bits) * (fun k => k ^ 5 % 7) (two_rng.source j bits)
      ≡ 1 [MOD (Barrett_Reduction.mk 7 3).m_modulus]) ∧
    5 < (Barrett_Reduction.mk 7 3).m_modulus ∧
    ((Blinder.run 1 (Blinder.create ⟨7, 3⟩ two_rng id (fun k => k ^ 5 % 7))
        [.blind 3, .blind 6, .blind 1]).blind 1 5).2.unblind
      ((Blinder.run 1 (Blinder.create ⟨7, 3⟩ two_rng id (fun k => k ^ 5 % 7))
        [.blind 3, .blind 6, .blind 1]).blind 1 5).1 = 5 :=
  have hk : ∀ j bits, id (two_rng.source j bits) * (fun k => k ^ 5 % 7) (two_rng.source j bits)
      ≡ 1 [MOD (Barrett_Reduction.mk 7 3).m_modulus] := fun _ _ => by
      show 2 * (2 ^ 5 % 7) ≡ 1 [MOD 7]
      decide
  ⟨hk, by decide, blinder_unblind_blind ⟨7, 3⟩ two_rng id (fun k => k ^ 5 % 7) 1
    [.blind 3, .blind 6, .blind 1] 5 hk (by decide)⟩

/-- C9 (as stated) fails: with modulus 7, `fwd = inv = id` (so
`inv(fwd(k)) = k` for every `k`), nonce 2 and `ReinitInterval = 0`, the first
`blind` call maps `x = 1` to 4 and `unblind` maps 4 to 2. -/
theorem blinder_unblind_blind_id_fails :
    (∀ k : Nat, id (id k) = k) ∧ 1 < (Barrett_Reduction.mk 7 3).m_modulus ∧
    ((Blinder.run 0 (Blinder.create ⟨7, 3⟩ two_rng id id) []).blind 0 1).1 = 4 ∧
    ((Blinder.run 0 (Blinder.create ⟨7, 3⟩ two_rng id id) []).blind 0 1).2.unblind
      ((Blinder.run 0 (Blinder.create ⟨7, 3⟩ two_rng id id) []).blind 0 1).1 = 2 ∧
    ((Blinder.run 0 (Blinder.create ⟨7, 3⟩ two_rng id id) []).blind 0 1).2.unblind
      ((Blinder.run 0 (Blinder.create ⟨7, 3⟩ two_rng id id) []).blind 0 1).1 ≠ 1 :=
  ⟨fun _ => rfl, by decide, by decide, by decide, by decide⟩


/-! ## Blinder: construction, one step, unblind -/

/-- C11: the constructor makes exactly one request to the generator, for
`m_modulus_bits - 1` bits (a `size_t` subtraction; it is `modulus_bits - 1`
for every bit length from 1 to `2^64 - 1`), where `m_modulus_bits` is the
reducer's `modulus_bits()`; with `k` the value handed out, the new state has
`e = fwd(k)`, `d = inv(k)` and counter 0. -/
theorem blinder_create_state (reducer : Barrett_Reduction) (rng : RandomNumberGenerator)
    (fwd inv : Nat → Nat) :
    (Blinder.create reducer rng fwd inv).m_modulus_bits = reducer.modulus_bits ∧
    (Blinder.create reducer rng fwd inv).m_rng.requests =
      rng.requests ++ [(reducer.modulus_bits + 2 ^ 64 - 1) % 2 ^ 64] ∧
    (0 < reducer.modulus_bits → reducer.modulus_bits < 2 ^ 64 →
      (Blinder.create reducer rng fwd inv).m_rng.requests =
        rng.requests ++ [reducer.modulus_bits - 1]) ∧
    (Blinder.create reducer rng fwd inv).m_e =
      fwd (rng.source rng.requests.length ((reducer.modulus_bits + 2 ^ 64 - 1) % 2 ^ 64)) ∧
    (Blinder.create reducer rng fwd inv).m_d =
      inv (rng.source rng.requests.length ((reducer.modulus_bits + 2 ^ 64 - 1) % 2 ^ 64)) ∧
    (Blinder.create reducer rng fwd inv).m_counter = 0 := by
  refine ⟨rfl, rfl, ?_, rfl, rfl, rfl⟩
  intro h0 h1
  have e : (reducer.modulus_bits + 2 ^ 64 - 1) % 2 ^ 64 = reducer.modulus_bits - 1 := by
    omega
  show rng.requests ++ [(reducer.modulus_bits + 2 ^ 64 - 1) % 2 ^ 64] = _
  rw [e]

/-- C11 at a concrete input: a 3-bit modulus; the one request is for 2 bits. -/
theorem blinder_create_state_mod7 :
    (Blinder.create ⟨7, 3⟩ two_rng id id).m_rng.requests = [2] ∧
    (Blinder.create ⟨7, 3⟩ two_rng id id).m_e = 2 ∧
    (Blinder.create ⟨7, 3⟩ two_rng id id).m_d = 2 ∧
    (Blinder.create ⟨7, 3⟩ two_rng id id).m_counter = 0 :=
  have h := blinder_create_state ⟨7, 3⟩ two_rng id id
  ⟨h.2.2.1 (by decide) (by decide), h.2.2.2.1, h.2.2.2.2.1, h.2.2.2.2.2⟩


/-- C12: one `blind` call.  With `c' = c + 1` (a `size_t` increment, equal to
`c + 1` unless `c = 2^64 - 1`): if `ReinitInterval > 0` and
`c' > ReinitInterval` a fresh nonce `k'` is requested, `(e, d)` becomes
`(fwd(k'), inv(k'))` and the counter 0; otherwise `(e, d)` becomes
`(square(e), square(d))`, the counter `c'` and nothing is requested.  In both
cases the value returned is `multiply(x, e_new) = x * e_new mod n`. -/
theorem blinder_blind_step (ReinitInterval : Nat) (b : Blinder) (x : Nat) :
    ((0 < ReinitInterval ∧ ReinitInterval < (b.m_counter + 1) % 2 ^ 64) →
      (b.blind ReinitInterval x).2.m_rng.requests =
          b.m_rng.requests ++ [(b.m_modulus_bits + 2 ^ 64 - 1) % 2 ^ 64] ∧
        (b.blind ReinitInterval x).2.m_e = b.m_fwd_fn
          (b.m_rng.source b.m_rng.requests.length ((b.m_modulus_bits + 2 ^ 64 - 1) % 2 ^ 64)) ∧
        (b.blind ReinitInterval x).2.m_d = b.m_inv_fn
          (b.m_rng.source b.m_rng.requests.length ((b.m_modulus_bits + 2 ^ 64 - 1) % 2 ^ 64)) ∧
        (b.blind ReinitInterval x).2.m_counter = 0) ∧
    (¬ (0 < ReinitInterval ∧ ReinitInterval < (b.m_counter + 1) % 2 ^ 64) →
      (b.blind ReinitInterval x).2.m_rng.requests = b.m_rng.requests ∧
        (b.blind ReinitInterval x).2.m_e = b.m_reducer.square b.m_e ∧
        (b.blind ReinitInterval x).2.m_d = b.m_reducer.square b.m_d ∧
        (b.blind ReinitInterval x).2.m_counter = (b.m_counter + 1) % 2 ^ 64) ∧
    (b.m_counter + 1 < 2 ^ 64 → (b.m_counter + 1) % 2 ^ 64 = b.m_counter + 1) ∧
    (b.blind ReinitInterval x).1 = b.m_reducer.multiply x (b.blind ReinitInterval x).2.m_e ∧
    (b.blind ReinitInterval x).1 =
      (x * (b.blind ReinitInterval x).2.m_e) % b.m_reducer.m_modulus := by
  refine ⟨?_, ?_, fun h => Nat.mod_eq_of_lt h, ?_, ?_⟩
  · intro h
    unfold Blinder.blind
    simp only []
    rw [if_pos h]
    exact ⟨rfl, rfl, rfl, rfl⟩
  · intro h
    unfold Blinder.blind
    simp only []
    rw [if_neg h]
    exact ⟨rfl, rfl, rfl, rfl⟩
  · rw [← (Blinder.blind_frame ReinitInterval b x).1]
    rfl
  · rw [← (Blinder.blind_frame ReinitInterval b x).1]
    rfl

/-- C12 at concrete inputs: from the state after construction with modulus 7
and nonce 2, with `ReinitInterval = 1`, the first call squares and the second
reinitialises. -/
theorem blinder_blind_step_mod7 :
    ((Blinder.create ⟨7, 3⟩ two_rng id id).blind 1 3).2.m_e = 4 ∧
    ((Blinder.create ⟨7, 3⟩ two_rng id id).blind 1 3).2.m_counter = 1 ∧
    ((Blinder.create ⟨7, 3⟩ two_rng id id).blind 1 3).1 = 5 ∧
    ((Blinder.run 1 (Blinder.create ⟨7, 3⟩ two_rng id id) [.blind 3]).blind 1 3).2.m_e = 2 ∧
    ((Blinder.run 1 (Blinder.create ⟨7, 3⟩ two_rng id id) [.blind 3]).blind 1 3).2.m_counter
      = 0 ∧
    ((Blinder.run 1 (Blinder.create ⟨7, 3⟩ two_rng id id) [.blind 3]).blind 1 3).2.m_rng.requests
      = [2, 2] :=
  have h1 := blinder_blind_step 1 (Blinder.create ⟨7, 3⟩ two_rng id id) 3
  have h2 := blinder_blind_step 1
    (Blinder.run 1 (Blinder.create ⟨7, 3⟩ two_rng id id) [.blind 3]) 3
  have n1 := h1.2.1 (by decide)
  have r2 := h2.1 (by decide)
  ⟨n1.2.1, n1.2.2.2, h1.2.2.2.2, r2.2.1, r2.2.2.2, r2.1⟩

/-- C14: `unblind(y)` returns `multiply(y, d) = y * d mod n` for the current
`d`; the call leaves the whole state as it was, the generator's log included,
so a second `unblind` of the same input returns the same value. -/
theorem blinder_unblind_frame (ReinitInterval : Nat) (b : Blinder) (y : Nat) :
    b.unblind y = b.m_reducer.multiply y b.m_d ∧
    b.unblind y = (y * b.m_d) % b.m_reducer.m_modulus ∧
    Blinder.step ReinitInterval b (.unblind y) = b ∧
    Blinder.run ReinitInterval b [.unblind y, .unblind y] = b ∧
    (Blinder.step ReinitInterval b (.unblind y)).m_rng.requests = b.m_rng.requests ∧
    (Blinder.step ReinitInterval b (.unblind y)).unblind y = b.unblind y :=
  ⟨rfl, rfl, rfl, rfl, rfl, rfl⟩


/-! ## Blinder: squaring between reinitialisations -/

/-- A `blind` call that does not reinitialise squares `e` and `d` and leaves the
reducer, the functions and the generator alone. -/
theorem Blinder.blind_square (R : Nat) (b : Blinder) (x : Nat)
    (h : ¬ (0 < R ∧ R < (b.m_counter + 1) % 2 ^ 64)) :
    (b.blind R x).2.m_reducer = b.m_reducer ∧ (b.blind R x).2.m_rng = b.m_rng ∧
      (b.blind R x).2.m_fwd_fn = b.m_fwd_fn ∧ (b.blind R x).2.m_inv_fn = b.m_inv_fn ∧
      (b.blind R x).2.m_e = (b.m_e * b.m_e) % b.m_reducer.m_modulus ∧
      (b.blind R x).2.m_d = (b.m_d * b.m_d) % b.m_reducer.m_modulus ∧
      (b.blind R x).2.m_counter = (b.m_counter + 1) % 2 ^ 64 := by
  unfold Blinder.blind
  simp only []
  rw [if_neg h]
  exact ⟨rfl, rfl, rfl, rfl, rfl, rfl, rfl⟩

theorem sq_mod_pow_mod (a n m : Nat) : (a * a % n) ^ m % n = a ^ (2 * m) % n := by
  rw [← Nat.pow_mod, ← Nat.pow_two, ← Nat.pow_mul]

theorem Blinder.run_cons_blind (R : Nat) (b : Blinder) (x : Nat) (xs : List Nat) :
    Blinder.run R b ((x :: xs).map .blind) =
      Blinder.run R (b.blind R x).2 (xs.map .blind) := rfl

/-- Along `blind` calls that do not reinitialise, `e` and `d` are the reduced
`2^j`-th powers of their starting values (`j ≥ 1`), and nothing else moves. -/
theorem Blinder.run_no_reinit (R : Nat) (xs : List Nat) (b : Blinder)
    (h : Blinder.no_reinit R b xs = true) :
    (Blinder.run R b (xs.map .blind)).m_reducer = b.m_reducer ∧
      (Blinder.run R b (xs.map .blind)).m_rng = b.m_rng ∧
      (Blinder.run R b (xs.map .blind)).m_fwd_fn = b.m_fwd_fn ∧
      (Blinder.run R b (xs.map .blind)).m_inv_fn = b.m_inv_fn ∧
      (xs ≠ [] →
        (Blinder.run R b (xs.map .blind)).m_e =
            b.m_e ^ 2 ^ xs.length % b.m_reducer.m_modulus ∧
          (Blinder.run R b (xs.map .blind)).m_d =
            b.m_d ^ 2 ^ xs.length % b.m_reducer.m_modulus) := by
  induction xs generalizing b with
  | nil => exact ⟨rfl, rfl, rfl, rfl, fun h => absurd rfl h⟩
  | cons x xs ih =>
    unfold Blinder.no_reinit at h
    simp only [Bool.and_eq_true, Bool.not_eq_true', decide_eq_false_iff_not] at h
    obtain ⟨f1, f2, f3, f4, f5, f6, -⟩ := Blinder.blind_square R b x h.1
    obtain ⟨g1, g2, g3, g4, g5⟩ := ih (b.blind R x).2 h.2
    rw [Blinder.run_cons_blind]
    refine ⟨g1.trans f1, g2.trans f2, g3.trans f3, g4.trans f4, fun _ => ?_⟩
    by_cases hxs : xs = []
    · subst hxs
      show (b.blind R x).2.m_e = _ ∧ (b.blind R x).2.m_d = _
      rw [f5, f6]
      simp [Nat.pow_two]
    · obtain ⟨e1, e2⟩ := g5 hxs
      rw [e1, e2, f1, f5, f6, sq_mod_pow_mod, sq_mod_pow_mod, List.length_cons, Nat.pow_succ,
        Nat.mul_comm 2]
      exact ⟨rfl, rfl⟩

/-- With `ReinitInterval = 0` no `blind` call reinitialises. -/
theorem Blinder.no_reinit_zero (xs : List Nat) (b : Blinder) :
    Blinder.no_reinit 0 b xs = true := by
  induction xs generalizing b with
  | nil => rfl
  | cons x xs ih =>
    unfold Blinder.no_reinit
    simp [ih]


theorem Blinder.run_snoc_blind (R : Nat) (b : Blinder) (xs : List Nat) (x : Nat) :
    Blinder.run R b ((xs ++ [x]).map .blind) =
      ((Blinder.run R b (xs.map .blind)).blind R x).2 := by
  simp [Blinder.run, Blinder.step]

/-- C13 (as amended): with `ReinitInterval = 0`, after `j` `blind` calls (inputs
`xs`, `j = |xs|`) the generator has been asked exactly once, by the
constructor; for `j ≥ 1`, `e = fwd(k)^(2^j) mod n` and `d = inv(k)^(2^j) mod n`
for the constructor's nonce `k`, while for `j = 0`, `e = fwd(k)` and
`d = inv(k)` as `fwd` and `inv` returned them; and the next call, the
`(j+1)`-th, returns `x * fwd(k)^(2^(j+1)) mod n` and asks for nothing. -/
theorem blinder_interval_zero_powers (reducer : Barrett_Reduction)
    (rng : RandomNumberGenerator) (fwd inv : Nat → Nat) (xs : List Nat) (x : Nat) :
    (Blinder.run 0 (Blinder.create reducer rng fwd inv) (xs.map .blind)).m_rng.requests =
      rng.requests ++ [(reducer.modulus_bits + 2 ^ 64 - 1) % 2 ^ 64] ∧
    (xs = [] →
      (Blinder.run 0 (Blinder.create reducer rng fwd inv) (xs.map .blind)).m_e =
          fwd (rng.source rng.requests.length ((reducer.modulus_bits + 2 ^ 64 - 1) % 2 ^ 64)) ∧
        (Blinder.run 0 (Blinder.create reducer rng fwd inv) (xs.map .blind)).m_d =
          inv (rng.source rng.requests.length ((reducer.modulus_bits + 2 ^ 64 - 1) % 2 ^ 64))) ∧
    (xs ≠ [] →
      (Blinder.run 0 (Blinder.create reducer rng fwd inv) (xs.map .blind)).m_e =
          fwd (rng.source rng.requests.length ((reducer.modulus_bits + 2 ^ 64 - 1) % 2 ^ 64))
            ^ 2 ^ xs.length % reducer.m_modulus ∧
        (Blinder.run 0 (Blinder.create reducer rng fwd inv) (xs.map .blind)).m_d =
          inv (rng.source rng.requests.length ((reducer.modulus_bits + 2 ^ 64 - 1) % 2 ^ 64))
            ^ 2 ^ xs.length % reducer.m_modulus) ∧
    ((Blinder.run 0 (Blinder.create reducer rng fwd inv) (xs.map .blind)).blind 0 x).1 =
      x * fwd (rng.source rng.requests.length ((reducer.modulus_bits + 2 ^ 64 - 1) % 2 ^ 64))
        ^ 2 ^ (xs.length + 1) % reducer.m_modulus ∧
    ((Blinder.run 0 (Blinder.create reducer rng fwd inv) (xs.map .blind)).blind 0 x).2.m_rng.requests
      = rng.requests ++ [(reducer.modulus_bits + 2 ^ 64 - 1) % 2 ^ 64] := by
  obtain ⟨c1, -, -, -, c5, c6⟩ := Blinder.create_fields reducer rng fwd inv
  obtain ⟨r1, r2, -, -, r5⟩ := Blinder.run_no_reinit 0 xs (Blinder.create reducer rng fwd inv)
    (Blinder.no_reinit_zero _ _)
  obtain ⟨s1, s2, -, -, s5⟩ := Blinder.run_no_reinit 0 (xs ++ [x])
    (Blinder.create reducer rng fwd inv) (Blinder.no_reinit_zero _ _)
  rw [Blinder.run_snoc_blind] at s1 s2 s5
  rw [c1, c5, c6] at r5 s5
  refine ⟨?_, ?_, r5, ?_, ?_⟩
  · rw [r2]
    rfl
  · intro h
    subst h
    exact ⟨c5, c6⟩
  · have hv : ((Blinder.run 0 (Blinder.create reducer rng fwd inv) (xs.map .blind)).blind 0 x).1
        = x * ((Blinder.run 0 (Blinder.create reducer rng fwd inv)
            (xs.map .blind)).blind 0 x).2.m_e %
          ((Blinder.run 0 (Blinder.create reducer rng fwd inv)
            (xs.map .blind)).blind 0 x).2.m_reducer.m_modulus := rfl
    rw [hv, s1, c1, (s5 (by simp)).1, Nat.mul_mod_mod]
    simp
  · rw [s2]
    rfl

/-- C13 (as amended) at a concrete input: modulus 7, nonce 2, `fwd = inv = id`,
three earlier calls. -/
theorem blinder_interval_zero_powers_mod7 :
    [3, 5, 6] ≠ ([] : List Nat) ∧
    (Blinder.run 0 (Blinder.create ⟨7, 3⟩ two_rng id id)
      ([3, 5, 6].map .blind)).m_rng.requests = [2] ∧
    (Blinder.run 0 (Blinder.create ⟨7, 3⟩ two_rng id id) ([3, 5, 6].map .blind)).m_e
      = 2 ^ 2 ^ 3 % 7 ∧
    (Blinder.run 0 (Blinder.create ⟨7, 3⟩ two_rng id id) ([3, 5, 6].map .blind)).m_d
      = 2 ^ 2 ^ 3 % 7 ∧
    ((Blinder.run 0 (Blinder.create ⟨7, 3⟩ two_rng id id) ([3, 5, 6].map .blind)).blind 0 4).1
      = 4 * 2 ^ 2 ^ 4 % 7 :=
  have h := blinder_interval_zero_powers ⟨7, 3⟩ two_rng id id [3, 5, 6] 4
  ⟨by decide, h.1, (h.2.2.1 (by decide)).1, (h.2.2.1 (by decide)).2, h.2.2.2.1⟩

/-- C13 (as stated) fails at `j = 0`: with modulus 7, nonce 2 and
`fwd(k) = inv(k) = k + 7` the constructor leaves `e = fwd(2) = 9`, which is not
`9^(2^0) mod 7 = 2`. -/
theorem blinder_interval_zero_unreduced :
    (Blinder.run 0 (Blinder.create ⟨7, 3⟩ two_rng (fun k => k + 7) (fun k => k + 7)) (([] : List Nat).map .blind)).m_e
      = 9 ∧
    (fun k => k + 7) (two_rng.source 0 2) ^ 2 ^ 0 % 7 = 2 ∧
    (Blinder.run 0 (Blinder.create ⟨7, 3⟩ two_rng (fun k => k + 7) (fun k => k + 7)) (([] : List Nat).map .blind)).m_e
      ≠ (fun k => k + 7) (two_rng.source 0 2) ^ 2 ^ 0 % 7 :=
  ⟨by decide, by decide, by decide⟩


/-- A `blind` call that reinitialises: what it does to each member. -/
theorem Blinder.blind_reinit (R : Nat) (b : Blinder) (x : Nat)
    (h : 0 < R ∧ R < (b.m_counter + 1) % 2 ^ 64) :
    (b.blind R x).2.m_reducer = b.m_reducer ∧
      (b.blind R x).2.m_rng.requests =
        b.m_rng.requests ++ [(b.m_modulus_bits + 2 ^ 64 - 1) % 2 ^ 64] ∧
      (b.blind R x).2.m_fwd_fn = b.m_fwd_fn ∧ (b.blind R x).2.m_inv_fn = b.m_inv_fn ∧
      (b.blind R x).2.m_modulus_bits = b.m_modulus_bits ∧
      (b.blind R x).2.m_e = b.m_fwd_fn (b.m_rng.source b.m_rng.requests.length
        ((b.m_modulus_bits + 2 ^ 64 - 1) % 2 ^ 64)) ∧
      (b.blind R x).2.m_d = b.m_inv_fn (b.m_rng.source b.m_rng.requests.length
        ((b.m_modulus_bits + 2 ^ 64 - 1) % 2 ^ 64)) ∧
      (b.blind R x).2.m_counter = 0 := by
  unfold Blinder.blind
  simp only []
  rw [if_pos h]
  exact ⟨rfl, rfl, rfl, rfl, rfl, rfl, rfl, rfl⟩

/-- One `blind` call on two states that agree up to the generator's values, when
the nonces the two generators hand out have the same images under `fwd` and
`inv`: the states after the call agree again and the returned values are
equal. -/
theorem Blinder.blind_agree (R : Nat) (b1 b2 : Blinder) (x : Nat)
    (h : Blinder.agree_up_to_source b1 b2)
    (hk : ∀ j bits, b1.m_fwd_fn (b1.m_rng.source j bits) = b2.m_fwd_fn (b2.m_rng.source j bits) ∧
      b1.m_inv_fn (b1.m_rng.source j bits) = b2.m_inv_fn (b2.m_rng.source j bits)) :
    Blinder.agree_up_to_source (b1.blind R x).2 (b2.blind R x).2 ∧
      (b1.blind R x).1 = (b2.blind R x).1 := by
  obtain ⟨h1, h2, h3, h4, h5, h6, h7, h8⟩ := h
  by_cases hc : 0 < R ∧ R < (b1.m_counter + 1) % 2 ^ 64
  · have hc2 : 0 < R ∧ R < (b2.m_counter + 1) % 2 ^ 64 := by
      rw [← h8]
      exact hc
    obtain ⟨a1, a2, a3, a4, a5, a6, a7, a8⟩ := Blinder.blind_reinit R b1 x hc
    obtain ⟨c1, c2, c3, c4, c5, c6, c7, c8⟩ := Blinder.blind_reinit R b2 x hc2
    have k1 := hk b1.m_rng.requests.length ((b1.m_modulus_bits + 2 ^ 64 - 1) % 2 ^ 64)
    have v1 : (b1.blind R x).1 = x * (b1.blind R x).2.m_e % (b1.blind R x).2.m_reducer.m_modulus :=
      rfl
    have v2 : (b2.blind R x).1 = x * (b2.blind R x).2.m_e % (b2.blind R x).2.m_reducer.m_modulus :=
      rfl
    refine ⟨⟨?_, ?_, ?_, ?_, ?_, ?_, ?_, ?_⟩, ?_⟩
    · rw [a1, c1, h1]
    · rw [a2, c2, h2, h5]
    · rw [a3, c3, h3]
    · rw [a4, c4, h4]
    · rw [a5, c5, h5]
    · rw [a6, c6, ← h2, ← h5]
      exact k1.1
    · rw [a7, c7, ← h2, ← h5]
      exact k1.2
    · rw [a8, c8]
    · rw [v1, v2, a1, c1, a6, c6, h1, ← h2, ← h5, k1.1]
  · have hc2 : ¬ (0 < R ∧ R < (b2.m_counter + 1) % 2 ^ 64) := by
      rw [← h8]
      exact hc
    obtain ⟨a1, a2, a3, a4, a5, a6, a7⟩ := Blinder.blind_square R b1 x hc
    obtain ⟨c1, c2, c3, c4, c5, c6, c7⟩ := Blinder.blind_square R b2 x hc2
    have m1 : (b1.blind R x).2.m_modulus_bits = b1.m_modulus_bits := by
      unfold Blinder.blind
      simp only []
      rw [if_neg hc]
    have m2 : (b2.blind R x).2.m_modulus_bits = b2.m_modulus_bits := by
      unfold Blinder.blind
      simp only []
      rw [if_neg hc2]
    have v1 : (b1.blind R x).1 = x * (b1.blind R x).2.m_e % (b1.blind R x).2.m_reducer.m_modulus :=
      rfl
    have v2 : (b2.blind R x).1 = x * (b2.blind R x).2.m_e % (b2.blind R x).2.m_reducer.m_modulus :=
      rfl
    refine ⟨⟨?_, ?_, ?_, ?_, ?_, ?_, ?_, ?_⟩, ?_⟩
    · rw [a1, c1, h1]
    · rw [a2, c2, h2]
    · rw [a3, c3, h3]
    · rw [a4, c4, h4]
    · rw [m1, m2, h5]
    · rw [a5, c5, h1, h6]
    · rw [a6, c6, h1, h7]
    · rw [a7, c7, h8]
    · rw [v1, v2, a1, c1, a5, c5, h1, h6]

/-- The same along any sequence of calls. -/
theorem Blinder.run_agree (R : Nat) (calls : List Blinder.Call) (b1 b2 : Blinder)
    (h : Blinder.agree_up_to_source b1 b2)
    (hk : ∀ j bits, b1.m_fwd_fn (b1.m_rng.source j bits) = b2.m_fwd_fn (b2.m_rng.source j bits) ∧
      b1.m_inv_fn (b1.m_rng.source j bits) = b2.m_inv_fn (b2.m_rng.source j bits)) :
    Blinder.agree_up_to_source (Blinder.run R b1 calls) (Blinder.run R b2 calls) := by
  induction calls generalizing b1 b2 with
  | nil => exact h
  | cons c cs ih =>
    cases c with
    | unblind y => exact ih b1 b2 h hk
    | blind x =>
      obtain ⟨-, f2, f3, f4⟩ := Blinder.blind_frame R b1 x
      obtain ⟨-, g2, g3, g4⟩ := Blinder.blind_frame R b2 x
      apply ih (b1.blind R x).2 (b2.blind R x).2 (Blinder.blind_agree R b1 b2 x h hk).1
      intro j bits
      rw [f2, f3, f4, g2, g3, g4]
      exact hk j bits

/-- C15 (as amended): from any state with pair `(e0, d0)`, in particular the
state a constructor or a reinitialising `blind` call leaves, `j ≥ 1` further
`blind` calls that do not reinitialise give `e = e0^(2^j) mod n` and
`d = d0^(2^j) mod n` and ask the generator for nothing; after `j = 0` calls
the pair is `(e0, d0)` itself.  The nonce itself is in no member of the state:
if two generators have the same request log and hand out nonces with the same
images under `fwd` and `inv`, then after construction and any sequence of
calls, reinitialising ones included, the two states have the same reducer,
functions, bit length, pair, counter and request log. -/
theorem blinder_squares_between_reinit (ReinitInterval : Nat) (b : Blinder) (xs : List Nat)
    (h : Blinder.no_reinit ReinitInterval b xs = true) :
    (xs = [] →
      (Blinder.run ReinitInterval b (xs.map .blind)).m_e = b.m_e ∧
        (Blinder.run ReinitInterval b (xs.map .blind)).m_d = b.m_d) ∧
    (xs ≠ [] →
      (Blinder.run ReinitInterval b (xs.map .blind)).m_e =
          b.m_e ^ 2 ^ xs.length % b.m_reducer.m_modulus ∧
        (Blinder.run ReinitInterval b (xs.map .blind)).m_d =
          b.m_d ^ 2 ^ xs.length % b.m_reducer.m_modulus) ∧
    (Blinder.run ReinitInterval b (xs.map .blind)).m_rng.requests = b.m_rng.requests ∧
    (∀ (reducer : Barrett_Reduction) (fwd inv : Nat → Nat) (rng1 rng2 : RandomNumberGenerator)
        (calls : List Blinder.Call),
      rng1.requests = rng2.requests →
      (∀ j bits, fwd (rng1.source j bits) = fwd (rng2.source j bits) ∧
        inv (rng1.source j bits) = inv (rng2.source j bits)) →
      Blinder.agree_up_to_source
        (Blinder.run ReinitInterval (Blinder.create reducer rng1 fwd inv) calls)
        (Blinder.run ReinitInterval (Blinder.create reducer rng2 fwd inv) calls)) := by
  obtain ⟨-, r2, -, -, r5⟩ := Blinder.run_no_reinit ReinitInterval xs b h
  refine ⟨?_, r5, ?_, ?_⟩
  · intro hx
    subst hx
    exact ⟨rfl, rfl⟩
  · rw [r2]
  · intro reducer fwd inv rng1 rng2 calls hreq hk
    apply Blinder.run_agree ReinitInterval calls
    · have k0 := hk rng1.requests.length ((reducer.modulus_bits + 2 ^ 64 - 1) % 2 ^ 64)
      refine ⟨rfl, ?_, rfl, rfl, rfl, ?_, ?_, rfl⟩
      · show rng1.requests ++ [_] = rng2.requests ++ [_]
        rw [hreq]
      · show fwd (rng1.source rng1.requests.length _) = fwd (rng2.source rng2.requests.length _)
        rw [← hreq]
        exact k0.1
      · show inv (rng1.source rng1.requests.length _) = inv (rng2.source rng2.requests.length _)
        rw [← hreq]
        exact k0.2
    · intro j bits
      exact hk j bits

/-- C15 (as amended) at concrete inputs.  With `ReinitInterval = 2`, modulus 7,
nonce 2 and `fwd(k) = inv(k) = k + 7`, the two calls after construction do not
reinitialise and leave `e = d = 9^4 mod 7`.  With `fwd(k) = inv(k) = k / 2 + 7`
the nonces 2 and 3 have the same images, and after four calls, the third of
which reinitialises, the states built from the two generators have the same
pair, bit length and counter. -/
theorem blinder_squares_between_reinit_mod7 :
    Blinder.no_reinit 2 (Blinder.create ⟨7, 3⟩ two_rng (fun k => k + 7) (fun k => k + 7))
      [3, 5] = true ∧
    (Blinder.run 2 (Blinder.create ⟨7, 3⟩ two_rng (fun k => k + 7) (fun k => k + 7))
      ([3, 5].map .blind)).m_e = 9 ^ 2 ^ 2 % 7 ∧
    (Blinder.run 2 (Blinder.create ⟨7, 3⟩ two_rng (fun k => k + 7) (fun k => k + 7))
      ([3, 5].map .blind)).m_d = 9 ^ 2 ^ 2 % 7 ∧
    (Blinder.run 2 (Blinder.create ⟨7, 3⟩ two_rng (fun k => k + 7) (fun k => k + 7))
      ([3, 5].map .blind)).m_rng.requests = [2] ∧
    Blinder.agree_up_to_source
      (Blinder.run 2 (Blinder.create ⟨7, 3⟩ two_rng (fun k => k / 2 + 7) (fun k => k / 2 + 7))
        [.blind 3, .blind 5, .blind 1, .blind 6])
      (Blinder.run 2 (Blinder.create ⟨7, 3⟩ three_rng (fun k => k / 2 + 7) (fun k => k / 2 + 7))
        [.blind 3, .blind 5, .blind 1, .blind 6]) :=
  have hn : Blinder.no_reinit 2 (Blinder.create ⟨7, 3⟩ two_rng (fun k => k + 7)
      (fun k => k + 7)) [3, 5] = true := by
    decide
  have h := blinder_squares_between_reinit 2
    (Blinder.create ⟨7, 3⟩ two_rng (fun k => k + 7) (fun k => k + 7)) [3, 5] hn
  ⟨hn, (h.2.1 (by decide)).1, (h.2.1 (by decide)).2, h.2.2.1,
    h.2.2.2 ⟨7, 3⟩ (fun k => k / 2 + 7) (fun k => k / 2 + 7) two_rng three_rng
      [.blind 3, .blind 5, .blind 1, .blind 6] rfl (fun _ _ => by simp [two_rng, three_rng])⟩

/-- C15 (as stated) fails at `j = 0`: with `ReinitInterval = 1`, modulus 7,
nonce 2 and `fwd(k) = inv(k) = k + 7`, the second `blind` call reinitialises
(a second request is logged, the counter is 0) and produces `e0 = fwd(2) = 9`;
after 0 further calls `e = 9`, not `9^(2^0) mod 7 = 2`. -/
theorem blinder_reinit_pair_unreduced :
    (Blinder.run 1 (Blinder.create ⟨7, 3⟩ two_rng (fun k => k + 7) (fun k => k + 7))
      [.blind 1, .blind 1]).m_rng.requests = [2, 2] ∧
    (Blinder.run 1 (Blinder.create ⟨7, 3⟩ two_rng (fun k => k + 7) (fun k => k + 7)) [.blind 1, .blind 1]).m_counter = 0 ∧
    (Blinder.run 1 (Blinder.create ⟨7, 3⟩ two_rng (fun k => k + 7) (fun k => k + 7)) [.blind 1, .blind 1]).m_e = 9 ∧
    Blinder.no_reinit 1
      (Blinder.run 1 (Blinder.create ⟨7, 3⟩ two_rng (fun k => k + 7) (fun k => k + 7)) [.blind 1, .blind 1]) [] = true ∧
    (Blinder.run 1
      (Blinder.run 1 (Blinder.create ⟨7, 3⟩ two_rng (fun k => k + 7) (fun k => k + 7)) [.blind 1, .blind 1])
      (([] : List Nat).map .blind)).m_e ≠
      (Blinder.run 1 (Blinder.create ⟨7, 3⟩ two_rng (fun k => k + 7) (fun k => k + 7)) [.blind 1, .blind 1]).m_e
        ^ 2 ^ 0 % 7 :=
  ⟨by decide, by decide, by decide, by decide, by decide⟩


/-! ## PKCS #1 v1.5 signature padding: length and padding run -/

theorem PKCS1v15_SignaturePaddingScheme.encoding_of_ok (s : PKCS1v15_SignaturePaddingScheme)
    (msg : List Nat) (output_bits : Nat) (rng : RandomNumberGenerator) (c : List Nat)
    (h : s.encoding_of msg output_bits rng = .ok c) :
    msg.length = s.m_hash.output_length ∧
      pkcs1v15_sig_encoding msg output_bits s.m_hash_id = .ok c := by
  unfold PKCS1v15_SignaturePaddingScheme.encoding_of at h
  by_cases hl : msg.length ≠ s.m_hash.output_length
  · rw [if_pos hl] at h
    cases h
  · rw [if_neg hl] at h
    exact ⟨not_not.mp hl, h⟩

theorem pkcs1v15_sig_encoding_ok_length (msg : List Nat) (output_bits : Nat)
    (hash_id c : List Nat) (h : pkcs1v15_sig_encoding msg output_bits hash_id = .ok c) :
    c.length = output_bits / 8 := by
  obtain ⟨hge, hc⟩ := pkcs1v15_sig_encoding_ok msg output_bits hash_id c h
  rw [hc]
  exact pkcs1v15_layout_length msg output_bits hash_id hge

/-- C16: every successful encoding, of `pkcs1v15_sig_encoding` and so of
`encoding_of` of the PKCS1v15 scheme and of the Raw scheme, has exactly
`output_bits / 8` bytes (integer division), whether or not `output_bits` is a
multiple of 8. -/
theorem pkcs1v15_encoding_length (msg hash_id : List Nat) (output_bits : Nat)
    (s : PKCS1v15_SignaturePaddingScheme) (r : PKCS1v15_Raw_SignaturePaddingScheme)
    (rng : RandomNumberGenerator) (c : List Nat) :
    (pkcs1v15_sig_encoding msg output_bits hash_id = .ok c → c.length = output_bits / 8) ∧
    (s.encoding_of msg output_bits rng = .ok c → c.length = output_bits / 8) ∧
    (r.encoding_of msg output_bits rng = .ok c → c.length = output_bits / 8) :=
  ⟨fun h => pkcs1v15_sig_encoding_ok_length msg output_bits hash_id c h,
   fun h => pkcs1v15_sig_encoding_ok_length msg output_bits s.m_hash_id c
     (PKCS1v15_SignaturePaddingScheme.encoding_of_ok s msg output_bits rng c h).2,
   fun h => pkcs1v15_sig_encoding_ok_length msg output_bits r.m_hash_id c h⟩

/-- C16 at a concrete input: SHA-256 at `output_bits = 2047`, not a multiple of
8, gives 255 bytes. -/
theorem pkcs1v15_encoding_length_2047 :
    pkcs1v15_sha256.encoding_of sha256_abc 2047 zero_rng =
      .ok (pkcs1v15_layout sha256_abc 2047 sha256_hash_id) ∧
    (pkcs1v15_layout sha256_abc 2047 sha256_hash_id).length = 255 :=
  have he : pkcs1v15_sha256.encoding_of sha256_abc 2047 zero_rng =
      .ok (pkcs1v15_layout sha256_abc 2047 sha256_hash_id) := by
    unfold PKCS1v15_SignaturePaddingScheme.encoding_of
    rw [if_neg (by decide)]
    exact pkcs1v15_sig_encoding_eq sha256_abc 2047 sha256_hash_id (by decide)
  ⟨he, (pkcs1v15_encoding_length sha256_abc sha256_hash_id 2047 pkcs1v15_sha256
    PKCS1v15_Raw_SignaturePaddingScheme.unbound zero_rng
    (pkcs1v15_layout sha256_abc 2047 sha256_hash_id)).2.1 he⟩

/-- C17 (as amended): every successful encoding has `output_bits / 8` bytes,
rounded down; that is `(output_bits + 7) / 8`, the number of bytes needed to
hold `output_bits` bits, exactly when `output_bits` is a multiple of 8. -/
theorem pkcs1v15_encoding_length_floor (msg hash_id : List Nat) (output_bits : Nat)
    (c : List Nat) (h : pkcs1v15_sig_encoding msg output_bits hash_id = .ok c) :
    c.length = output_bits / 8 ∧
      (c.length = (output_bits + 7) / 8 ↔ output_bits % 8 = 0) := by
  have hl := pkcs1v15_sig_encoding_ok_length msg output_bits hash_id c h
  refine ⟨hl, ?_⟩
  rw [hl]
  omega

/-- C17 (as amended) at a concrete input: SHA-256 at 2048 bits, 256 bytes. -/
theorem pkcs1v15_encoding_length_floor_2048 :
    pkcs1v15_sig_encoding sha256_abc 2048 sha256_hash_id =
      .ok (pkcs1v15_layout sha256_abc 2048 sha256_hash_id) ∧
    (pkcs1v15_layout sha256_abc 2048 sha256_hash_id).length = 2048 / 8 ∧
    ((pkcs1v15_layout sha256_abc 2048 sha256_hash_id).length = (2048 + 7) / 8 ↔
      2048 % 8 = 0) :=
  have he := pkcs1v15_sig_encoding_eq sha256_abc 2048 sha256_hash_id (by decide)
  ⟨he, pkcs1v15_encoding_length_floor sha256_abc sha256_hash_id 2048 _ he⟩

/-- C17 (as stated) fails: SHA-256 at `output_bits = 2047` encodes successfully
to 255 bytes, while `(2047 + 7) / 8 = 256`. -/
theorem pkcs1v15_encoding_length_not_ceil :
    ∃ c, pkcs1v15_sig_encoding sha256_abc 2047 sha256_hash_id = .ok c ∧ c.length = 255 ∧
      (2047 + 7) / 8 = 256 ∧ c.length ≠ (2047 + 7) / 8 := by
  have hl : (pkcs1v15_layout sha256_abc 2047 sha256_hash_id).length = 2047 / 8 :=
    pkcs1v15_layout_length sha256_abc 2047 sha256_hash_id (by decide)
  refine ⟨pkcs1v15_layout sha256_abc 2047 sha256_hash_id,
    pkcs1v15_sig_encoding_eq sha256_abc 2047 sha256_hash_id (by decide), ?_, by decide, ?_⟩
  · rw [hl]
  · rw [hl]
    decide

/-- C18: every successful encoding has at least `i + h + 2 + 8` bytes and is
`0x01`, a run of `k ≥ 8` bytes `0xFF`, the separator `0x00`, the hash
identifier and the message; `k = 8` when `output_bits / 8 = i + h + 10`. -/
theorem pkcs1v15_encoding_padding_run (msg hash_id : List Nat) (output_bits : Nat)
    (c : List Nat) (h : pkcs1v15_sig_encoding msg output_bits hash_id = .ok c) :
    hash_id.length + msg.length + 2 + 8 ≤ c.length ∧
      ∃ k, 8 ≤ k ∧
        c = [0x01] ++ List.replicate k 0xFF ++ [0x00] ++ hash_id ++ msg ∧
        (output_bits / 8 = hash_id.length + msg.length + 10 → k = 8) := by
  obtain ⟨hge, hc⟩ := pkcs1v15_sig_encoding_ok msg output_bits hash_id c h
  have hl := pkcs1v15_sig_encoding_ok_length msg output_bits hash_id c h
  refine ⟨by omega, output_bits / 8 - hash_id.length - msg.length - 2, by omega, hc, ?_⟩
  intro he
  omega

/-- C18 at a concrete input: SHA-256 at the smallest size, 61 bytes, where the
run has exactly 8 bytes. -/
theorem pkcs1v15_encoding_padding_run_min :
    pkcs1v15_sig_encoding sha256_abc 488 sha256_hash_id =
      .ok (pkcs1v15_layout sha256_abc 488 sha256_hash_id) ∧
    sha256_hash_id.length + sha256_abc.length + 2 + 8 ≤
      (pkcs1v15_layout sha256_abc 488 sha256_hash_id).length ∧
    ∃ k, 8 ≤ k ∧
      pkcs1v15_layout sha256_abc 488 sha256_hash_id =
        [0x01] ++ List.replicate k 0xFF ++ [0x00] ++ sha256_hash_id ++ sha256_abc ∧
      (488 / 8 = sha256_hash_id.length + sha256_abc.length + 10 → k = 8) :=
  have he := pkcs1v15_sig_encoding_eq sha256_abc 488 sha256_hash_id (by decide)
  ⟨he, pkcs1v15_encoding_padding_run sha256_abc sha256_hash_id 488 _ he⟩


/-! ## The Raw scheme: length guard and accumulation -/

/-- C19 (as amended): for the Raw scheme bound to a hash with output length
`h > 0`, a buffered message whose length differs from `h` is refused by
`raw_data` with an `Encoding_Error`; `encoding_of(msg, output_bits, rng)` does
not look at `h`: it fails, with an `Encoding_Error`, exactly when
`output_bits / 8 < i + |msg| + 10`, and otherwise returns the encoding of
`msg`, whatever the length of `msg`. -/
theorem raw_bound_length_guard (hash : HashFunction) (hash_id msg buffered : List Nat)
    (output_bits : Nat) (rng : RandomNumberGenerator) :
    (0 < hash.output_length → buffered.length ≠ hash.output_length →
      (((PKCS1v15_Raw_SignaturePaddingScheme.bound hash hash_id).update buffered).raw_data).1 =
        .error (.Encoding_Error
          "PKCS1v15_Raw_SignaturePaddingScheme::encoding_of: Bad input length")) ∧
    (output_bits / 8 < hash_id.length + msg.length + 10 →
      (PKCS1v15_Raw_SignaturePaddingScheme.bound hash hash_id).encoding_of msg output_bits rng =
        .error (.Encoding_Error "pkcs1v15_sig_encoding: Output length is too small")) ∧
    (hash_id.length + msg.length + 10 ≤ output_bits / 8 →
      (PKCS1v15_Raw_SignaturePaddingScheme.bound hash hash_id).encoding_of msg output_bits rng =
        .ok ([0x01] ++ List.replicate (output_bits / 8 - hash_id.length - msg.length - 2) 0xFF
              ++ [0x00] ++ hash_id ++ msg)) := by
  refine ⟨?_, ?_, ?_⟩
  · intro hpos hne
    unfold PKCS1v15_Raw_SignaturePaddingScheme.raw_data
    simp only []
    rw [if_pos]
    refine ⟨hpos, ?_⟩
    simpa [PKCS1v15_Raw_SignaturePaddingScheme.update,
      PKCS1v15_Raw_SignaturePaddingScheme.bound] using hne
  · intro hs
    exact pkcs1v15_sig_encoding_small msg output_bits hash_id hs
  · intro hge
    exact pkcs1v15_sig_encoding_eq msg output_bits hash_id hge

/-- C19 (as amended) at concrete inputs: the Raw scheme bound to SHA-256 with 31
bytes buffered, with a 31-byte message at 256 bits, and with a 31-byte message
at 2048 bits. -/
theorem raw_bound_length_guard_sha256 :
    (((PKCS1v15_Raw_SignaturePaddingScheme.bound sha256 sha256_hash_id).update
        (List.replicate 31 0)).raw_data).1 =
      .error (.Encoding_Error
        "PKCS1v15_Raw_SignaturePaddingScheme::encoding_of: Bad input length") ∧
    (PKCS1v15_Raw_SignaturePaddingScheme.bound sha256 sha256_hash_id).encoding_of
        (List.replicate 31 0) 256 zero_rng =
      .error (.Encoding_Error "pkcs1v15_sig_encoding: Output length is too small") ∧
    (PKCS1v15_Raw_SignaturePaddingScheme.bound sha256 sha256_hash_id).encoding_of
        (List.replicate 31 0) 2048 zero_rng =
      .ok ([0x01] ++ List.replicate 204 0xFF ++ [0x00] ++ sha256_hash_id
            ++ List.replicate 31 0) :=
  ⟨(raw_bound_length_guard sha256 sha256_hash_id [] (List.replicate 31 0) 0 zero_rng).1
      (by decide) (by decide),
   (raw_bound_length_guard sha256 sha256_hash_id (List.replicate 31 0) [] 256 zero_rng).2.1
      (by decide),
   (raw_bound_length_guard sha256 sha256_hash_id (List.replicate 31 0) [] 2048 zero_rng).2.2
      (by decide)⟩

/-- C19 (as stated) fails: the Raw scheme bound to SHA-256 (`h = 32`) encodes a
31-byte message at 2048 bits without an error. -/
theorem raw_bound_encoding_of_accepts_other_length :
    (List.replicate 31 0).length ≠ sha256.output_length ∧
    (PKCS1v15_Raw_SignaturePaddingScheme.bound sha256 sha256_hash_id).m_hash_output_len = 32 ∧
    ∃ c, (PKCS1v15_Raw_SignaturePaddingScheme.bound sha256 sha256_hash_id).encoding_of
      (List.replicate 31 0) 2048 zero_rng = .ok c :=
  ⟨by decide, rfl, _,
    pkcs1v15_sig_encoding_eq (List.replicate 31 0) 2048 sha256_hash_id (by decide)⟩

theorem PKCS1v15_Raw_SignaturePaddingScheme.foldl_update (bs : List (List Nat))
    (s : PKCS1v15_Raw_SignaturePaddingScheme) :
    (bs.foldl PKCS1v15_Raw_SignaturePaddingScheme.update s).m_message =
        s.m_message ++ bs.flatten ∧
      (bs.foldl PKCS1v15_Raw_SignaturePaddingScheme.update s).m_hash_output_len =
        s.m_hash_output_len := by
  induction bs generalizing s with
  | nil => simp
  | cons b bs ih =>
    obtain ⟨h1, h2⟩ := ih (s.update b)
    rw [List.foldl_cons, h1, h2]
    simp [PKCS1v15_Raw_SignaturePaddingScheme.update]

theorem PKCS1v15_Raw_SignaturePaddingScheme.raw_data_unbound
    (s : PKCS1v15_Raw_SignaturePaddingScheme) (h : s.m_hash_output_len = 0) :
    s.raw_data.1 = .ok s.m_message ∧ s.raw_data.2.m_message = [] ∧
      s.raw_data.2.m_hash_output_len = 0 := by
  unfold PKCS1v15_Raw_SignaturePaddingScheme.raw_data
  simp only []
  rw [if_neg (by omega)]
  exact ⟨rfl, rfl, h⟩

/-- C20: for the Raw scheme in unbound mode, `raw_data` after the updates
`b1, …, bn` (`n ≥ 0`, any lengths) made since construction, or since the last
`raw_data`, does not fail and returns `b1 ++ … ++ bn` unchanged. -/
theorem raw_unbound_raw_data (s0 : PKCS1v15_Raw_SignaturePaddingScheme)
    (bs : List (List Nat)) (h0 : s0.m_hash_output_len = 0) :
    ((bs.foldl PKCS1v15_Raw_SignaturePaddingScheme.update
        PKCS1v15_Raw_SignaturePaddingScheme.unbound).raw_data).1 = .ok bs.flatten ∧
    ((bs.foldl PKCS1v15_Raw_SignaturePaddingScheme.update s0.raw_data.2).raw_data).1 =
      .ok bs.flatten := by
  obtain ⟨-, d2, d3⟩ := PKCS1v15_Raw_SignaturePaddingScheme.raw_data_unbound s0 h0
  obtain ⟨u1, u2⟩ := PKCS1v15_Raw_SignaturePaddingScheme.foldl_update bs
    PKCS1v15_Raw_SignaturePaddingScheme.unbound
  obtain ⟨v1, v2⟩ := PKCS1v15_Raw_SignaturePaddingScheme.foldl_update bs s0.raw_data.2
  constructor
  · rw [(PKCS1v15_Raw_SignaturePaddingScheme.raw_data_unbound _ (u2.trans rfl)).1, u1]
    rfl
  · rw [(PKCS1v15_Raw_SignaturePaddingScheme.raw_data_unbound _ (v2.trans d3)).1, v1, d2]
    rfl

/-- C20 at concrete inputs: three updates after construction, and the same three
updates after a `raw_data` that drained two earlier bytes. -/
theorem raw_unbound_raw_data_example :
    (PKCS1v15_Raw_SignaturePaddingScheme.unbound.update [7, 8]).m_hash_output_len = 0 ∧
    (([[1], [2, 3], []].foldl PKCS1v15_Raw_SignaturePaddingScheme.update
        PKCS1v15_Raw_SignaturePaddingScheme.unbound).raw_data).1 = .ok [1, 2, 3] ∧
    (([[1], [2, 3], []].foldl PKCS1v15_Raw_SignaturePaddingScheme.update
        (PKCS1v15_Raw_SignaturePaddingScheme.unbound.update [7, 8]).raw_data.2).raw_data).1 =
      .ok [1, 2, 3] :=
  ⟨rfl, raw_unbound_raw_data (PKCS1v15_Raw_SignaturePaddingScheme.unbound.update [7, 8])
    [[1], [2, 3], []] rfl⟩


/-! ## The Raw scheme: draining, wire format, names -/

/-- C21 (as amended): in either mode `raw_data` leaves the accumulation buffer
empty.  A second `raw_data` with no `update` in between returns the empty byte
string in unbound mode; in the mode bound to a hash (`m_hash_output_len > 0`)
it fails with an `Encoding_Error`, the empty buffer not having the bound
length.  The buffer is empty after the second call as well. -/
theorem raw_data_drains (s : PKCS1v15_Raw_SignaturePaddingScheme) :
    s.raw_data.2.m_message = [] ∧
    s.raw_data.2.m_hash_output_len = s.m_hash_output_len ∧
    (s.m_hash_output_len = 0 → s.raw_data.2.raw_data.1 = .ok []) ∧
    (0 < s.m_hash_output_len →
      s.raw_data.2.raw_data.1 = .error (.Encoding_Error
        "PKCS1v15_Raw_SignaturePaddingScheme::encoding_of: Bad input length")) ∧
    s.raw_data.2.raw_data.2.m_message = [] := by
  have h1 : s.raw_data.2.m_message = [] := by
    unfold PKCS1v15_Raw_SignaturePaddingScheme.raw_data
    simp only []
    split <;> rfl
  have h2 : s.raw_data.2.m_hash_output_len = s.m_hash_output_len := by
    unfold PKCS1v15_Raw_SignaturePaddingScheme.raw_data
    simp only []
    split <;> rfl
  have h3 : ∀ t : PKCS1v15_Raw_SignaturePaddingScheme, t.raw_data.2.m_message = [] := by
    intro t
    unfold PKCS1v15_Raw_SignaturePaddingScheme.raw_data
    simp only []
    split <;> rfl
  refine ⟨h1, h2, ?_, ?_, h3 _⟩
  · intro h0
    have := (PKCS1v15_Raw_SignaturePaddingScheme.raw_data_unbound s.raw_data.2
      (h2.trans h0)).1
    rw [this, h1]
  · intro hpos
    generalize s.raw_data.2 = t at h1 h2
    unfold PKCS1v15_Raw_SignaturePaddingScheme.raw_data
    simp only []
    rw [if_pos]
    rw [h1, h2]
    exact ⟨hpos, by simp; omega⟩

/-- C21 (as amended) at concrete inputs: the unbound scheme and the scheme bound
to SHA-256, each after buffering the 32-byte digest of "abc". -/
theorem raw_data_drains_example :
    (PKCS1v15_Raw_SignaturePaddingScheme.unbound.update sha256_abc).raw_data.2.raw_data.1
      = .ok [] ∧
    ((PKCS1v15_Raw_SignaturePaddingScheme.bound sha256 sha256_hash_id).update
        sha256_abc).raw_data.2.raw_data.1 =
      .error (.Encoding_Error
        "PKCS1v15_Raw_SignaturePaddingScheme::encoding_of: Bad input length") :=
  ⟨(raw_data_drains (PKCS1v15_Raw_SignaturePaddingScheme.unbound.update sha256_abc)).2.2.1 rfl,
   (raw_data_drains ((PKCS1v15_Raw_SignaturePaddingScheme.bound sha256 sha256_hash_id).update
      sha256_abc)).2.2.2.1 (by decide)⟩

/-- C21 (as stated) fails in bound mode: for the scheme bound to SHA-256 holding
the 32-byte digest of "abc", the first `raw_data` succeeds and the second one,
with no `update` in between, does not return the empty byte string. -/
theorem raw_data_second_call_bound_fails :
    ((PKCS1v15_Raw_SignaturePaddingScheme.bound sha256 sha256_hash_id).update
        sha256_abc).raw_data.1 = .ok sha256_abc ∧
    ((PKCS1v15_Raw_SignaturePaddingScheme.bound sha256 sha256_hash_id).update
        sha256_abc).raw_data.2.raw_data.1 ≠ .ok [] := by
  constructor
  · rfl
  · intro h
    have e : ((PKCS1v15_Raw_SignaturePaddingScheme.bound sha256 sha256_hash_id).update
        sha256_abc).raw_data.2.raw_data.1 = .error (.Encoding_Error
          "PKCS1v15_Raw_SignaturePaddingScheme::encoding_of: Bad input length") := rfl
    rw [e] at h
    cases h

/-- C22: for every hash `X` with identifier bytes `I`, every message of `X`'s
output length, every `output_bits`, `coded` and `key_bits`, the Raw scheme bound
to `X` and the PKCS1v15 scheme over `X` give the same `encoding_of` outcome and
the same `verify` result. -/
theorem raw_bound_same_wire_format (X : HashFunction) (I msg coded : List Nat)
    (output_bits key_bits : Nat) (rng : RandomNumberGenerator)
    (h : msg.length = X.output_length) :
    (PKCS1v15_Raw_SignaturePaddingScheme.bound X I).encoding_of msg output_bits rng =
      (PKCS1v15_SignaturePaddingScheme.mk X I).encoding_of msg output_bits rng ∧
    (PKCS1v15_Raw_SignaturePaddingScheme.bound X I).verify coded msg key_bits =
      (PKCS1v15_SignaturePaddingScheme.mk X I).verify coded msg key_bits := by
  constructor
  · unfold PKCS1v15_SignaturePaddingScheme.encoding_of
    rw [if_neg (by simp [h])]
    rfl
  · have hr : ¬ (0 < (PKCS1v15_Raw_SignaturePaddingScheme.bound X I).m_hash_output_len ∧
        msg.length ≠ (PKCS1v15_Raw_SignaturePaddingScheme.bound X I).m_hash_output_len) :=
      fun hc => hc.2 h
    have hs : ¬ (msg.length ≠ (PKCS1v15_SignaturePaddingScheme.mk X I).m_hash.output_length) :=
      fun hc => hc h
    unfold PKCS1v15_SignaturePaddingScheme.verify PKCS1v15_Raw_SignaturePaddingScheme.verify
    rw [if_neg hr, if_neg hs]
    rfl

/-- C22 at a concrete input: SHA-256 and the digest of "abc" at 2048 bits. -/
theorem raw_bound_same_wire_format_sha256 :
    (PKCS1v15_Raw_SignaturePaddingScheme.bound sha256 sha256_hash_id).encoding_of
        sha256_abc 2048 zero_rng =
      (PKCS1v15_SignaturePaddingScheme.mk sha256 sha256_hash_id).encoding_of
        sha256_abc 2048 zero_rng ∧
    (PKCS1v15_Raw_SignaturePaddingScheme.bound sha256 sha256_hash_id).verify
        [1, 2, 3] sha256_abc 2048 =
      (PKCS1v15_SignaturePaddingScheme.mk sha256 sha256_hash_id).verify
        [1, 2, 3] sha256_abc 2048 :=
  raw_bound_same_wire_format sha256 sha256_hash_id sha256_abc [1, 2, 3] 2048 2048 zero_rng
    (by decide)

theorem fmt_pkcs1v15 (N : String) : fmt "PKCS1v15(\x7b\x7d)" N = "PKCS1v15(" ++ N ++ ")" := by
  apply String.ext
  simp [fmt, fmt_chars]

theorem fmt_pkcs1v15_raw (N : String) :
    fmt "PKCS1v15(Raw,\x7b\x7d)" N = "PKCS1v15(Raw," ++ N ++ ")" := by
  apply String.ext
  simp [fmt, fmt_chars]

/-- C23: the unbound Raw scheme is named `PKCS1v15(Raw)`; the Raw scheme bound to
a hash with non-empty canonical name `N` is named `PKCS1v15(Raw,N)`; the
PKCS1v15 scheme over a hash named `N` is named `PKCS1v15(N)` and its
`hash_function()` is `N`. -/
theorem pkcs1v15_scheme_names (hash : HashFunction) (hash_id : List Nat)
    (s : PKCS1v15_SignaturePaddingScheme) :
    PKCS1v15_Raw_SignaturePaddingScheme.unbound.name = "PKCS1v15(Raw)" ∧
    (hash.name ≠ "" →
      (PKCS1v15_Raw_SignaturePaddingScheme.bound hash hash_id).name =
        "PKCS1v15(Raw," ++ hash.name ++ ")") ∧
    s.name = "PKCS1v15(" ++ s.m_hash.name ++ ")" ∧
    s.hash_function = s.m_hash.name := by
  refine ⟨rfl, ?_, fmt_pkcs1v15 _, rfl⟩
  intro hne
  have hb : ¬ ((PKCS1v15_Raw_SignaturePaddingScheme.bound hash hash_id).m_hash_name = "") := hne
  unfold PKCS1v15_Raw_SignaturePaddingScheme.name
  rw [if_neg hb]
  exact fmt_pkcs1v15_raw _

/-- C23 at concrete inputs: the Raw scheme bound to SHA-512 and the PKCS1v15
scheme over SHA-256. -/
theorem pkcs1v15_scheme_names_examples :
    (PKCS1v15_Raw_SignaturePaddingScheme.bound ⟨"SHA-512", 64⟩ []).name
      = "PKCS1v15(Raw,SHA-512)" ∧
    pkcs1v15_sha256.name = "PKCS1v15(SHA-256)" ∧
    pkcs1v15_sha256.hash_function = "SHA-256" :=
  have h := pkcs1v15_scheme_names ⟨"SHA-512", 64⟩ [] pkcs1v15_sha256
  ⟨h.2.1 (by decide), h.2.2.1, h.2.2.2⟩


/-! ## The factory's lookup failure -/

/-- The parser on `P(YYZ)` for a name `P` without `(`: the name is `P` and the
single argument is `YYZ`. -/
theorem parse_algo_spec_yyz (P : String) (hP : '(' ∉ P.data) :
    parse_algo_spec (P ++ "(YYZ)") = some (P, ["YYZ"]) := by
  have hall : ∀ c ∈ P.data, (fun c => c != '(') c = true := by
    intro c hc
    have : c ≠ '(' := fun e => hP (e ▸ hc)
    simpa using this
  have hd : (P ++ "(YYZ)").data = P.data ++ ['(', 'Y', 'Y', 'Z', ')'] := by
    rw [String.data_append]
  unfold parse_algo_spec
  rw [hd, List.dropWhile_append_of_pos hall, List.takeWhile_append_of_pos hall]
  have h1 : List.takeWhile (fun c => c != '(') ['(', 'Y', 'Y', 'Z', ')'] = [] := by decide
  have h2 : List.dropWhile (fun c => c != '(') ['(', 'Y', 'Y', 'Z', ')'] =
      ['(', 'Y', 'Y', 'Z', ')'] := by
    decide
  have h3 : ['Y', 'Y', 'Z', ')'].getLast? = some ')' := by decide
  have h4 : List.map String.mk (split_args ['Y', 'Y', 'Z', ')'].dropLast) = ["YYZ"] := by decide
  rw [h1, h2]
  simp only [List.append_nil]
  rw [if_pos h3, h4]
  rfl

/-- The factory on `P(YYZ)` when the registry of digest engines does not know
`YYZ`: the null value, whatever the name `P`. -/
theorem SignaturePaddingScheme.create_yyz (hash_create : String → Option HashFunction)
    (pkcs_hash_id : String → List Nat)
    (ds2_args : HashFunction → Option String → Option (Bool × Nat))
    (ds3_args : HashFunction → Option String → Option Bool) (P : String)
    (hP : '(' ∉ P.data) (h : hash_create "YYZ" = none) :
    SignaturePaddingScheme.create hash_create pkcs_hash_id ds2_args ds3_args (P ++ "(YYZ)") =
      .ok none := by
  have hraw : ¬ ("YYZ" = "Raw") := by decide
  unfold SignaturePaddingScheme.create
  rw [parse_algo_spec_yyz P hP]
  simp only []
  split_ifs
  · simp only [if_neg hraw, h]
  · simp only [h]
  · simp only [h]
  · rfl

/-- C25: for every padding name `P` (a text without `(`), in particular the
names `PKCS1v15`, `ISO_9796_DS2` and `ISO_9796_DS3` that require a hash, and a
registry of digest engines that does not know `YYZ`, `create_or_throw` on
`S = P(YYZ)` returns no scheme; it fails with a lookup error whose message is
exactly `Could not find any algorithm named "S"`. -/
theorem create_or_throw_unknown (hash_create : String → Option HashFunction)
    (pkcs_hash_id : String → List Nat)
    (ds2_args : HashFunction → Option String → Option (Bool × Nat))
    (ds3_args : HashFunction → Option String → Option Bool) (P : String)
    (hP : '(' ∉ P.data) (h : hash_create "YYZ" = none) :
    SignaturePaddingScheme.create_or_throw hash_create pkcs_hash_id ds2_args ds3_args
        (P ++ "(YYZ)") =
        .error (.Lookup_Error
          ("Could not find any algorithm named \"" ++ (P ++ "(YYZ)") ++ "\"")) ∧
      ∀ scheme, SignaturePaddingScheme.create_or_throw hash_create pkcs_hash_id ds2_args
        ds3_args (P ++ "(YYZ)") ≠ .ok scheme := by
  have e : SignaturePaddingScheme.create_or_throw hash_create pkcs_hash_id ds2_args ds3_args
      (P ++ "(YYZ)") =
      .error (.Lookup_Error
        ("Could not find any algorithm named \"" ++ (P ++ "(YYZ)") ++ "\"")) := by
    unfold SignaturePaddingScheme.create_or_throw
    rw [SignaturePaddingScheme.create_yyz hash_create pkcs_hash_id ds2_args ds3_args P hP h]
  refine ⟨e, ?_⟩
  intro scheme hs
  rw [e] at hs
  cases hs

/-- C25 at the concrete input of section 8 and at the two ISO 9796-2 names,
with a registry that knows SHA-256 only: `PKCS1v15(YYZ)` fails with the message
of the spec, while `PKCS1v15(SHA-256)` and `ISO_9796_DS3(SHA-256)` give the
schemes over SHA-256. -/
theorem create_or_throw_unknown_yyz :
    SignaturePaddingScheme.create_or_throw sha256_only sha256_only_hash_id
        ds2_explicit ds3_explicit "PKCS1v15(YYZ)" =
      .error (.Lookup_Error "Could not find any algorithm named \"PKCS1v15(YYZ)\"") ∧
    SignaturePaddingScheme.create_or_throw sha256_only sha256_only_hash_id
        ds2_explicit ds3_explicit "ISO_9796_DS2(YYZ)" =
      .error (.Lookup_Error "Could not find any algorithm named \"ISO_9796_DS2(YYZ)\"") ∧
    SignaturePaddingScheme.create_or_throw sha256_only sha256_only_hash_id
        ds2_explicit ds3_explicit "ISO_9796_DS3(YYZ)" =
      .error (.Lookup_Error "Could not find any algorithm named \"ISO_9796_DS3(YYZ)\"") ∧
    SignaturePaddingScheme.create_or_throw sha256_only sha256_only_hash_id
        ds2_explicit ds3_explicit "PKCS1v15(SHA-256)" =
      .ok (.PKCS1v15 pkcs1v15_sha256) ∧
    SignaturePaddingScheme.create_or_throw sha256_only sha256_only_hash_id
        ds2_explicit ds3_explicit
        "ISO_9796_DS3(SHA-256)" =
      .ok (.ISO_9796_DS3 sha256 false) :=
  ⟨(create_or_throw_unknown sha256_only sha256_only_hash_id ds2_explicit
      ds3_explicit "PKCS1v15" (by decide) (by decide)).1,
    (create_or_throw_unknown sha256_only sha256_only_hash_id ds2_explicit
      ds3_explicit "ISO_9796_DS2" (by decide) (by decide)).1,
    (create_or_throw_unknown sha256_only sha256_only_hash_id ds2_explicit
      ds3_explicit "ISO_9796_DS3" (by decide) (by decide)).1,
    by rfl, by rfl⟩

/-! ## The Blinder's counter -/

/-- C26 (as amended): for a counter below `2^64 - 1`, a `blind` call that does
not reinitialise increases the counter by exactly one, and a `blind` call that
reinitialises (`ReinitInterval > 0` and counter `+ 1 > ReinitInterval`) sets
it to 0; `unblind` leaves it alone. -/
theorem blinder_counter_step (ReinitInterval : Nat) (b : Blinder) (x : Nat)
    (h : b.m_counter + 1 < 2 ^ 64) :
    (¬ (0 < ReinitInterval ∧ ReinitInterval < b.m_counter + 1) →
      (b.blind ReinitInterval x).2.m_counter = b.m_counter + 1 ∧
        b.m_counter < (b.blind ReinitInterval x).2.m_counter) ∧
    ((0 < ReinitInterval ∧ ReinitInterval < b.m_counter + 1) →
      (b.blind ReinitInterval x).2.m_counter = 0) ∧
    (Blinder.step ReinitInterval b (.unblind x)).m_counter = b.m_counter := by
  have hm : (b.m_counter + 1) % 2 ^ 64 = b.m_counter + 1 := Nat.mod_eq_of_lt h
  refine ⟨?_, ?_, rfl⟩
  · intro hn
    have hn2 : ¬ (0 < ReinitInterval ∧ ReinitInterval < (b.m_counter + 1) % 2 ^ 64) := by
      rw [hm]
      exact hn
    have hc := (Blinder.blind_square ReinitInterval b x hn2).2.2.2.2.2.2
    rw [hm] at hc
    rw [hc]
    exact ⟨rfl, Nat.lt_succ_self _⟩
  · intro hr
    have hr2 : 0 < ReinitInterval ∧ ReinitInterval < (b.m_counter + 1) % 2 ^ 64 := by
      rw [hm]
      exact hr
    unfold Blinder.blind
    simp only []
    rw [if_pos hr2]

/-- C26 (as amended) at a concrete input: with `ReinitInterval = 1`, the first
call after construction moves the counter from 0 to 1. -/
theorem blinder_counter_step_mod7 :
    (Blinder.create ⟨7, 3⟩ two_rng id id).m_counter + 1 < 2 ^ 64 ∧
    ((Blinder.create ⟨7, 3⟩ two_rng id id).blind 1 3).2.m_counter =
      (Blinder.create ⟨7, 3⟩ two_rng id id).m_counter + 1 :=
  ⟨by decide, ((blinder_counter_step 1 (Blinder.create ⟨7, 3⟩ two_rng id id) 3
    (by decide)).1 (by decide)).1⟩

/-- C26 (as stated) fails: with `ReinitInterval = 1`, in the state reached by one
`blind` call after construction the counter is 1, and the next `blind` call
reinitialises and leaves it at 0. -/
theorem blinder_counter_reset :
    (Blinder.run 1 (Blinder.create ⟨7, 3⟩ two_rng id id) [.blind 3]).m_counter = 1 ∧
    ((Blinder.run 1 (Blinder.create ⟨7, 3⟩ two_rng id id) [.blind 3]).blind 1 3).2.m_counter
      = 0 ∧
    ¬ ((Blinder.run 1 (Blinder.create ⟨7, 3⟩ two_rng id id) [.blind 3]).m_counter <
      ((Blinder.run 1 (Blinder.create ⟨7, 3⟩ two_rng id id) [.blind 3]).blind 1 3).2.m_counter) :=
  ⟨by decide, by decide, by decide⟩

/-! ## Version codes -/

theorem BOTAN_VERSION_CODE_FOR_eq (w a b c : Nat) (hw : 16 ≤ w) (ha : a <<< 16 < 2 ^ w)
    (hb : b < 256) (hc : c < 256) :
    BOTAN_VERSION_CODE_FOR w a b c = a * 65536 + b * 256 + c := by
  have h16 : (2 : Nat) ^ 16 ≤ 2 ^ w := Nat.pow_le_pow_right (by decide) hw
  have hbw : b <<< 8 < 2 ^ w := by
    rw [Nat.shiftLeft_eq]
    omega
  unfold BOTAN_VERSION_CODE_FOR
  rw [Nat.mod_eq_of_lt ha, Nat.mod_eq_of_lt hbw, Nat.shiftLeft_eq, Nat.shiftLeft_eq]
  have h1 : a * 2 ^ 16 ||| b * 2 ^ 8 = a * 2 ^ 16 + b * 2 ^ 8 := by
    have := Nat.mul_add_lt_is_or (show b * 2 ^ 8 < 2 ^ 16 by omega) a
    rw [Nat.mul_comm (2 ^ 16) a] at this
    exact this.symm
  have h2 : a * 2 ^ 16 + b * 2 ^ 8 = 2 ^ 8 * (a * 2 ^ 8 + b) := by omega
  rw [h1, h2, ← Nat.mul_add_lt_is_or (show c < 2 ^ 8 by omega)]
  omega

/-- C28 (as amended): on operands of an unsigned type of `w ≥ 16` bits, for major
numbers whose shift `a << 16` does not overflow (`a < 65536` for 32-bit
operands) and minor and patch numbers in `[0, 255]`,
`BOTAN_VERSION_CODE_FOR(a1,b1,c1) ≥ BOTAN_VERSION_CODE_FOR(a2,b2,c2)` exactly
when `(a1,b1,c1)` is lexicographically at least `(a2,b2,c2)`; so among such
versions those whose code is at least `BOTAN_VERSION_CODE_FOR(3,1,0)` are
3.1.0 and later. -/
theorem version_code_order (w a1 b1 c1 a2 b2 c2 : Nat) (hw : 16 ≤ w)
    (ha1 : a1 <<< 16 < 2 ^ w) (ha2 : a2 <<< 16 < 2 ^ w)
    (hb1 : b1 < 256) (hc1 : c1 < 256) (hb2 : b2 < 256) (hc2 : c2 < 256) :
    (BOTAN_VERSION_CODE_FOR w a2 b2 c2 ≤ BOTAN_VERSION_CODE_FOR w a1 b1 c1 ↔
      version_ge a1 b1 c1 a2 b2 c2) ∧
    (3 <<< 16 < 2 ^ w →
      (BOTAN_VERSION_CODE_FOR w 3 1 0 ≤ BOTAN_VERSION_CODE_FOR w a1 b1 c1 ↔
        version_ge a1 b1 c1 3 1 0)) ∧
    (version_ge a1 b1 c1 3 1 0 ↔ 3 < a1 ∨ (a1 = 3 ∧ 1 ≤ b1)) := by
  refine ⟨?_, ?_, ?_⟩
  · rw [BOTAN_VERSION_CODE_FOR_eq w a1 b1 c1 hw ha1 hb1 hc1,
      BOTAN_VERSION_CODE_FOR_eq w a2 b2 c2 hw ha2 hb2 hc2]
    unfold version_ge
    omega
  · intro h3
    rw [BOTAN_VERSION_CODE_FOR_eq w a1 b1 c1 hw ha1 hb1 hc1,
      BOTAN_VERSION_CODE_FOR_eq w 3 1 0 hw h3 (by decide) (by decide)]
    unfold version_ge
    omega
  · unfold version_ge
    omega

/-- C28 (as amended) at concrete inputs, on 32-bit operands: 3.0.255 is below
3.1.0, and 3.10.0 is not below 3.9.255. -/
theorem version_code_order_examples :
    ¬ version_ge 3 0 255 3 1 0 ∧
    ¬ (BOTAN_VERSION_CODE_FOR 32 3 1 0 ≤ BOTAN_VERSION_CODE_FOR 32 3 0 255) ∧
    version_ge 3 10 0 3 9 255 ∧
    BOTAN_VERSION_CODE_FOR 32 3 9 255 ≤ BOTAN_VERSION_CODE_FOR 32 3 10 0 :=
  have h1 : ¬ version_ge 3 0 255 3 1 0 := by
    unfold version_ge
    decide
  have h2 : version_ge 3 10 0 3 9 255 := by
    unfold version_ge
    decide
  ⟨h1,
   fun h => h1 ((version_code_order 32 3 0 255 3 1 0 (by decide) (by decide) (by decide)
     (by decide) (by decide) (by decide) (by decide)).1.mp h),
   h2,
   (version_code_order 32 3 10 0 3 9 255 (by decide) (by decide) (by decide) (by decide)
     (by decide) (by decide) (by decide)).1.mpr h2⟩

/-- C28 (as stated) fails for a major number that overflows the shift: on 32-bit
operands `BOTAN_VERSION_CODE_FOR(65536,0,0)` is 0, below
`BOTAN_VERSION_CODE_FOR(0,0,1) = 1`, although `(65536,0,0)` is lexicographically
above `(0,0,1)`. -/
theorem version_code_major_overflow :
    BOTAN_VERSION_CODE_FOR 32 65536 0 0 = 0 ∧
    BOTAN_VERSION_CODE_FOR 32 0 0 1 = 1 ∧
    version_ge 65536 0 0 0 0 1 ∧
    ¬ (BOTAN_VERSION_CODE_FOR 32 0 0 1 ≤ BOTAN_VERSION_CODE_FOR 32 65536 0 0) := by
  refine ⟨by decide, by decide, ?_, by decide⟩
  unfold version_ge
  decide

/-! ## ECIES parameters -/

/-- C29: the constructor of `ECIES_System_Params` from flags fails, with
`Invalid_Argument`, exactly when more than one of `CofactorMode`,
`OldCofactorMode` and `CheckMode` is set in the flags, and otherwise succeeds;
the constructor from `single_hash_mode` yields `check_mode = true`,
`cofactor_mode = false`, `old_cofactor_mode = false`.  In both the secret
length is the `size_t` sum `dem_key_len + mac_key_len`, which is the plain sum
whenever that is below `2^64`. -/
theorem ecies_system_params_modes (F : ECIES_Flags) (group : EC_Group)
    (kdf dem_algo_spec mac_spec : String) (dem_key_len mac_key_len : Nat)
    (point_format : EC_Point_Format) (flags : Nat) (single_hash_mode : Bool) :
    ((∃ msg, ECIES_System_Params.from_flags F group kdf dem_algo_spec dem_key_len mac_spec
        mac_key_len point_format flags = .error (.Invalid_Argument msg)) ↔
      ((flags &&& F.CofactorMode = F.CofactorMode ∧
          flags &&& F.OldCofactorMode = F.OldCofactorMode) ∨
        (flags &&& F.CofactorMode = F.CofactorMode ∧ flags &&& F.CheckMode = F.CheckMode) ∨
        (flags &&& F.OldCofactorMode = F.OldCofactorMode ∧
          flags &&& F.CheckMode = F.CheckMode))) ∧
    (¬ ((flags &&& F.CofactorMode = F.CofactorMode ∧
          flags &&& F.OldCofactorMode = F.OldCofactorMode) ∨
        (flags &&& F.CofactorMode = F.CofactorMode ∧ flags &&& F.CheckMode = F.CheckMode) ∨
        (flags &&& F.OldCofactorMode = F.OldCofactorMode ∧
          flags &&& F.CheckMode = F.CheckMode)) →
      ∃ p, ECIES_System_Params.from_flags F group kdf dem_algo_spec dem_key_len mac_spec
          mac_key_len point_format flags = .ok p ∧
        p.secret_length = (dem_key_len + mac_key_len) % 2 ^ 64) ∧
    (ECIES_System_Params.from_bool group kdf dem_algo_spec dem_key_len mac_spec mac_key_len
      point_format single_hash_mode).m_check_mode = true ∧
    (ECIES_System_Params.from_bool group kdf dem_algo_spec dem_key_len mac_spec mac_key_len
      point_format single_hash_mode).m_cofactor_mode = false ∧
    (ECIES_System_Params.from_bool group kdf dem_algo_spec dem_key_len mac_spec mac_key_len
      point_format single_hash_mode).m_old_cofactor_mode = false ∧
    (ECIES_System_Params.from_bool group kdf dem_algo_spec dem_key_len mac_spec mac_key_len
      point_format single_hash_mode).secret_length = (dem_key_len + mac_key_len) % 2 ^ 64 ∧
    (dem_key_len + mac_key_len < 2 ^ 64 →
      (dem_key_len + mac_key_len) % 2 ^ 64 = dem_key_len + mac_key_len) := by
  have key : (1 < (decide (flags &&& F.CofactorMode = F.CofactorMode)).toNat +
        (decide (flags &&& F.OldCofactorMode = F.OldCofactorMode)).toNat +
        (decide (flags &&& F.CheckMode = F.CheckMode)).toNat) ↔
      ((flags &&& F.CofactorMode = F.CofactorMode ∧
          flags &&& F.OldCofactorMode = F.OldCofactorMode) ∨
        (flags &&& F.CofactorMode = F.CofactorMode ∧ flags &&& F.CheckMode = F.CheckMode) ∨
        (flags &&& F.OldCofactorMode = F.OldCofactorMode ∧
          flags &&& F.CheckMode = F.CheckMode)) := by
    by_cases h1 : flags &&& F.CofactorMode = F.CofactorMode <;>
      by_cases h2 : flags &&& F.OldCofactorMode = F.OldCofactorMode <;>
      by_cases h3 : flags &&& F.CheckMode = F.CheckMode <;>
      simp [h1, h2, h3]
  refine ⟨?_, ?_, rfl, rfl, rfl, rfl, fun h => Nat.mod_eq_of_lt h⟩
  · rw [← key]
    unfold ECIES_System_Params.from_flags
    simp only [ECIES_KA_Params.from_flags]
    split
    · rename_i hgt
      exact ⟨fun _ => hgt, fun _ => ⟨_, rfl⟩⟩
    · rename_i hle
      constructor
      · rintro ⟨msg, hmsg⟩
        cases hmsg
      · intro hgt
        exact absurd hgt hle
  · rw [← key]
    intro hle
    unfold ECIES_System_Params.from_flags
    simp only [ECIES_KA_Params.from_flags]
    rw [if_neg hle]
    exact ⟨_, rfl, rfl⟩

/-- C29 at concrete inputs, with enumerator values 1, 2, 4, 8: the flags
`CofactorMode | CheckMode` are refused and the flags
`SingleHashMode | CheckMode` accepted, with secret length `32 + 32`. -/
theorem ecies_system_params_modes_examples :
    (∃ msg, ECIES_System_Params.from_flags one_bit_flags ⟨32, 32⟩ "KDF2(SHA-256)" "AES-256/CBC"
        32 "HMAC(SHA-256)" 32 .Compressed 10 = .error (.Invalid_Argument msg)) ∧
    (∃ p, ECIES_System_Params.from_flags one_bit_flags ⟨32, 32⟩ "KDF2(SHA-256)" "AES-256/CBC"
        32 "HMAC(SHA-256)" 32 .Compressed 9 = .ok p ∧ p.secret_length = 64) :=
  ⟨(ecies_system_params_modes one_bit_flags ⟨32, 32⟩ "KDF2(SHA-256)" "AES-256/CBC"
      "HMAC(SHA-256)" 32 32 .Compressed 10 true).1.mpr (Or.inr (Or.inl (by decide))),
   (ecies_system_params_modes one_bit_flags ⟨32, 32⟩ "KDF2(SHA-256)" "AES-256/CBC"
      "HMAC(SHA-256)" 32 32 .Compressed 9 true).2.1 (by decide)⟩

/-! ## The encoder's layout -/

/-- C30: for every `hash_id` (length `i`), `msg` (length `m`) and `output_bits`
with `L = output_bits / 8 ≥ i + m + 10`, `pkcs1v15_sig_encoding` returns
`[0x01] ++ 0xFF × (L - i - m - 2) ++ [0x00] ++ hash_id ++ msg`: an `L`-byte
string whose first byte is `0x01`, whose last `i + m` bytes are
`hash_id ++ msg`, and in which the byte before them is `0x00` and the byte
before that `0xFF`, the last of the run. -/
theorem pkcs1v15_sig_encoding_layout (msg hash_id : List Nat) (output_bits : Nat)
    (h : hash_id.length + msg.length + 10 ≤ output_bits / 8) :
    pkcs1v15_sig_encoding msg output_bits hash_id =
        .ok ([0x01] ++ List.replicate (output_bits / 8 - hash_id.length - msg.length - 2) 0xFF
              ++ [0x00] ++ hash_id ++ msg) ∧
    ([0x01] ++ List.replicate (output_bits / 8 - hash_id.length - msg.length - 2) 0xFF
        ++ [0x00] ++ hash_id ++ msg).length = output_bits / 8 ∧
    ([0x01] ++ List.replicate (output_bits / 8 - hash_id.length - msg.length - 2) 0xFF
        ++ [0x00] ++ hash_id ++ msg).head? = some 0x01 ∧
    ([0x01] ++ List.replicate (output_bits / 8 - hash_id.length - msg.length - 2) 0xFF
        ++ [0x00] ++ hash_id ++ msg).drop (output_bits / 8 - (hash_id.length + msg.length))
      = hash_id ++ msg ∧
    ([0x01] ++ List.replicate (output_bits / 8 - hash_id.length - msg.length - 2) 0xFF
        ++ [0x00] ++ hash_id ++ msg)[output_bits / 8 - (hash_id.length + msg.length) - 1]?
      = some 0x00 ∧
    ([0x01] ++ List.replicate (output_bits / 8 - hash_id.length - msg.length - 2) 0xFF
        ++ [0x00] ++ hash_id ++ msg)[output_bits / 8 - (hash_id.length + msg.length) - 2]?
      = some 0xFF := by
  have hlen : ([0x01] ++
      List.replicate (output_bits / 8 - hash_id.length - msg.length - 2) 0xFF).length =
      output_bits / 8 - (hash_id.length + msg.length) - 1 := by
    simp
    omega
  refine ⟨pkcs1v15_sig_encoding_eq msg output_bits hash_id h,
    pkcs1v15_layout_length msg output_bits hash_id h, rfl, ?_, ?_, ?_⟩
  · have e : output_bits / 8 - (hash_id.length + msg.length) =
        ([0x01] ++ List.replicate (output_bits / 8 - hash_id.length - msg.length - 2) 0xFF
          ++ [0x00]).length := by
      rw [List.length_append, hlen]
      simp
      omega
    rw [e, List.append_assoc _ hash_id msg, List.drop_left]
  · rw [List.append_assoc _ hash_id msg, List.append_assoc _ [0] (hash_id ++ msg), ← hlen,
      List.getElem?_append_right (Nat.le_refl _)]
    simp
  · rw [List.append_assoc _ hash_id msg, List.append_assoc _ [0] (hash_id ++ msg),
      List.getElem?_append_left (by rw [hlen]; omega)]
    have hk : output_bits / 8 - (hash_id.length + msg.length) - 2 =
        (output_bits / 8 - hash_id.length - msg.length - 2 - 1) + 1 := by omega
    have h8 : output_bits / 8 - hash_id.length - msg.length - 2 - 1 <
        output_bits / 8 - hash_id.length - msg.length - 2 := by omega
    rw [hk, List.singleton_append, List.getElem?_cons_succ, List.getElem?_replicate,
      if_pos h8]

/-- C30 at a concrete input: SHA-256 and the digest of "abc" at 2048 bits. -/
theorem pkcs1v15_sig_encoding_layout_sha256 :
    pkcs1v15_sig_encoding sha256_abc 2048 sha256_hash_id =
      .ok ([0x01] ++ List.replicate 203 0xFF ++ [0x00] ++ sha256_hash_id ++ sha256_abc) :=
  (pkcs1v15_sig_encoding_layout sha256_abc sha256_hash_id 2048 (by decide)).1


/-! ## PKCS #1 v1.5 signature padding: acceptance set, success conditions, safety -/

/-- C31: `verify(coded, raw, key_bits)` of the PKCS1v15 scheme is `true` exactly
when `raw` has the hash's output length `h`, `key_bits / 8 ≥ i + h + 10` and
`coded` is the result of `pkcs1v15_sig_encoding(raw, key_bits, I)`; so for
fixed `raw` and `key_bits` at most one `coded` is accepted. -/
theorem pkcs1v15_verify_acceptance (s : PKCS1v15_SignaturePaddingScheme)
    (coded coded2 raw : List Nat) (key_bits : Nat) :
    (s.verify coded raw key_bits = .ok true ↔
      (raw.length = s.m_hash.output_length ∧
        s.m_hash_id.length + s.m_hash.output_length + 10 ≤ key_bits / 8 ∧
        pkcs1v15_sig_encoding raw key_bits s.m_hash_id = .ok coded)) ∧
    (s.verify coded raw key_bits = .ok true → s.verify coded2 raw key_bits = .ok true →
      coded = coded2) := by
  have main : ∀ c : List Nat, s.verify c raw key_bits = .ok true ↔
      (raw.length = s.m_hash.output_length ∧
        s.m_hash_id.length + s.m_hash.output_length + 10 ≤ key_bits / 8 ∧
        pkcs1v15_sig_encoding raw key_bits s.m_hash_id = .ok c) := by
    intro c
    unfold PKCS1v15_SignaturePaddingScheme.verify
    by_cases hl : raw.length ≠ s.m_hash.output_length
    · rw [if_pos hl]
      constructor
      · intro h
        cases h
      · intro h
        exact absurd h.1 hl
    · rw [if_neg hl]
      have hl2 : raw.length = s.m_hash.output_length := not_not.mp hl
      by_cases hs : key_bits / 8 < s.m_hash_id.length + raw.length + 10
      · rw [pkcs1v15_sig_encoding_small _ _ _ hs]
        constructor
        · intro h
          cases h
        · intro h
          cases h.2.2
      · have hge : s.m_hash_id.length + raw.length + 10 ≤ key_bits / 8 := by omega
        rw [pkcs1v15_sig_encoding_eq _ _ _ hge]
        constructor
        · intro h
          injection h with h
          have hc : c = pkcs1v15_layout raw key_bits s.m_hash_id := by
            simpa [constant_time_compare] using h
          refine ⟨hl2, by omega, ?_⟩
          rw [hc]
        · intro h
          have hc := h.2.2
          injection hc with hc
          rw [← hc]
          simp [constant_time_compare]
  refine ⟨main coded, ?_⟩
  intro h1 h2
  have e1 := ((main coded).mp h1).2.2
  have e2 := ((main coded2).mp h2).2.2
  rw [e1] at e2
  injection e2

/-- C31 at a concrete input: the SHA-256 encoding of section 8 is accepted. -/
theorem pkcs1v15_verify_acceptance_sha256 :
    pkcs1v15_sha256.verify (pkcs1v15_layout sha256_abc 2048 sha256_hash_id) sha256_abc 2048
      = .ok true :=
  (pkcs1v15_verify_acceptance pkcs1v15_sha256 (pkcs1v15_layout sha256_abc 2048 sha256_hash_id)
    [] sha256_abc 2048).1.mpr
    ⟨by decide, by decide, pkcs1v15_sig_encoding_eq sha256_abc 2048 sha256_hash_id (by decide)⟩

/-- C33: `encoding_of(msg, output_bits, rng)` of the PKCS1v15 scheme succeeds
exactly when `msg` has the hash's output length `h` and
`output_bits / 8 ≥ i + h + 10`; it fails with the `Encoding_Error` for a bad
input length whenever `|msg| ≠ h`, whatever `output_bits`, and with the
`Encoding_Error` for a too small output when `|msg| = h` and
`output_bits / 8 < i + h + 10`. -/
theorem pkcs1v15_encoding_of_success (s : PKCS1v15_SignaturePaddingScheme) (msg : List Nat)
    (output_bits : Nat) (rng : RandomNumberGenerator) :
    ((∃ c, s.encoding_of msg output_bits rng = .ok c) ↔
      (msg.length = s.m_hash.output_length ∧
        s.m_hash_id.length + s.m_hash.output_length + 10 ≤ output_bits / 8)) ∧
    (msg.length ≠ s.m_hash.output_length →
      s.encoding_of msg output_bits rng = .error (.Encoding_Error
        "PKCS1v15_SignaturePaddingScheme::encoding_of: Bad input length")) ∧
    (msg.length = s.m_hash.output_length →
      output_bits / 8 < s.m_hash_id.length + s.m_hash.output_length + 10 →
      s.encoding_of msg output_bits rng = .error (.Encoding_Error
        "pkcs1v15_sig_encoding: Output length is too small")) := by
  have hbad : msg.length ≠ s.m_hash.output_length →
      s.encoding_of msg output_bits rng = .error (.Encoding_Error
        "PKCS1v15_SignaturePaddingScheme::encoding_of: Bad input length") := by
    intro hl
    unfold PKCS1v15_SignaturePaddingScheme.encoding_of
    rw [if_pos hl]
  have hsmall : msg.length = s.m_hash.output_length →
      output_bits / 8 < s.m_hash_id.length + s.m_hash.output_length + 10 →
      s.encoding_of msg output_bits rng = .error (.Encoding_Error
        "pkcs1v15_sig_encoding: Output length is too small") := by
    intro hl hs
    unfold PKCS1v15_SignaturePaddingScheme.encoding_of
    rw [if_neg (by simp [hl])]
    exact pkcs1v15_sig_encoding_small msg output_bits s.m_hash_id (by omega)
  refine ⟨?_, hbad, hsmall⟩
  constructor
  · rintro ⟨c, hc⟩
    obtain ⟨hl, he⟩ := PKCS1v15_SignaturePaddingScheme.encoding_of_ok s msg output_bits rng c hc
    have hge := (pkcs1v15_sig_encoding_ok msg output_bits s.m_hash_id c he).1
    exact ⟨hl, by omega⟩
  · rintro ⟨hl, hge⟩
    refine ⟨pkcs1v15_layout msg output_bits s.m_hash_id, ?_⟩
    unfold PKCS1v15_SignaturePaddingScheme.encoding_of
    rw [if_neg (by simp [hl])]
    exact pkcs1v15_sig_encoding_eq msg output_bits s.m_hash_id (by omega)

/-- C33 at concrete inputs: SHA-256 with a 31-byte message, and with the digest
of "abc" at 256 bits. -/
theorem pkcs1v15_encoding_of_success_sha256 :
    pkcs1v15_sha256.encoding_of (List.replicate 31 0) 2048 zero_rng =
      .error (.Encoding_Error
        "PKCS1v15_SignaturePaddingScheme::encoding_of: Bad input length") ∧
    pkcs1v15_sha256.encoding_of sha256_abc 256 zero_rng =
      .error (.Encoding_Error "pkcs1v15_sig_encoding: Output length is too small") :=
  ⟨(pkcs1v15_encoding_of_success pkcs1v15_sha256 (List.replicate 31 0) 2048 zero_rng).2.1
      (by decide),
   (pkcs1v15_encoding_of_success pkcs1v15_sha256 sha256_abc 256 zero_rng).2.2
      (by decide) (by decide)⟩


theorem BufferStuffer.append_ok_capacity (s : BufferStuffer) (bytes : List Nat)
    (h : bytes.length ≤ s.m_buffer.length) :
    ∃ t, s.append bytes = .ok t ∧ t.written = s.written ++ bytes ∧
      t.m_buffer.length = s.m_buffer.length - bytes.length ∧
      t.written.length = s.written.length + bytes.length := by
  refine ⟨_, BufferStuffer.append_ok s bytes h, rfl, ?_, ?_⟩
  · simp
  · simp

/-- C34: whenever the guard `output_bits / 8 ≥ i + m + 10` passes, every step of
the encoder is safe: the run length `remaining_capacity - (1 + i + m)` does
not underflow (also as a `size_t` difference, for a buffer below `2^64`
bytes), each of the five appends fits into the remaining capacity, and at the
end `stuffer.full()` holds with all `output_bits / 8` bytes written, which is
the value returned. -/
theorem pkcs1v15_sig_encoding_safe (msg hash_id : List Nat) (output_bits : Nat)
    (h : hash_id.length + msg.length + 10 ≤ output_bits / 8) :
    ∃ s1 s2 s3 s4 s5 : BufferStuffer,
      (BufferStuffer.init (List.replicate (output_bits / 8) 0)).append_byte 0x01 1 = .ok s1 ∧
      1 + hash_id.length + msg.length ≤ s1.remaining_capacity ∧
      (output_bits / 8 < 2 ^ 64 →
        (s1.remaining_capacity + 2 ^ 64 - (1 + hash_id.length + msg.length)) % 2 ^ 64 =
          s1.remaining_capacity - (1 + hash_id.length + msg.length)) ∧
      s1.append_byte 0xFF (s1.remaining_capacity - (1 + hash_id.length + msg.length))
        = .ok s2 ∧
      s2.append_byte 0x00 1 = .ok s3 ∧
      s3.append hash_id = .ok s4 ∧
      s4.append msg = .ok s5 ∧
      s5.full = true ∧
      s5.m_buffer = [] ∧
      s5.written.length = output_bits / 8 ∧
      s5.underlying = s5.written ∧
      pkcs1v15_sig_encoding msg output_bits hash_id = .ok s5.underlying := by
  obtain ⟨s1, a1, w1, c1, l1⟩ := BufferStuffer.append_ok_capacity
    (BufferStuffer.init (List.replicate (output_bits / 8) 0)) (List.replicate 1 0x01)
    (by simp [BufferStuffer.init]; omega)
  simp only [BufferStuffer.init, List.length_replicate, List.length_nil] at c1 l1
  have hrc : s1.remaining_capacity = output_bits / 8 - 1 := c1
  obtain ⟨s2, a2, w2, c2, l2⟩ := BufferStuffer.append_ok_capacity s1
    (List.replicate (s1.remaining_capacity - (1 + hash_id.length + msg.length)) 0xFF)
    (by rw [List.length_replicate, hrc, c1]; omega)
  rw [List.length_replicate, hrc] at c2 l2
  obtain ⟨s3, a3, w3, c3, l3⟩ := BufferStuffer.append_ok_capacity s2 (List.replicate 1 0x00)
    (by rw [List.length_replicate, c2, c1]; omega)
  rw [List.length_replicate] at c3 l3
  obtain ⟨s4, a4, w4, c4, l4⟩ := BufferStuffer.append_ok_capacity s3 hash_id
    (by rw [c3, c2, c1]; omega)
  obtain ⟨s5, a5, w5, c5, l5⟩ := BufferStuffer.append_ok_capacity s4 msg
    (by rw [c4, c3, c2, c1]; omega)
  have hempty : s5.m_buffer = [] := by
    apply List.eq_nil_of_length_eq_zero
    rw [c5, c4, c3, c2, c1]
    omega
  have hund : s5.underlying = s5.written := by
    unfold BufferStuffer.underlying
    rw [hempty, List.append_nil]
  refine ⟨s1, s2, s3, s4, s5, a1, by rw [hrc]; omega, ?_, a2, a3, a4, a5, ?_, hempty, ?_, hund,
    ?_⟩
  · intro hL
    rw [hrc]
    omega
  · unfold BufferStuffer.full
    rw [hempty]
    rfl
  · rw [l5, l4, l3, l2, l1]
    omega
  · unfold pkcs1v15_sig_encoding
    simp only []
    rw [if_neg (by omega)]
    have b1 : (BufferStuffer.init (List.replicate (output_bits / 8) 0)).append_byte 0x01 1
        = .ok s1 := a1
    have b2 : s1.append_byte 0xFF
        (s1.remaining_capacity - (1 + hash_id.length + msg.length)) = .ok s2 := a2
    have b3 : s2.append_byte 0x00 1 = .ok s3 := a3
    have hf : s5.full = true := by
      unfold BufferStuffer.full
      rw [hempty]
      rfl
    rw [b1, except_ok_bind, b2, except_ok_bind, b3, except_ok_bind, a4, except_ok_bind, a5,
      except_ok_bind, if_pos hf]
    rfl

/-- C34 at a concrete input: SHA-256 at the smallest size, 61 bytes. -/
theorem pkcs1v15_sig_encoding_safe_min :
    ∃ s5 : BufferStuffer, s5.full = true ∧ s5.written.length = 488 / 8 ∧
      pkcs1v15_sig_encoding sha256_abc 488 sha256_hash_id = .ok s5.underlying := by
  obtain ⟨_, _, _, _, s5, _, _, _, _, _, _, _, hf, _, hl, _, he⟩ :=
    pkcs1v15_sig_encoding_safe sha256_abc sha256_hash_id 488 (by decide)
  exact ⟨s5, hf, hl, he⟩

/-! ## The Raw scheme: the length guard of `raw_data` -/

/-- C35: for the Raw scheme bound to a hash with output length `h > 0`,
`raw_data` fails with an `Encoding_Error` exactly when the number of buffered
bytes differs from `h`, and returns the buffered bytes otherwise; in both cases
the buffer is empty afterwards. -/
theorem raw_data_bound_guard (s : PKCS1v15_Raw_SignaturePaddingScheme)
    (hpos : 0 < s.m_hash_output_len) :
    ((∃ m, s.raw_data.1 = .error (.Encoding_Error m)) ↔
      s.m_message.length ≠ s.m_hash_output_len) ∧
    (s.m_message.length ≠ s.m_hash_output_len →
      s.raw_data.1 = .error (.Encoding_Error
        "PKCS1v15_Raw_SignaturePaddingScheme::encoding_of: Bad input length")) ∧
    (s.m_message.length = s.m_hash_output_len → s.raw_data.1 = .ok s.m_message) ∧
    s.raw_data.2.m_message = [] := by
  have hbad : s.m_message.length ≠ s.m_hash_output_len →
      s.raw_data.1 = .error (.Encoding_Error
        "PKCS1v15_Raw_SignaturePaddingScheme::encoding_of: Bad input length") := by
    intro hne
    unfold PKCS1v15_Raw_SignaturePaddingScheme.raw_data
    simp only []
    rw [if_pos ⟨hpos, hne⟩]
  have hgood : s.m_message.length = s.m_hash_output_len → s.raw_data.1 = .ok s.m_message := by
    intro he
    unfold PKCS1v15_Raw_SignaturePaddingScheme.raw_data
    simp only []
    rw [if_neg (fun hc => hc.2 he)]
  refine ⟨?_, hbad, hgood, ?_⟩
  · constructor
    · rintro ⟨m, hm⟩ he
      rw [hgood he] at hm
      cases hm
    · intro hne
      exact ⟨_, hbad hne⟩
  · unfold PKCS1v15_Raw_SignaturePaddingScheme.raw_data
    simp only []
    split <;> rfl

/-- C35 at concrete inputs: the Raw scheme bound to SHA-256 with 31 bytes
buffered fails and is left empty; with the 32-byte digest of "abc" buffered it
returns the digest. -/
theorem raw_data_bound_guard_sha256 :
    ((PKCS1v15_Raw_SignaturePaddingScheme.bound sha256 sha256_hash_id).update
        (List.replicate 31 0)).raw_data.1 =
      .error (.Encoding_Error
        "PKCS1v15_Raw_SignaturePaddingScheme::encoding_of: Bad input length") ∧
    ((PKCS1v15_Raw_SignaturePaddingScheme.bound sha256 sha256_hash_id).update
        (List.replicate 31 0)).raw_data.2.m_message = [] ∧
    ((PKCS1v15_Raw_SignaturePaddingScheme.bound sha256 sha256_hash_id).update
        sha256_abc).raw_data.1 = .ok sha256_abc :=
  have h1 := raw_data_bound_guard
    ((PKCS1v15_Raw_SignaturePaddingScheme.bound sha256 sha256_hash_id).update
      (List.replicate 31 0)) (by decide)
  have h2 := raw_data_bound_guard
    ((PKCS1v15_Raw_SignaturePaddingScheme.bound sha256 sha256_hash_id).update sha256_abc)
    (by decide)
  ⟨h1.2.1 (by decide), h1.2.2.2, h2.2.2.1 (by decide)⟩


/-! ## Blinding around a multiplicative operation -/

/-- One `blind` call keeps `e < n` and `op(e)·d ≡ 1 (mod n)`. -/
theorem Blinder.blind_keeps_op_inverse (op : Nat → Nat) (R : Nat) (b : Blinder) (i : Nat)
    (hmul : ∀ x y, x < b.m_reducer.m_modulus → y < b.m_reducer.m_modulus →
      op (x * y % b.m_reducer.m_modulus) = op x * op y % b.m_reducer.m_modulus)
    (hk : ∀ j bits, b.m_fwd_fn (b.m_rng.source j bits) < b.m_reducer.m_modulus ∧
      op (b.m_fwd_fn (b.m_rng.source j bits)) * b.m_inv_fn (b.m_rng.source j bits)
        ≡ 1 [MOD b.m_reducer.m_modulus])
    (he : b.m_e < b.m_reducer.m_modulus)
    (h : op b.m_e * b.m_d ≡ 1 [MOD b.m_reducer.m_modulus]) :
    (b.blind R i).2.m_e < b.m_reducer.m_modulus ∧
      op (b.blind R i).2.m_e * (b.blind R i).2.m_d ≡ 1 [MOD b.m_reducer.m_modulus] := by
  unfold Blinder.blind
  simp only []
  split
  · simp only [Blinder.blinding_nonce, BigInt.random]
    exact hk _ _
  · show b.m_e * b.m_e % b.m_reducer.m_modulus < b.m_reducer.m_modulus ∧
      op (b.m_e * b.m_e % b.m_reducer.m_modulus) * (b.m_d * b.m_d % b.m_reducer.m_modulus)
        ≡ 1 [MOD b.m_reducer.m_modulus]
    refine ⟨Nat.mod_lt _ (by omega), ?_⟩
    rw [hmul _ _ he he]
    have h1 : op b.m_e * op b.m_e % b.m_reducer.m_modulus *
        (b.m_d * b.m_d % b.m_reducer.m_modulus) ≡
        (op b.m_e * op b.m_e) * (b.m_d * b.m_d) [MOD b.m_reducer.m_modulus] :=
      Nat.ModEq.mul (Nat.mod_modEq _ _) (Nat.mod_modEq _ _)
    have h2 : (op b.m_e * op b.m_e) * (b.m_d * b.m_d) =
        (op b.m_e * b.m_d) * (op b.m_e * b.m_d) := by ring
    have h3 : (op b.m_e * b.m_d) * (op b.m_e * b.m_d) ≡ 1 * 1 [MOD b.m_reducer.m_modulus] :=
      Nat.ModEq.mul h h
    rw [h2] at h1
    exact h1.trans h3

/-- The same invariant along any sequence of calls. -/
theorem Blinder.run_keeps_op_inverse (op : Nat → Nat) (R : Nat) (calls : List Blinder.Call)
    (b : Blinder)
    (hmul : ∀ x y, x < b.m_reducer.m_modulus → y < b.m_reducer.m_modulus →
      op (x * y % b.m_reducer.m_modulus) = op x * op y % b.m_reducer.m_modulus)
    (hk : ∀ j bits, b.m_fwd_fn (b.m_rng.source j bits) < b.m_reducer.m_modulus ∧
      op (b.m_fwd_fn (b.m_rng.source j bits)) * b.m_inv_fn (b.m_rng.source j bits)
        ≡ 1 [MOD b.m_reducer.m_modulus])
    (he : b.m_e < b.m_reducer.m_modulus)
    (h : op b.m_e * b.m_d ≡ 1 [MOD b.m_reducer.m_modulus]) :
    (Blinder.run R b calls).m_reducer = b.m_reducer ∧
      (Blinder.run R b calls).m_e < b.m_reducer.m_modulus ∧
      op (Blinder.run R b calls).m_e * (Blinder.run R b calls).m_d
        ≡ 1 [MOD b.m_reducer.m_modulus] := by
  induction calls generalizing b with
  | nil => exact ⟨rfl, he, h⟩
  | cons c cs ih =>
    cases c with
    | unblind y => exact ih b hmul hk he h
    | blind x =>
      obtain ⟨f1, f2, f3, f4⟩ := Blinder.blind_frame R b x
      obtain ⟨k1, k2⟩ := Blinder.blind_keeps_op_inverse op R b x hmul hk he h
      have g := ih (b.blind R x).2
        (by rw [f1]; exact hmul)
        (by
          intro j bits
          rw [f1, f2, f3, f4]
          exact hk j bits)
        (by rw [f1]; exact k1)
        (by rw [f1]; exact k2)
      rw [f1] at g
      exact g

/-- C32: let `op` map `[0, n)` into itself with
`op(a·b mod n) = op(a)·op(b) mod n` there, and let every nonce `k` the
generator can return have `fwd(k)` in `[0, n)`, the domain of `op`, and
`op(fwd(k))·inv(k) ≡ 1 (mod n)`.  Then for every `ReinitInterval`, in every
state reached from construction by any calls, and for every `x < n`,
`unblind(op(blind(x))) = op(x)`, with `unblind` applied in the state that the
`blind` call left. -/
theorem blinder_transparent (op : Nat → Nat) (reducer : Barrett_Reduction)
    (rng : RandomNumberGenerator) (fwd inv : Nat → Nat) (ReinitInterval : Nat)
    (calls : List Blinder.Call) (x : Nat)
    (hop : ∀ a, a < reducer.m_modulus → op a < reducer.m_modulus)
    (hmul : ∀ a b, a < reducer.m_modulus → b < reducer.m_modulus →
      op (a * b % reducer.m_modulus) = op a * op b % reducer.m_modulus)
    (hk : ∀ j bits, fwd (rng.source j bits) < reducer.m_modulus ∧
      op (fwd (rng.source j bits)) * inv (rng.source j bits) ≡ 1 [MOD reducer.m_modulus])
    (hx : x < reducer.m_modulus) :
    ((Blinder.run ReinitInterval (Blinder.create reducer rng fwd inv) calls).blind
        ReinitInterval x).2.unblind
      (op ((Blinder.run ReinitInterval (Blinder.create reducer rng fwd inv) calls).blind
        ReinitInterval x).1) = op x := by
  obtain ⟨c1, c2, c3, c4, c5, c6⟩ := Blinder.create_fields reducer rng fwd inv
  have h := Blinder.run_keeps_op_inverse op ReinitInterval (calls ++ [.blind x])
    (Blinder.create reducer rng fwd inv)
    (by rw [c1]; exact hmul)
    (by
      intro j bits
      rw [c1, c2, c3, c4]
      exact hk j bits)
    (by rw [c1, c5]; exact (hk _ _).1)
    (by rw [c1, c5, c6]; exact (hk _ _).2)
  have hrun : Blinder.run ReinitInterval (Blinder.create reducer rng fwd inv)
      (calls ++ [.blind x]) =
      ((Blinder.run ReinitInterval (Blinder.create reducer rng fwd inv) calls).blind
        ReinitInterval x).2 := by
    simp [Blinder.run, Blinder.step]
  rw [hrun, c1] at h
  obtain ⟨hr, hlt, hed⟩ := h
  generalize Blinder.run ReinitInterval (Blinder.create reducer rng fwd inv) calls = s
    at hr hlt hed ⊢
  have hval : (s.blind ReinitInterval x).1 =
      (x * (s.blind ReinitInterval x).2.m_e) % (s.blind ReinitInterval x).2.m_reducer.m_modulus :=
    rfl
  unfold Blinder.unblind Barrett_Reduction.multiply
  rw [hval, hr, hmul _ _ hx hlt]
  have h1 : op x * op (s.blind ReinitInterval x).2.m_e % reducer.m_modulus *
      (s.blind ReinitInterval x).2.m_d ≡
      op x * op (s.blind ReinitInterval x).2.m_e * (s.blind ReinitInterval x).2.m_d
        [MOD reducer.m_modulus] :=
    Nat.ModEq.mul_right _ (Nat.mod_modEq _ _)
  have h2 : op x * op (s.blind ReinitInterval x).2.m_e * (s.blind ReinitInterval x).2.m_d
      ≡ op x * 1 [MOD reducer.m_modulus] := by
    rw [Nat.mul_assoc]
    exact Nat.ModEq.mul_left _ hed
  have h3 := h1.trans h2
  rw [Nat.mul_one] at h3
  unfold Nat.ModEq at h3
  rw [h3]
  exact Nat.mod_eq_of_lt (hop x hx)


/-- C32 at a concrete input: modulus 7, `op(y) = y^5 mod 7` (the private
operation for exponents `e = d = 5`), `fwd(k) = k^5 mod 7`,
`inv(k) = k^5 mod 7 = k^-1`, nonce 2, `ReinitInterval = 1`, after two `blind`
calls, `x = 5`. -/
theorem blinder_transparent_mod7 :
    ((Blinder.run 1 (Blinder.create ⟨7, 3⟩ two_rng (fun k => k ^ 5 % 7) (fun k => k ^ 5 % 7))
        [.blind 3, .blind 6]).blind 1 5).2.unblind
      ((fun y => y ^ 5 % 7)
        ((Blinder.run 1 (Blinder.create ⟨7, 3⟩ two_rng (fun k => k ^ 5 % 7) (fun k => k ^ 5 % 7))
          [.blind 3, .blind 6]).blind 1 5).1) = (fun y => y ^ 5 % 7) 5 :=
  blinder_transparent (fun y => y ^ 5 % 7) ⟨7, 3⟩ two_rng (fun k => k ^ 5 % 7)
    (fun k => k ^ 5 % 7) 1 [.blind 3, .blind 6] 5
    (fun a _ => Nat.mod_lt _ (by decide))
    (fun a b _ _ => by
      show (a * b % 7) ^ 5 % 7 = a ^ 5 % 7 * (b ^ 5 % 7) % 7
      rw [← Nat.pow_mod, Nat.mul_pow, Nat.mul_mod])
    (fun _ _ => by
      show 2 ^ 5 % 7 < 7 ∧ (2 ^ 5 % 7) ^ 5 % 7 * (2 ^ 5 % 7) ≡ 1 [MOD 7]
      decide)
    (by decide)


/-! ## The Blinder's reinitialisation period -/

/-- What one `blind` call does to the counter and to the generator's log when
the counter is at most `R` and `R + 1` fits a `size_t`. -/
theorem Blinder.blind_period_step (R : Nat) (b : Blinder) (x : Nat)
    (hR : 0 < R) (hR2 : R + 1 < 2 ^ 64) (hc : b.m_counter ≤ R) :
    (b.blind R x).2.m_modulus_bits = b.m_modulus_bits ∧
    (b.m_counter = R →
      (b.blind R x).2.m_counter = 0 ∧
        (b.blind R x).2.m_rng.requests =
          b.m_rng.requests ++ [(b.m_modulus_bits + 2 ^ 64 - 1) % 2 ^ 64] ∧
        (b.blind R x).1 = x * b.m_fwd_fn (b.m_rng.source b.m_rng.requests.length
          ((b.m_modulus_bits + 2 ^ 64 - 1) % 2 ^ 64)) % b.m_reducer.m_modulus) ∧
    (b.m_counter ≠ R →
      (b.blind R x).2.m_counter = b.m_counter + 1 ∧
        (b.blind R x).2.m_rng.requests = b.m_rng.requests ∧
        (b.blind R x).1 = x * (b.m_e * b.m_e % b.m_reducer.m_modulus)
          % b.m_reducer.m_modulus) := by
  have hm : (b.m_counter + 1) % 2 ^ 64 = b.m_counter + 1 := Nat.mod_eq_of_lt (by omega)
  refine ⟨?_, ?_, ?_⟩
  · unfold Blinder.blind
    simp only []
    split <;> rfl
  · intro he
    have hr : 0 < R ∧ R < (b.m_counter + 1) % 2 ^ 64 := by
      rw [hm]
      omega
    unfold Blinder.blind
    simp only []
    rw [if_pos hr]
    exact ⟨rfl, rfl, rfl⟩
  · intro hne
    have hr : ¬ (0 < R ∧ R < (b.m_counter + 1) % 2 ^ 64) := by
      rw [hm]
      omega
    unfold Blinder.blind
    simp only []
    rw [if_neg hr]
    exact ⟨hm, rfl, rfl⟩

/-- The members that no call writes. -/
theorem Blinder.run_frame (R : Nat) (calls : List Blinder.Call) (b : Blinder) :
    (Blinder.run R b calls).m_reducer = b.m_reducer ∧
      (Blinder.run R b calls).m_fwd_fn = b.m_fwd_fn ∧
      (Blinder.run R b calls).m_inv_fn = b.m_inv_fn ∧
      (Blinder.run R b calls).m_rng.source = b.m_rng.source ∧
      (Blinder.run R b calls).m_modulus_bits = b.m_modulus_bits := by
  induction calls generalizing b with
  | nil => exact ⟨rfl, rfl, rfl, rfl, rfl⟩
  | cons c cs ih =>
    cases c with
    | unblind y => exact ih b
    | blind x =>
      obtain ⟨f1, f2, f3, f4⟩ := Blinder.blind_frame R b x
      have f5 : (b.blind R x).2.m_modulus_bits = b.m_modulus_bits := by
        unfold Blinder.blind
        simp only []
        split <;> rfl
      obtain ⟨g1, g2, g3, g4, g5⟩ := ih (b.blind R x).2
      exact ⟨g1.trans f1, g2.trans f2, g3.trans f3, g4.trans f4, g5.trans f5⟩

/-- The counter never exceeds `R`. -/
theorem Blinder.run_counter_le (R : Nat) (hR : 0 < R) (hR2 : R + 1 < 2 ^ 64)
    (calls : List Blinder.Call) (b : Blinder) (hc : b.m_counter ≤ R) :
    (Blinder.run R b calls).m_counter ≤ R := by
  induction calls generalizing b with
  | nil => exact hc
  | cons c cs ih =>
    cases c with
    | unblind y => exact ih b hc
    | blind x =>
      apply ih (b.blind R x).2
      obtain ⟨-, h1, h2⟩ := Blinder.blind_period_step R b x hR hR2 hc
      by_cases he : b.m_counter = R
      · rw [(h1 he).1]
        omega
      · rw [(h2 he).1]
        omega

/-- After `m` `blind` calls, `m = (R + 1)·q + c` with `c ≤ R`, the counter is
`c` and `1 + q` nonces have been requested. -/
theorem Blinder.run_period (R : Nat) (hR : 0 < R) (hR2 : R + 1 < 2 ^ 64)
    (reducer : Barrett_Reduction) (rng : RandomNumberGenerator) (fwd inv : Nat → Nat)
    (xs : List Nat) :
    ∃ q c, xs.length = (R + 1) * q + c ∧ c ≤ R ∧
      (Blinder.run R (Blinder.create reducer rng fwd inv) (xs.map .blind)).m_counter = c ∧
      (Blinder.run R (Blinder.create reducer rng fwd inv) (xs.map .blind)).m_rng.requests.length
        = rng.requests.length + 1 + q := by
  induction xs using List.reverseRecOn with
  | nil =>
    refine ⟨0, 0, rfl, Nat.zero_le _, rfl, ?_⟩
    show (rng.requests ++ [_]).length = _
    rw [List.length_append, List.length_singleton]
  | append_singleton xs x ih =>
    obtain ⟨q, c, hm, hc, h1, h2⟩ := ih
    rw [Blinder.run_snoc_blind]
    obtain ⟨-, s1, s2⟩ := Blinder.blind_period_step R
      (Blinder.run R (Blinder.create reducer rng fwd inv) (xs.map .blind)) x hR hR2
      (by rw [h1]; exact hc)
    clear hR2
    by_cases he : (Blinder.run R (Blinder.create reducer rng fwd inv)
        (xs.map .blind)).m_counter = R
    · obtain ⟨t1, t2, -⟩ := s1 he
      have hcR : c = R := h1.symm.trans he
      refine ⟨q + 1, 0, ?_, Nat.zero_le _, t1, ?_⟩
      · rw [List.length_append, List.length_singleton, hm, hcR, Nat.mul_add, Nat.mul_one]
        omega
      · rw [t2, List.length_append, List.length_singleton, h2]
        omega
    · obtain ⟨t1, t2, -⟩ := s2 he
      have hcR : c ≠ R := fun hh => he (h1.trans hh)
      refine ⟨q, c + 1, ?_, by omega, ?_, ?_⟩
      · rw [List.length_append, List.length_singleton, hm]
        omega
      · rw [t1, h1]
      · rw [t2, h2]

theorem mod_div_of_repr (R m q c : Nat) (hm : m = (R + 1) * q + c) (hc : c ≤ R) :
    m % (R + 1) = c ∧ m / (R + 1) = q := by
  constructor
  · rw [hm, Nat.mul_add_mod, Nat.mod_eq_of_lt (by omega)]
  · rw [hm, Nat.mul_add_div (by omega), Nat.div_eq_of_lt (by omega), Nat.add_zero]


theorem succ_mod_eq_zero_iff (R m q c : Nat) (hm : m = (R + 1) * q + c) (hc : c ≤ R) :
    (m + 1) % (R + 1) = 0 ↔ c = R := by
  by_cases he : c = R
  · have h1 : m + 1 = (R + 1) * (q + 1) + 0 := by
      rw [hm, he, Nat.mul_add, Nat.mul_one]
      omega
    exact ⟨fun _ => he, fun _ => (mod_div_of_repr R (m + 1) (q + 1) 0 h1 (Nat.zero_le _)).1⟩
  · have h1 : m + 1 = (R + 1) * q + (c + 1) := by
      rw [hm]
      omega
    have h2 := (mod_div_of_repr R (m + 1) q (c + 1) h1 (by omega)).1
    constructor
    · intro h0
      rw [h0] at h2
      omega
    · intro h0
      exact absurd h0 he

/-- C36: let `ReinitInterval = R` with `0 < R < 2^64 - 1`.  In every state
reached from construction the counter is at most `R`.  After `m` `blind` calls
(inputs `xs`, `m = |xs|`) the counter is `m mod (R + 1)` and the generator has
been asked for `1 + m / (R + 1)` nonces; the next call, the `(m+1)`-th, asks
for a nonce exactly when `m + 1` is a multiple of `R + 1`, and then returns
`x · fwd(k') mod n` for the fresh nonce `k'`, unsquared; the first call after
construction returns `x · fwd(k)^2 mod n`. -/
theorem blinder_reinit_period (R : Nat) (hR : 0 < R) (hR2 : R + 1 < 2 ^ 64)
    (reducer : Barrett_Reduction) (rng : RandomNumberGenerator) (fwd inv : Nat → Nat)
    (calls : List Blinder.Call) (xs : List Nat) (x : Nat) :
    (Blinder.run R (Blinder.create reducer rng fwd inv) calls).m_counter ≤ R ∧
    (Blinder.run R (Blinder.create reducer rng fwd inv) (xs.map .blind)).m_counter =
      xs.length % (R + 1) ∧
    (Blinder.run R (Blinder.create reducer rng fwd inv) (xs.map .blind)).m_rng.requests.length =
      rng.requests.length + 1 + xs.length / (R + 1) ∧
    (((Blinder.run R (Blinder.create reducer rng fwd inv)
          (xs.map .blind)).blind R x).2.m_rng.requests.length =
        (Blinder.run R (Blinder.create reducer rng fwd inv)
          (xs.map .blind)).m_rng.requests.length + 1 ↔
      (xs.length + 1) % (R + 1) = 0) ∧
    ((xs.length + 1) % (R + 1) = 0 →
      ((Blinder.run R (Blinder.create reducer rng fwd inv) (xs.map .blind)).blind R x).1 =
        x * fwd (rng.source
          (Blinder.run R (Blinder.create reducer rng fwd inv)
            (xs.map .blind)).m_rng.requests.length
          ((reducer.modulus_bits + 2 ^ 64 - 1) % 2 ^ 64)) % reducer.m_modulus) ∧
    ((Blinder.create reducer rng fwd inv).blind R x).1 =
      x * fwd (rng.source rng.requests.length ((reducer.modulus_bits + 2 ^ 64 - 1) % 2 ^ 64)) ^ 2
        % reducer.m_modulus := by
  obtain ⟨c1, c2, -, c4, c5, -⟩ := Blinder.create_fields reducer rng fwd inv
  have c0 : (Blinder.create reducer rng fwd inv).m_counter = 0 := rfl
  have cb : (Blinder.create reducer rng fwd inv).m_modulus_bits = reducer.modulus_bits := rfl
  obtain ⟨q, c, hm, hc, h1, h2⟩ := Blinder.run_period R hR hR2 reducer rng fwd inv xs
  obtain ⟨hmod, hdiv⟩ := mod_div_of_repr R xs.length q c hm hc
  obtain ⟨f1, f2, -, f4, f5⟩ := Blinder.run_frame R (xs.map .blind)
    (Blinder.create reducer rng fwd inv)
  obtain ⟨-, s1, s2⟩ := Blinder.blind_period_step R
    (Blinder.run R (Blinder.create reducer rng fwd inv) (xs.map .blind)) x hR hR2
    (by rw [h1]; exact hc)
  have hiff := succ_mod_eq_zero_iff R xs.length q c hm hc
  refine ⟨?_, ?_, ?_, ?_, ?_, ?_⟩
  · exact Blinder.run_counter_le R hR hR2 calls _ (by rw [c0]; exact Nat.zero_le _)
  · rw [h1, hmod]
  · rw [h2, hdiv]
  · rw [hiff, ← h1]
    constructor
    · intro hl
      by_contra hne
      rw [(s2 hne).2.1] at hl
      omega
    · intro he
      rw [(s1 he).2.1, List.length_append, List.length_singleton]
  · intro h0
    have he : (Blinder.run R (Blinder.create reducer rng fwd inv)
        (xs.map .blind)).m_counter = R := by
      rw [h1]
      exact hiff.mp h0
    rw [(s1 he).2.2, f1, f2, f4, f5, c1, c2, c4, cb]
  · obtain ⟨-, -, t2⟩ := Blinder.blind_period_step R (Blinder.create reducer rng fwd inv) x
      hR hR2 (by rw [c0]; exact Nat.zero_le _)
    have hne : (Blinder.create reducer rng fwd inv).m_counter ≠ R := by
      rw [c0]
      omega
    rw [(t2 hne).2.2, c1, c5, Nat.mul_mod_mod, Nat.pow_two]

/-- C36 at a concrete input: `R = 2`, modulus 7, nonce 2, `fwd = inv = id`.
After five `blind` calls the counter is `5 mod 3 = 2` and two nonces have been
requested; the sixth call requests the third. -/
theorem blinder_reinit_period_mod7 :
    (Blinder.run 2 (Blinder.create ⟨7, 3⟩ two_rng id id)
      ([1, 2, 3, 4, 5].map .blind)).m_counter = 2 ∧
    (Blinder.run 2 (Blinder.create ⟨7, 3⟩ two_rng id id)
      ([1, 2, 3, 4, 5].map .blind)).m_rng.requests.length = 2 ∧
    ((Blinder.run 2 (Blinder.create ⟨7, 3⟩ two_rng id id)
      ([1, 2, 3, 4, 5].map .blind)).blind 2 6).2.m_rng.requests.length = 3 ∧
    ((Blinder.run 2 (Blinder.create ⟨7, 3⟩ two_rng id id)
      ([1, 2, 3, 4, 5].map .blind)).blind 2 6).1 = 6 * 2 % 7 ∧
    ((Blinder.create ⟨7, 3⟩ two_rng id id).blind 2 6).1 = 6 * 2 ^ 2 % 7 := by
  have h := blinder_reinit_period 2 (by decide) (by decide) ⟨7, 3⟩ two_rng id id []
    [1, 2, 3, 4, 5] 6
  obtain ⟨-, h1, h2, h3, h4, h5⟩ := h
  refine ⟨h1, h2, ?_, ?_, h5⟩
  · rw [h3.mpr (by decide), h2]
    rfl
  · rw [h4 (by decide)]
    rfl


/-! ## ECIES ciphertext framing -/

theorem split_three (input : List Nat) (p m : Nat) (h : p + m ≤ input.length) :
    (input.take p).length = p ∧
      ((input.take (input.length - m)).drop p).length = input.length - p - m ∧
      (input.drop (input.length - m)).length = m ∧
      input.take p ++ (input.take (input.length - m)).drop p ++ input.drop (input.length - m)
        = input := by
  refine ⟨?_, ?_, ?_, ?_⟩
  · rw [List.length_take]
    omega
  · rw [List.length_drop, List.length_take]
    omega
  · rw [List.length_drop]
    omega
  · have h1 : input.take p = (input.take (input.length - m)).take p := by
      rw [List.take_take, Nat.min_eq_left (by omega)]
    rw [h1, List.take_append_drop, List.take_append_drop]

theorem split_three_append (a b c : List Nat) :
    (a ++ b ++ c).take a.length = a ∧
      ((a ++ b ++ c).take ((a ++ b ++ c).length - c.length)).drop a.length = b ∧
      (a ++ b ++ c).drop ((a ++ b ++ c).length - c.length) = c := by
  have hl : (a ++ b ++ c).length - c.length = (a ++ b).length := by
    rw [List.length_append (a ++ b) c]
    omega
  refine ⟨?_, ?_, ?_⟩
  · rw [List.append_assoc, List.take_left]
  · rw [hl, List.take_left, List.drop_left]
  · rw [hl, List.drop_left]

/-- C37 (as amended): with `point_size = 1 + p_bytes` for the compressed format
and `1 + 2·p_bytes` otherwise, `do_decrypt` fails with `Decoding_Error`
whenever `in_len < point_size + mac_length`, and `plaintext_length` returns 0
for all those lengths; for longer lengths `plaintext_length` is the cipher's
`output_length(ctext_len - point_size - mac_length)`.  For
`in_len ≥ point_size + mac_length` the input is split into three contiguous
parts of lengths `point_size`, `in_len - point_size - mac_length` and
`mac_length` whose concatenation is the input; `enc` returns
`eph_public_key ++ ciphertext ++ mac`, and an input of that form with a key of
`point_size` bytes and a MAC of `mac_length` bytes is split into exactly
these three parts. -/
theorem ecies_framing {α : Type} (d : ECIES_Decryptor)
    (rest : List Nat → List Nat → List Nat → Except Exception α) (input : List Nat)
    (ctext_len : Nat) (e : ECIES_Encryptor)
    (encrypt_and_mac : List Nat → Except Exception (List Nat × List Nat))
    (data encrypted_data mac : List Nat) :
    (compute_point_size d.m_params.m_group d.m_params.m_point_format =
      if d.m_params.m_point_format = EC_Point_Format.Compressed then
        1 + d.m_params.m_group.p_bytes
      else 1 + 2 * d.m_params.m_group.p_bytes) ∧
    (input.length < compute_point_size d.m_params.m_group d.m_params.m_point_format
        + d.m_mac_output_length →
      d.do_decrypt rest input =
        .error (.Decoding_Error "ECIES decryption: ciphertext is too short")) ∧
    (ctext_len < compute_point_size d.m_params.m_group d.m_params.m_point_format
        + d.m_mac_output_length →
      d.plaintext_length ctext_len = 0) ∧
    (compute_point_size d.m_params.m_group d.m_params.m_point_format + d.m_mac_output_length
        ≤ ctext_len →
      d.plaintext_length ctext_len = d.m_cipher_output_length (ctext_len -
        (compute_point_size d.m_params.m_group d.m_params.m_point_format
          + d.m_mac_output_length))) ∧
    (compute_point_size d.m_params.m_group d.m_params.m_point_format + d.m_mac_output_length
        ≤ input.length →
      ∃ p1 p2 p3, d.do_decrypt rest input = rest p1 p2 p3 ∧
        p1.length = compute_point_size d.m_params.m_group d.m_params.m_point_format ∧
        p2.length = input.length
          - compute_point_size d.m_params.m_group d.m_params.m_point_format
          - d.m_mac_output_length ∧
        p3.length = d.m_mac_output_length ∧
        p1 ++ p2 ++ p3 = input) ∧
    (e.m_other_point.isNone = false → encrypt_and_mac data = .ok (encrypted_data, mac) →
      e.enc encrypt_and_mac data = .ok (e.m_eph_public_key_bin ++ encrypted_data ++ mac)) ∧
    (e.m_eph_public_key_bin.length =
        compute_point_size d.m_params.m_group d.m_params.m_point_format →
      mac.length = d.m_mac_output_length →
      d.do_decrypt rest (e.m_eph_public_key_bin ++ encrypted_data ++ mac) =
        rest e.m_eph_public_key_bin encrypted_data mac) := by
  refine ⟨rfl, ?_, ?_, ?_, ?_, ?_, ?_⟩
  · intro h
    unfold ECIES_Decryptor.do_decrypt
    simp only []
    rw [if_pos h]
  · intro h
    unfold ECIES_Decryptor.plaintext_length
    simp only []
    rw [if_pos h]
  · intro h
    unfold ECIES_Decryptor.plaintext_length
    simp only []
    rw [if_neg (by omega)]
  · intro h
    obtain ⟨l1, l2, l3, hcat⟩ := split_three input
      (compute_point_size d.m_params.m_group d.m_params.m_point_format)
      d.m_mac_output_length h
    refine ⟨_, _, _, ?_, l1, l2, l3, hcat⟩
    unfold ECIES_Decryptor.do_decrypt
    simp only []
    rw [if_neg (by omega)]
  · intro hset hs
    unfold ECIES_Encryptor.enc
    rw [hset, hs]
    rfl
  · intro hk hm
    obtain ⟨t1, t2, t3⟩ := split_three_append e.m_eph_public_key_bin encrypted_data mac
    have hlen : ¬ ((e.m_eph_public_key_bin ++ encrypted_data ++ mac).length <
        compute_point_size d.m_params.m_group d.m_params.m_point_format
          + d.m_mac_output_length) := by
      rw [List.length_append, List.length_append, hk, hm]
      omega
    unfold ECIES_Decryptor.do_decrypt
    simp only []
    rw [if_neg hlen, ← hk, ← hm, t1, t2, t3]

/-- C37 (as amended) at a concrete input: for the sample decryptor (33-byte
points, 32-byte MAC) a 64-byte input is refused and a 70-byte input is split
into parts of 33, 5 and 32 bytes. -/
theorem ecies_framing_sample :
    sample_decryptor.do_decrypt (fun a b c => .ok (a.length, b, c.length)) (List.range 64) =
      .error (.Decoding_Error "ECIES decryption: ciphertext is too short") ∧
    sample_decryptor.plaintext_length 64 = 0 ∧
    sample_decryptor.plaintext_length 70 = 5 ∧
    ∃ p1 p2 p3,
      sample_decryptor.do_decrypt (fun a b c => .ok (a.length, b, c.length)) (List.range 70) =
        .ok (p1.length, p2, p3.length) ∧
      p1.length = 33 ∧ p2.length = 5 ∧ p3.length = 32 ∧ p1 ++ p2 ++ p3 = List.range 70 := by
  have h64 := ecies_framing sample_decryptor (fun a b c => .ok (a.length, b, c.length))
    (List.range 64) 64 ⟨[], none⟩ (fun _ => .ok ([], [])) [] [] []
  have h70 := ecies_framing sample_decryptor (fun a b c => .ok (a.length, b, c.length))
    (List.range 70) 70 ⟨[], none⟩ (fun _ => .ok ([], [])) [] [] []
  refine ⟨h64.2.1 (by decide), h64.2.2.1 (by decide), h70.2.2.2.1 (by decide), ?_⟩
  obtain ⟨p1, p2, p3, e1, l1, l2, l3, hc⟩ := h70.2.2.2.2.1 (by decide)
  exact ⟨p1, p2, p3, e1, l1, l2, l3, hc⟩

/-- C37 (as stated) fails: for the sample decryptor, whose cipher mode gives
`output_length(0) = 0`, `plaintext_length(65)` is 0 although 65 is not below
`point_size + mac_length = 33 + 32`. -/
theorem ecies_plaintext_length_zero_at_overhead :
    compute_point_size sample_decryptor.m_params.m_group sample_decryptor.m_params.m_point_format
      + sample_decryptor.m_mac_output_length = 65 ∧
    sample_decryptor.plaintext_length 65 = 0 ∧
    ¬ (65 < compute_point_size sample_decryptor.m_params.m_group
        sample_decryptor.m_params.m_point_format + sample_decryptor.m_mac_output_length) :=
  ⟨by decide, by decide, by decide⟩

end Botan
